import Mathlib

/-! # Time steppers of `src/timestepper/ChTimestepper.h`

A shallow embedding of the seven `Advance` methods of `ChTimestepper.h`.

* `double` is idealised as an arbitrary linearly ordered field `K` (exact arithmetic, no
  rounding); concrete scenarios are evaluated at `K = ℚ`.
* `ChState`, `ChStateDelta` and `ChVectorDynamic<>` are vectors `Fin n → K` whose dimension is
  the one the system reports (`GetNcoords_*`, `GetNconstr`), fixed in the type.
* The integrable system (`ChIntegrable.h`, not part of the sources at hand) is a parameter: a
  record of functions over an arbitrary internal state `σ`.
* Every call a stepper issues on the system is appended to a call log, so that statements
  about the order and the arguments of the calls can be made.
-/

namespace chrono

/-- Dense column vector of `ChVectorDynamic<double>` with `n` rows. -/
abbrev ChVectorDynamic (K : Type) (n : Nat) : Type := Fin n → K

/-- Position-like state `ChState` with `n` coordinates. -/
abbrev ChState (K : Type) (n : Nat) : Type := Fin n → K

/-- Tangent-space vector `ChStateDelta` with `n` coordinates. -/
abbrev ChStateDelta (K : Type) (n : Nat) : Type := Fin n → K

section Vectors

variable {K : Type} [LinearOrderedField K] {n : Nat}

/-- Product `v * s` of a vector by a scalar (`operator*(double)` of the matrix classes). -/
def scale (v : Fin n → K) (s : K) : Fin n → K := fun i => v i * s

/-- Modelled from the spec: `Reset()` of the matrix class (`ChMatrix.h` is not among the
sources) zeroes the vector ("zero and accumulate the residual vector"). -/
def Reset (_v : ChVectorDynamic K n) : ChVectorDynamic K n := fun _ => 0

/-- Modelled from the spec: `NormInf()` of the matrix class (`ChMatrix.h` is not among the
sources) is the infinity norm, the largest absolute value of an entry (0 for no entries). -/
def NormInf (v : ChVectorDynamic K n) : K :=
  (List.ofFn v).foldl (fun norm el => if norm < |el| then |el| else norm) 0

end Vectors

/-- Call log together with the internal state of the attached system. -/
structure Env (σ C : Type) where
  system : σ
  calls : List C

/-! ## First-order systems and steppers -/

/-- Interface of a first-order integrable system (`ChIntegrable`), with internal state `σ`,
`ny = GetNcoords_y()`, `ndy = GetNcoords_dy()` and `nc = GetNconstr()`.
Modelled from the spec: the header `ChIntegrable.h` is not among the sources; gather returns
the system's state and time, scatter pushes a state and a time into the system, solve returns
the increment `Dy` and the multipliers `L` and may change the system. -/
structure ChIntegrable (K σ : Type) (ny ndy nc : Nat) where
  StateGather : σ → ChState K ny × K
  StateScatter : σ → ChState K ny → K → σ
  StateIncrement : ChState K ny → ChStateDelta K ndy → ChState K ny
  StateSolve : σ → ChState K ny → K → K → Bool → (ChStateDelta K ndy × ChVectorDynamic K nc) × σ

/-- Calls a first-order stepper issues on its system, with their arguments. The dimension
queries `GetNcoords_y()`, `GetNcoords_dy()`, `GetNconstr()` and the state increment behind
`operator+`, which leave the system as it is, are not recorded. -/
inductive CallI (K : Type) (ny ndy nc : Nat) where
  | StateSetup
  | StateGather
  | StateScatter (y : ChState K ny) (T : K)
  | StateSolve (y : ChState K ny) (T dt : K) (force_state_scatter : Bool)

/-- Members of `ChTimestepperIorder` (with the time `T` of `ChTimestepper`). -/
structure ChTimestepperIorder (K : Type) (ny ndy : Nat) where
  Y : ChState K ny
  dYdt : ChStateDelta K ndy
  T : K

namespace ChTimestepperIorder

variable {K : Type} {ny ndy : Nat}

/-- Method `GetTime()`. -/
def GetTime (self : ChTimestepperIorder K ny ndy) : K := self.T

/-- Method `SetTime(mt)`. -/
def SetTime (self : ChTimestepperIorder K ny ndy) (mt : K) : ChTimestepperIorder K ny ndy :=
  { self with T := mt }

end ChTimestepperIorder

namespace ChIntegrable

variable {K σ : Type} {ny ndy nc : Nat}

/-- Call of `StateSetup(Y(), dYdt())`.
Modelled from the spec: the containers are resized to the dimensions the system reports; at the
dimensions fixed here they keep their contents. -/
def call_StateSetup (_I : ChIntegrable K σ ny ndy nc) (self : ChTimestepperIorder K ny ndy)
    (e : Env σ (CallI K ny ndy nc)) : ChTimestepperIorder K ny ndy × Env σ (CallI K ny ndy nc) :=
  (self, { e with calls := e.calls ++ [CallI.StateSetup] })

/-- Call of `StateGather(Y(), T)`: state and time are read from the system. -/
def call_StateGather (I : ChIntegrable K σ ny ndy nc) (self : ChTimestepperIorder K ny ndy)
    (e : Env σ (CallI K ny ndy nc)) : ChTimestepperIorder K ny ndy × Env σ (CallI K ny ndy nc) :=
  ({ self with Y := (I.StateGather e.system).1, T := (I.StateGather e.system).2 },
   { e with calls := e.calls ++ [CallI.StateGather] })

/-- Call of `StateScatter(y, T)`. -/
def call_StateScatter (I : ChIntegrable K σ ny ndy nc) (y : ChState K ny) (T : K)
    (e : Env σ (CallI K ny ndy nc)) : Env σ (CallI K ny ndy nc) :=
  { system := I.StateScatter e.system y T, calls := e.calls ++ [CallI.StateScatter y T] }

/-- Call of `StateSolve(Dy, L, y, T, dt, force_state_scatter)`; returns `(Dy, L)`. -/
def call_StateSolve (I : ChIntegrable K σ ny ndy nc) (y : ChState K ny) (T dt : K)
    (force_state_scatter : Bool) (e : Env σ (CallI K ny ndy nc)) :
    (ChStateDelta K ndy × ChVectorDynamic K nc) × Env σ (CallI K ny ndy nc) :=
  ((I.StateSolve e.system y T dt force_state_scatter).1,
   { system := (I.StateSolve e.system y T dt force_state_scatter).2,
     calls := e.calls ++ [CallI.StateSolve y T dt force_state_scatter] })

end ChIntegrable

section FirstOrderSteppers

variable {K σ : Type} [LinearOrderedField K] {ny ndy nc : Nat}

/-- Method `ChTimestepperEuleroExpl::Advance(dt)`. -/
def ChTimestepperEuleroExpl.Advance (I : ChIntegrable K σ ny ndy nc) (dt : K)
    (self : ChTimestepperIorder K ny ndy) (e : Env σ (CallI K ny ndy nc)) :
    ChTimestepperIorder K ny ndy × Env σ (CallI K ny ndy nc) :=
  let s1 := I.call_StateSetup self e
  let s2 := I.call_StateGather s1.1 s1.2
  let self := s2.1
  -- StateSolve(Dy, L, Y(), T, dt, false)
  let r := I.call_StateSolve self.Y self.T dt false s2.2
  let Dy := r.1.1
  -- Y() = Y() + Dy;  dYdt() = Dy*(1./dt);  T += dt
  let self := { self with Y := I.StateIncrement self.Y Dy }
  let self := { self with dYdt := scale Dy (1 / dt) }
  let self := { self with T := self.T + dt }
  (self, I.call_StateScatter self.Y self.T r.2)

/-- Method `ChTimestepperRungeKuttaExpl::Advance(dt)`. The second to fourth `StateSolve` use the
default value `true` of `force_state_scatter`. -/
def ChTimestepperRungeKuttaExpl.Advance (I : ChIntegrable K σ ny ndy nc) (dt : K)
    (self : ChTimestepperIorder K ny ndy) (e : Env σ (CallI K ny ndy nc)) :
    ChTimestepperIorder K ny ndy × Env σ (CallI K ny ndy nc) :=
  let s1 := I.call_StateSetup self e
  let s2 := I.call_StateGather s1.1 s1.2
  let self := s2.1
  let r1 := I.call_StateSolve self.Y self.T dt false s2.2
  let Dy1 := r1.1.1
  let y_new := I.StateIncrement self.Y (scale Dy1 0.5)
  let r2 := I.call_StateSolve y_new (self.T + dt * 0.5) dt true r1.2
  let Dy2 := r2.1.1
  let y_new := I.StateIncrement self.Y (scale Dy2 0.5)
  let r3 := I.call_StateSolve y_new (self.T + dt * 0.5) dt true r2.2
  let Dy3 := r3.1.1
  let y_new := I.StateIncrement self.Y Dy3
  let r4 := I.call_StateSolve y_new (self.T + dt) dt true r3.2
  let Dy4 := r4.1.1
  let self := { self with
    Y := I.StateIncrement self.Y (scale (Dy1 + scale Dy2 2.0 + scale Dy3 2.0 + Dy4) (1 / 6)) }
  let self := { self with dYdt := scale Dy4 (1 / dt) }
  let self := { self with T := self.T + dt }
  (self, I.call_StateScatter self.Y self.T r4.2)

/-- Method `ChTimestepperHeun::Advance(dt)`. The second `StateSolve` uses the default value
`true` of `force_state_scatter`. -/
def ChTimestepperHeun.Advance (I : ChIntegrable K σ ny ndy nc) (dt : K)
    (self : ChTimestepperIorder K ny ndy) (e : Env σ (CallI K ny ndy nc)) :
    ChTimestepperIorder K ny ndy × Env σ (CallI K ny ndy nc) :=
  let s1 := I.call_StateSetup self e
  let s2 := I.call_StateGather s1.1 s1.2
  let self := s2.1
  let r1 := I.call_StateSolve self.Y self.T dt false s2.2
  let Dy1 := r1.1.1
  let y_new := I.StateIncrement self.Y Dy1
  let r2 := I.call_StateSolve y_new (self.T + dt) dt true r1.2
  let Dy2 := r2.1.1
  let self := { self with Y := I.StateIncrement self.Y (scale (Dy1 + Dy2) (1 / 2)) }
  let self := { self with dYdt := scale Dy2 (1 / dt) }
  let self := { self with T := self.T + dt }
  (self, I.call_StateScatter self.Y self.T r2.2)

end FirstOrderSteppers

/-! ## Second-order systems and steppers -/

/-- Interface of a second-order integrable system (`ChIntegrableIIorder`), with internal state
`σ`, `nx = GetNcoords_x()`, `nv = GetNcoords_v()` and `nc = GetNconstr()`.
Modelled from the spec: the header `ChIntegrable.h` is not among the sources; gather returns
the system's state and time, scatter pushes a state and a time into the system, the two solves
return their results `(Dv, L)` and may change the system, the four load functions accumulate
into the vector they are given. -/
structure ChIntegrableIIorder (K σ : Type) (nx nv nc : Nat) where
  StateGather : σ → ChState K nx × ChStateDelta K nv × K
  StateScatter : σ → ChState K nx → ChStateDelta K nv → K → σ
  StateIncrementX : ChState K nx → ChStateDelta K nv → ChState K nx
  StateSolveA : σ → ChState K nx → ChStateDelta K nv → K → K → Bool →
    (ChStateDelta K nv × ChVectorDynamic K nc) × σ
  StateSolveCorrection : σ → ChVectorDynamic K nv → K → K → K → ChState K nx →
    ChStateDelta K nv → K → Bool → (ChStateDelta K nv × ChVectorDynamic K nc) × σ
  LoadResidual_F : σ → ChVectorDynamic K nv → K → ChVectorDynamic K nv
  LoadResidual_Mv : σ → ChVectorDynamic K nv → ChVectorDynamic K nv → K → ChVectorDynamic K nv
  LoadResidual_CqL : σ → ChVectorDynamic K nv → ChVectorDynamic K nc → K → ChVectorDynamic K nv
  LoadConstraint_C : σ → ChVectorDynamic K nc → K → ChVectorDynamic K nc

/-- Calls a second-order stepper issues on its system, with their arguments (for the load
functions the first argument is the content of the vector handed in). The dimension queries
`GetNcoords_x()`, `GetNcoords_v()`, `GetNconstr()` and the state increment behind `operator+`,
which leave the system as it is, are not recorded. -/
inductive CallII (K : Type) (nx nv nc : Nat) where
  | StateSetup
  | StateGather
  | StateScatter (x : ChState K nx) (v : ChStateDelta K nv) (T : K)
  | StateSolveA (x : ChState K nx) (v : ChStateDelta K nv) (T dt : K)
      (force_state_scatter : Bool)
  | StateSolveCorrection (R : ChVectorDynamic K nv) (c_a c_v c_x : K) (x : ChState K nx)
      (v : ChStateDelta K nv) (T : K) (force_state_scatter : Bool)
  | LoadResidual_F (R : ChVectorDynamic K nv) (c : K)
  | LoadResidual_Mv (R : ChVectorDynamic K nv) (w : ChVectorDynamic K nv) (c : K)
  | LoadResidual_CqL (R : ChVectorDynamic K nv) (L : ChVectorDynamic K nc) (c : K)
  | LoadConstraint_C (Qc : ChVectorDynamic K nc) (c : K)

/-- Names of the methods of the system interface that a stepper calls. -/
inductive CallKind where
  | StateSetup
  | StateGather
  | StateScatter
  | StateSolve
  | StateSolveA
  | StateSolveCorrection
  | LoadResidual_F
  | LoadResidual_Mv
  | LoadResidual_CqL
  | LoadConstraint_C
  deriving DecidableEq, Repr

/-- Method named by a recorded call of a first-order stepper. -/
def CallI.kind {K : Type} {ny ndy nc : Nat} : CallI K ny ndy nc → CallKind
  | CallI.StateSetup => CallKind.StateSetup
  | CallI.StateGather => CallKind.StateGather
  | CallI.StateScatter _ _ => CallKind.StateScatter
  | CallI.StateSolve _ _ _ _ => CallKind.StateSolve

/-- Method named by a recorded call of a second-order stepper. -/
def CallII.kind {K : Type} {nx nv nc : Nat} : CallII K nx nv nc → CallKind
  | CallII.StateSetup => CallKind.StateSetup
  | CallII.StateGather => CallKind.StateGather
  | CallII.StateScatter _ _ _ => CallKind.StateScatter
  | CallII.StateSolveA _ _ _ _ _ => CallKind.StateSolveA
  | CallII.StateSolveCorrection _ _ _ _ _ _ _ _ => CallKind.StateSolveCorrection
  | CallII.LoadResidual_F _ _ => CallKind.LoadResidual_F
  | CallII.LoadResidual_Mv _ _ _ => CallKind.LoadResidual_Mv
  | CallII.LoadResidual_CqL _ _ _ => CallKind.LoadResidual_CqL
  | CallII.LoadConstraint_C _ _ => CallKind.LoadConstraint_C

/-- Number of recorded calls of the method `k` in a log of a second-order stepper. -/
def CallII.countKind {K : Type} {nx nv nc : Nat} (k : CallKind)
    (calls : List (CallII K nx nv nc)) : Nat :=
  (calls.map CallII.kind).count k

/-- Policy of the scatter flag over the calls of one step of a first-order stepper: every
`StateSolve` with the flag `false` is handed the state and time the system holds. `cur` is
what the system holds for certain: nothing before the gather, the gathered state and time after
it, the scattered state and time after a `StateScatter` and after a solve asked to scatter. -/
def CallI.flagPolicy {K : Type} {ny ndy nc : Nat} (gathered : ChState K ny × K) :
    Option (ChState K ny × K) → List (CallI K ny ndy nc) → Prop
  | _, [] => True
  | cur, CallI.StateSetup :: rest => CallI.flagPolicy gathered cur rest
  | _, CallI.StateGather :: rest => CallI.flagPolicy gathered (some gathered) rest
  | _, CallI.StateScatter y T :: rest => CallI.flagPolicy gathered (some (y, T)) rest
  | cur, CallI.StateSolve y T _ false :: rest =>
    cur = some (y, T) ∧ CallI.flagPolicy gathered cur rest
  | _, CallI.StateSolve y T _ true :: rest => CallI.flagPolicy gathered (some (y, T)) rest

/-- Policy of the scatter flag over the calls of one step of a second-order stepper: every
`StateSolveA` and `StateSolveCorrection` with the flag `false` is handed the state and time the
system holds. `cur` is what the system holds for certain: nothing before the gather, the
gathered state and time after it, the scattered state and time after a `StateScatter` and
after a solve asked to scatter; the load functions leave it as it is. -/
def CallII.flagPolicy {K : Type} {nx nv nc : Nat}
    (gathered : ChState K nx × ChStateDelta K nv × K) :
    Option (ChState K nx × ChStateDelta K nv × K) → List (CallII K nx nv nc) → Prop
  | _, [] => True
  | cur, CallII.StateSetup :: rest => CallII.flagPolicy gathered cur rest
  | _, CallII.StateGather :: rest => CallII.flagPolicy gathered (some gathered) rest
  | _, CallII.StateScatter x v T :: rest => CallII.flagPolicy gathered (some (x, v, T)) rest
  | cur, CallII.StateSolveA x v T _ false :: rest =>
    cur = some (x, v, T) ∧ CallII.flagPolicy gathered cur rest
  | _, CallII.StateSolveA x v T _ true :: rest =>
    CallII.flagPolicy gathered (some (x, v, T)) rest
  | cur, CallII.StateSolveCorrection _ _ _ _ x v T false :: rest =>
    cur = some (x, v, T) ∧ CallII.flagPolicy gathered cur rest
  | _, CallII.StateSolveCorrection _ _ _ _ x v T true :: rest =>
    CallII.flagPolicy gathered (some (x, v, T)) rest
  | cur, CallII.LoadResidual_F _ _ :: rest => CallII.flagPolicy gathered cur rest
  | cur, CallII.LoadResidual_Mv _ _ _ :: rest => CallII.flagPolicy gathered cur rest
  | cur, CallII.LoadResidual_CqL _ _ _ :: rest => CallII.flagPolicy gathered cur rest
  | cur, CallII.LoadConstraint_C _ _ :: rest => CallII.flagPolicy gathered cur rest

/-- Members of `ChTimestepperIIorder` (with the time `T` of `ChTimestepper`). -/
structure ChTimestepperIIorder (K : Type) (nx nv : Nat) where
  X : ChState K nx
  V : ChStateDelta K nv
  A : ChStateDelta K nv
  T : K

namespace ChTimestepperIIorder

variable {K : Type} {nx nv : Nat}

/-- Method `GetTime()`. -/
def GetTime (self : ChTimestepperIIorder K nx nv) : K := self.T

/-- Method `SetTime(mt)`. -/
def SetTime (self : ChTimestepperIIorder K nx nv) (mt : K) : ChTimestepperIIorder K nx nv :=
  { self with T := mt }

end ChTimestepperIIorder

namespace ChIntegrableIIorder

variable {K σ : Type} {nx nv nc : Nat}

/-- Call of `StateSetup(X(), V(), A())`.
Modelled from the spec: the containers are resized to the dimensions the system reports; at the
dimensions fixed here they keep their contents. -/
def call_StateSetup (_I : ChIntegrableIIorder K σ nx nv nc) (self : ChTimestepperIIorder K nx nv)
    (e : Env σ (CallII K nx nv nc)) : ChTimestepperIIorder K nx nv × Env σ (CallII K nx nv nc) :=
  (self, { e with calls := e.calls ++ [CallII.StateSetup] })

/-- Call of `StateGather(X(), V(), T)`: state and time are read from the system. -/
def call_StateGather (I : ChIntegrableIIorder K σ nx nv nc) (self : ChTimestepperIIorder K nx nv)
    (e : Env σ (CallII K nx nv nc)) : ChTimestepperIIorder K nx nv × Env σ (CallII K nx nv nc) :=
  ({ self with
      X := (I.StateGather e.system).1
      V := (I.StateGather e.system).2.1
      T := (I.StateGather e.system).2.2 },
   { e with calls := e.calls ++ [CallII.StateGather] })

/-- Call of `StateScatter(x, v, T)`. -/
def call_StateScatter (I : ChIntegrableIIorder K σ nx nv nc) (x : ChState K nx)
    (v : ChStateDelta K nv) (T : K) (e : Env σ (CallII K nx nv nc)) : Env σ (CallII K nx nv nc) :=
  { system := I.StateScatter e.system x v T, calls := e.calls ++ [CallII.StateScatter x v T] }

/-- Call of `StateSolveA(Dv, L, x, v, T, dt, force_state_scatter)`; returns `(Dv, L)`. -/
def call_StateSolveA (I : ChIntegrableIIorder K σ nx nv nc) (x : ChState K nx)
    (v : ChStateDelta K nv) (T dt : K) (force_state_scatter : Bool)
    (e : Env σ (CallII K nx nv nc)) :
    (ChStateDelta K nv × ChVectorDynamic K nc) × Env σ (CallII K nx nv nc) :=
  ((I.StateSolveA e.system x v T dt force_state_scatter).1,
   { system := (I.StateSolveA e.system x v T dt force_state_scatter).2,
     calls := e.calls ++ [CallII.StateSolveA x v T dt force_state_scatter] })

/-- Call of `StateSolveCorrection(Dv, Dl, R, c_a, c_v, c_x, x, v, T, force_state_scatter)`;
returns `(Dv, Dl)`. -/
def call_StateSolveCorrection (I : ChIntegrableIIorder K σ nx nv nc) (R : ChVectorDynamic K nv)
    (c_a c_v c_x : K) (x : ChState K nx) (v : ChStateDelta K nv) (T : K)
    (force_state_scatter : Bool) (e : Env σ (CallII K nx nv nc)) :
    (ChStateDelta K nv × ChVectorDynamic K nc) × Env σ (CallII K nx nv nc) :=
  ((I.StateSolveCorrection e.system R c_a c_v c_x x v T force_state_scatter).1,
   { system := (I.StateSolveCorrection e.system R c_a c_v c_x x v T force_state_scatter).2,
     calls := e.calls ++ [CallII.StateSolveCorrection R c_a c_v c_x x v T force_state_scatter] })

/-- Call of `LoadResidual_F(R, c)`; returns the new content of `R`. -/
def call_LoadResidual_F (I : ChIntegrableIIorder K σ nx nv nc) (R : ChVectorDynamic K nv) (c : K)
    (e : Env σ (CallII K nx nv nc)) : ChVectorDynamic K nv × Env σ (CallII K nx nv nc) :=
  (I.LoadResidual_F e.system R c, { e with calls := e.calls ++ [CallII.LoadResidual_F R c] })

/-- Call of `LoadResidual_Mv(R, w, c)`; returns the new content of `R`. -/
def call_LoadResidual_Mv (I : ChIntegrableIIorder K σ nx nv nc) (R w : ChVectorDynamic K nv)
    (c : K) (e : Env σ (CallII K nx nv nc)) :
    ChVectorDynamic K nv × Env σ (CallII K nx nv nc) :=
  (I.LoadResidual_Mv e.system R w c,
   { e with calls := e.calls ++ [CallII.LoadResidual_Mv R w c] })

/-- Call of `LoadResidual_CqL(R, L, c)`; returns the new content of `R`. -/
def call_LoadResidual_CqL (I : ChIntegrableIIorder K σ nx nv nc) (R : ChVectorDynamic K nv)
    (L : ChVectorDynamic K nc) (c : K) (e : Env σ (CallII K nx nv nc)) :
    ChVectorDynamic K nv × Env σ (CallII K nx nv nc) :=
  (I.LoadResidual_CqL e.system R L c,
   { e with calls := e.calls ++ [CallII.LoadResidual_CqL R L c] })

/-- Call of `LoadConstraint_C(Qc, c)`; returns the new content of `Qc`. -/
def call_LoadConstraint_C (I : ChIntegrableIIorder K σ nx nv nc) (Qc : ChVectorDynamic K nc)
    (c : K) (e : Env σ (CallII K nx nv nc)) :
    ChVectorDynamic K nc × Env σ (CallII K nx nv nc) :=
  (I.LoadConstraint_C e.system Qc c,
   { e with calls := e.calls ++ [CallII.LoadConstraint_C Qc c] })

end ChIntegrableIIorder

section SecondOrderSteppers

variable {K σ : Type} [LinearOrderedField K] {nx nv nc : Nat}

/-- Method `ChTimestepperEuleroExplIIorder::Advance(dt)`. -/
def ChTimestepperEuleroExplIIorder.Advance (I : ChIntegrableIIorder K σ nx nv nc) (dt : K)
    (self : ChTimestepperIIorder K nx nv) (e : Env σ (CallII K nx nv nc)) :
    ChTimestepperIIorder K nx nv × Env σ (CallII K nx nv nc) :=
  let s1 := I.call_StateSetup self e
  let s2 := I.call_StateGather s1.1 s1.2
  let self := s2.1
  -- StateSolveA(Dv, L, X(), V(), T, dt, false)
  let r := I.call_StateSolveA self.X self.V self.T dt false s2.2
  let Dv := r.1.1
  -- A() = Dv*(1./dt);  X() = X() + V()*dt;  V() = V() + Dv;  T += dt
  let self := { self with A := scale Dv (1 / dt) }
  let self := { self with X := I.StateIncrementX self.X (scale self.V dt) }
  let self := { self with V := self.V + Dv }
  let self := { self with T := self.T + dt }
  (self, I.call_StateScatter self.X self.V self.T r.2)

/-- Method `ChTimestepperEuleroSemiImplicit::Advance(dt)`. -/
def ChTimestepperEuleroSemiImplicit.Advance (I : ChIntegrableIIorder K σ nx nv nc) (dt : K)
    (self : ChTimestepperIIorder K nx nv) (e : Env σ (CallII K nx nv nc)) :
    ChTimestepperIIorder K nx nv × Env σ (CallII K nx nv nc) :=
  let s1 := I.call_StateSetup self e
  let s2 := I.call_StateGather s1.1 s1.2
  let self := s2.1
  -- StateSolveA(Dv, L, X(), V(), T, dt, false)
  let r := I.call_StateSolveA self.X self.V self.T dt false s2.2
  let Dv := r.1.1
  -- A() = Dv*(1./dt);  V() = V() + Dv;  X() = X() + V()*dt;  T += dt
  let self := { self with A := scale Dv (1 / dt) }
  let self := { self with V := self.V + Dv }
  let self := { self with X := I.StateIncrementX self.X (scale self.V dt) }
  let self := { self with T := self.T + dt }
  (self, I.call_StateScatter self.X self.V self.T r.2)

/-- Method `ChTimestepperLeapfrog::Advance(dt)`. -/
def ChTimestepperLeapfrog.Advance (I : ChIntegrableIIorder K σ nx nv nc) (dt : K)
    (self : ChTimestepperIIorder K nx nv) (e : Env σ (CallII K nx nv nc)) :
    ChTimestepperIIorder K nx nv × Env σ (CallII K nx nv nc) :=
  let s1 := I.call_StateSetup self e
  let s2 := I.call_StateGather s1.1 s1.2
  let self := s2.1
  -- ChStateDelta Aold(A())
  let Aold := self.A
  -- X() = X() + V()*dt + Aold*(0.5*dt*dt)
  let self := { self with
    X := I.StateIncrementX (I.StateIncrementX self.X (scale self.V dt)) (scale Aold (0.5 * dt * dt)) }
  -- StateSolveA(Dv, L, X(), V(), T, dt, false)
  let r := I.call_StateSolveA self.X self.V self.T dt false s2.2
  let Dv := r.1.1
  -- A() = Dv*(1./dt);  V() = V() + (Aold + A())*(0.5*dt);  T += dt
  let self := { self with A := scale Dv (1 / dt) }
  let self := { self with V := self.V + scale (Aold + self.A) (0.5 * dt) }
  let self := { self with T := self.T + dt }
  (self, I.call_StateScatter self.X self.V self.T r.2)

/-- Caller loop: `N` successive calls `Advance(dt)` of one Leapfrog stepper on one system. -/
def ChTimestepperLeapfrog.AdvanceN (I : ChIntegrableIIorder K σ nx nv nc) (dt : K) :
    Nat → ChTimestepperIIorder K nx nv × Env σ (CallII K nx nv nc) →
      ChTimestepperIIorder K nx nv × Env σ (CallII K nx nv nc)
  | 0, r => r
  | N + 1, r =>
    ChTimestepperLeapfrog.Advance I dt (ChTimestepperLeapfrog.AdvanceN I dt N r).1
      (ChTimestepperLeapfrog.AdvanceN I dt N r).2

/-- Caller loop: `N` successive calls `Advance(dt)` of one explicit Euler II order stepper on
one system. -/
def ChTimestepperEuleroExplIIorder.AdvanceN (I : ChIntegrableIIorder K σ nx nv nc) (dt : K) :
    Nat → ChTimestepperIIorder K nx nv × Env σ (CallII K nx nv nc) →
      ChTimestepperIIorder K nx nv × Env σ (CallII K nx nv nc)
  | 0, r => r
  | N + 1, r =>
    ChTimestepperEuleroExplIIorder.Advance I dt
      (ChTimestepperEuleroExplIIorder.AdvanceN I dt N r).1
      (ChTimestepperEuleroExplIIorder.AdvanceN I dt N r).2

end SecondOrderSteppers

/-! ## Implicit Euler -/

/-- Members of `ChImplicitTimestepper`. -/
structure ChImplicitTimestepper (K : Type) where
  maxiters : Int
  tolerance : K

namespace ChImplicitTimestepper

variable {K : Type} [LinearOrderedField K]

/-- Constructor `ChImplicitTimestepper()`. -/
def new : ChImplicitTimestepper K := { maxiters := 20, tolerance := 1e-10 }

/-- Method `SetMaxiters(miters)`. -/
def SetMaxiters (self : ChImplicitTimestepper K) (miters : Int) : ChImplicitTimestepper K :=
  { self with maxiters := miters }

/-- Method `GetMaxiters()`, which returns the `int` member as a `double`. -/
def GetMaxiters (self : ChImplicitTimestepper K) : K := (self.maxiters : K)

/-- Method `SetTolerance(mtol)`. -/
def SetTolerance (self : ChImplicitTimestepper K) (mtol : K) : ChImplicitTimestepper K :=
  { self with tolerance := mtol }

/-- Method `GetTolerance()`. -/
def GetTolerance (self : ChImplicitTimestepper K) : K := self.tolerance

end ChImplicitTimestepper

/-- Members of `ChTimestepperEulerImplicit`, which inherits from `ChTimestepperIIorder` and
from `ChImplicitTimestepper`. -/
structure ChTimestepperEulerImplicit (K : Type) (nx nv : Nat) extends
    ChTimestepperIIorder K nx nv, ChImplicitTimestepper K

/-- Local variables of `ChTimestepperEulerImplicit::Advance` that live across the passes of
its Newton loop, with the system and the call log. -/
structure NewtonState (K σ : Type) (nx nv nc : Nat) where
  Dv : ChStateDelta K nv
  Dl : ChVectorDynamic K nc
  L : ChVectorDynamic K nc
  Xnew : ChState K nx
  Vnew : ChStateDelta K nv
  R : ChVectorDynamic K nv
  Qc : ChVectorDynamic K nc
  env : Env σ (CallII K nx nv nc)

section ImplicitEuler

variable {K σ : Type} [LinearOrderedField K] {nx nv nc : Nat}

/-- First half of the body of the Newton loop of `ChTimestepperEulerImplicit::Advance`: the
trial state is scattered and the vectors `R` and `Qc` are assembled. `self` holds the gathered
`X()`, `V()`, `T`. -/
def ChTimestepperEulerImplicit.assemble (I : ChIntegrableIIorder K σ nx nv nc) (dt : K)
    (self : ChTimestepperEulerImplicit K nx nv) (s : NewtonState K σ nx nv nc) :
    NewtonState K σ nx nv nc :=
  -- StateScatter(Xnew, Vnew, T+dt)
  let e := I.call_StateScatter s.Xnew s.Vnew (self.T + dt) s.env
  -- R.Reset();  Qc.Reset()
  let s := { s with R := Reset s.R }
  let s := { s with Qc := Reset s.Qc }
  -- LoadResidual_F(R, dt)
  let r := I.call_LoadResidual_F s.R dt e
  let s := { s with R := r.1 }
  -- LoadResidual_Mv(R, (V()-Vnew), 1.0)
  let r := I.call_LoadResidual_Mv s.R (self.V - s.Vnew) 1.0 r.2
  let s := { s with R := r.1 }
  -- LoadResidual_CqL(R, L, dt)
  let r := I.call_LoadResidual_CqL s.R s.L dt r.2
  let s := { s with R := r.1 }
  -- LoadConstraint_C(Qc, 1.0/dt)
  let q := I.call_LoadConstraint_C s.Qc (1.0 / dt) r.2
  { s with Qc := q.1, env := q.2 }

/-- Second half of the body of the Newton loop of `ChTimestepperEulerImplicit::Advance`: the
correction is solved for and applied. `self` holds the gathered `X()`, `V()`, `T`. -/
def ChTimestepperEulerImplicit.correct (I : ChIntegrableIIorder K σ nx nv nc) (dt : K)
    (self : ChTimestepperEulerImplicit K nx nv) (s : NewtonState K σ nx nv nc) :
    NewtonState K σ nx nv nc :=
  -- StateSolveCorrection(Dv, Dl, R, 1.0, -dt, -dt*dt, Xnew, Vnew, T+dt, false)
  let c := I.call_StateSolveCorrection s.R 1.0 (-dt) (-dt * dt) s.Xnew s.Vnew (self.T + dt)
    false s.env
  let s := { s with Dv := c.1.1, Dl := c.1.2, env := c.2 }
  -- Dl *= -(1.0/dt);  L += Dl;  Vnew += Dv;  Xnew = X() + Vnew*dt
  let s := { s with Dl := scale s.Dl (-(1.0 / dt)) }
  let s := { s with L := s.L + s.Dl }
  let s := { s with Vnew := s.Vnew + s.Dv }
  { s with Xnew := I.StateIncrementX self.X (scale s.Vnew dt) }

/-- Newton loop `for (int i = 0; i < GetMaxiters(); ++i)` of
`ChTimestepperEulerImplicit::Advance`; the first argument counts the passes that are left
(`GetMaxiters() - i`, none when `GetMaxiters() ≤ i`), so `Advance` enters it with
`maxiters.toNat`. A pass ends the loop (`break`) when `R.NormInf() < GetTolerance()`. -/
def ChTimestepperEulerImplicit.loop (I : ChIntegrableIIorder K σ nx nv nc) (dt : K)
    (self : ChTimestepperEulerImplicit K nx nv) :
    Nat → NewtonState K σ nx nv nc → NewtonState K σ nx nv nc
  | 0, s => s
  | left + 1, s =>
    let s := ChTimestepperEulerImplicit.assemble I dt self s
    if NormInf s.R < self.GetTolerance then s
    else ChTimestepperEulerImplicit.loop I dt self left
      (ChTimestepperEulerImplicit.correct I dt self s)

/-- Statements of `ChTimestepperEulerImplicit::Advance` up to the Newton loop; returns the
stepper (holding the gathered `X()`, `V()`, `T` and the new `A()`) and the local variables as
the loop finds them: `Dv` and `L` as written by `StateSolveA`, `Xnew` and `Vnew` from the
explicit Euler extrapolation, `Dl`, `R` and `Qc` as constructed (zero). -/
def ChTimestepperEulerImplicit.predict (I : ChIntegrableIIorder K σ nx nv nc) (dt : K)
    (self : ChTimestepperEulerImplicit K nx nv) (e : Env σ (CallII K nx nv nc)) :
    ChTimestepperEulerImplicit K nx nv × NewtonState K σ nx nv nc :=
  let s1 := I.call_StateSetup self.toChTimestepperIIorder e
  let s2 := I.call_StateGather s1.1 s1.2
  let self := { self with toChTimestepperIIorder := s2.1 }
  -- StateSolveA(Dv, L, X(), V(), T, dt, false)
  let r := I.call_StateSolveA self.X self.V self.T dt false s2.2
  let Dv := r.1.1
  let L := r.1.2
  -- A() = Dv*(1./dt);  Xnew = X() + V()*dt;  Vnew = V() + Dv
  let self := { self with A := scale Dv (1 / dt) }
  let Xnew := I.StateIncrementX self.X (scale self.V dt)
  let Vnew := self.V + Dv
  (self, { Dv := Dv, Dl := 0, L := L, Xnew := Xnew, Vnew := Vnew, R := 0, Qc := 0, env := r.2 })

/-- Method `ChTimestepperEulerImplicit::Advance(dt)`. -/
def ChTimestepperEulerImplicit.Advance (I : ChIntegrableIIorder K σ nx nv nc) (dt : K)
    (self : ChTimestepperEulerImplicit K nx nv) (e : Env σ (CallII K nx nv nc)) :
    ChTimestepperEulerImplicit K nx nv × Env σ (CallII K nx nv nc) :=
  let p := ChTimestepperEulerImplicit.predict I dt self e
  let self := p.1
  let s := ChTimestepperEulerImplicit.loop I dt self self.maxiters.toNat p.2
  -- X() = Xnew;  V() = Vnew;  T += dt
  let self := { self with X := s.Xnew }
  let self := { self with V := s.Vnew }
  let self := { self with T := self.T + dt }
  (self, I.call_StateScatter self.X self.V self.T s.env)

/-- Local variables of `ChTimestepperEulerImplicit::Advance` at the start of pass `k` of the
Newton loop (`i = k`), provided none of the passes before it ended the loop: each of them
assembled and corrected. -/
def ChTimestepperEulerImplicit.pass (I : ChIntegrableIIorder K σ nx nv nc) (dt : K)
    (self : ChTimestepperEulerImplicit K nx nv) :
    Nat → NewtonState K σ nx nv nc → NewtonState K σ nx nv nc
  | 0, s => s
  | k + 1, s => ChTimestepperEulerImplicit.pass I dt self k
      (ChTimestepperEulerImplicit.correct I dt self
        (ChTimestepperEulerImplicit.assemble I dt self s))

/-- Constructor `ChTimestepperEulerImplicit(mintegrable)`: the base constructors set `T = 0`,
`maxiters = 20`, `tolerance = 1e-10`; the containers start zeroed. -/
def ChTimestepperEulerImplicit.new : ChTimestepperEulerImplicit K nx nv :=
  { X := 0, V := 0, A := 0, T := 0, toChImplicitTimestepper := ChImplicitTimestepper.new }

/-- Method `SetTime(mt)` that `ChTimestepperEulerImplicit` inherits from `ChTimestepper`. -/
def ChTimestepperEulerImplicit.SetTime (self : ChTimestepperEulerImplicit K nx nv) (mt : K) :
    ChTimestepperEulerImplicit K nx nv :=
  { self with T := mt }

end ImplicitEuler

/-! ## Concrete systems -/

/-- Internal state of a scalar first-order test system: state and time. -/
structure Scalar (K : Type) where
  y : K
  t : K

/-- Internal state of a one-degree-of-freedom second-order test system: position, velocity,
time. -/
structure Particle (K : Type) where
  x : K
  v : K
  t : K

section ConcreteSystems

variable {K : Type} [LinearOrderedField K]

/-- Scalar unconstrained linear test system `dy/dt = lam*y`: `StateSolve` returns
`Dy = lam*y*dt` at the state it is given (which it scatters first when asked to), the state
increment is ordinary addition. -/
def linearTest (lam : K) : ChIntegrable K (Scalar K) 1 1 0 where
  StateGather := fun p => (fun _ => p.y, p.t)
  StateScatter := fun _ y T => { y := y 0, t := T }
  StateIncrement := fun y Dy => y + Dy
  StateSolve := fun p y T dt force_state_scatter =>
    ((fun i => lam * y i * dt, fun _ => 0),
     if force_state_scatter then { y := y 0, t := T } else p)

/-- Unit mass under the force `f0 - k*x` (constant load and linear spring), without
constraints: `M = 1`, so `StateSolveA` returns `Dv = (f0 - k*x)*dt` at the position it is given,
the residual loads add `c*f`, `c*M*w`, nothing for the absent constraints, and the correction
solves `(c_a*M + c_x*dF/dx) Dv = R` with `dF/dx = -k`. -/
def springMass (f0 k : K) : ChIntegrableIIorder K (Particle K) 1 1 0 where
  StateGather := fun p => (fun _ => p.x, fun _ => p.v, p.t)
  StateScatter := fun _ x v T => { x := x 0, v := v 0, t := T }
  StateIncrementX := fun x Dx => x + Dx
  StateSolveA := fun p x v T dt force_state_scatter =>
    ((fun i => (f0 - k * x i) * dt, fun _ => 0),
     if force_state_scatter then { x := x 0, v := v 0, t := T } else p)
  StateSolveCorrection := fun p R c_a _ c_x x v T force_state_scatter =>
    ((fun i => R i / (c_a + c_x * (-k)), fun _ => 0),
     if force_state_scatter then { x := x 0, v := v 0, t := T } else p)
  LoadResidual_F := fun p R c => fun i => R i + c * (f0 - k * p.x)
  LoadResidual_Mv := fun _ R w c => fun i => R i + c * w i
  LoadResidual_CqL := fun _ R _ _ => R
  LoadConstraint_C := fun _ Qc _ => Qc

/-- Unit mass under the constant force `f0` with the one holonomic constraint `C(x) = x`
(`Cq = 1`): `StateSolveA` solves `M*a = f0 + Cq*l`, `Cq*a = 0`, so it returns `Dv = 0` and the
multiplier `l = -f0`; the residual loads add `c*f0`, `c*M*w` and `c*Cq*L`, the constraint load
adds `c*C(x)` at the scattered position; the correction solves `c_a*M*Dv + Cq*y = R`,
`Cq*Dv = 0`, so it returns `Dv = 0` and `y = R`. -/
def pinnedMass (f0 : K) : ChIntegrableIIorder K (Particle K) 1 1 1 where
  StateGather := fun p => (fun _ => p.x, fun _ => p.v, p.t)
  StateScatter := fun _ x v T => { x := x 0, v := v 0, t := T }
  StateIncrementX := fun x Dx => x + Dx
  StateSolveA := fun p x v T _ force_state_scatter =>
    ((fun _ => 0, fun _ => -f0),
     if force_state_scatter then { x := x 0, v := v 0, t := T } else p)
  StateSolveCorrection := fun p R _ _ _ x v T force_state_scatter =>
    ((fun _ => 0, fun _ => R 0),
     if force_state_scatter then { x := x 0, v := v 0, t := T } else p)
  LoadResidual_F := fun _ R c => fun i => R i + c * f0
  LoadResidual_Mv := fun _ R w c => fun i => R i + c * w i
  LoadResidual_CqL := fun _ R L c => fun i => R i + c * L 0
  LoadConstraint_C := fun p Qc c => fun i => Qc i + c * p.x

/-- Unit mass under constant unit force: `StateSolveA` returns `Dv = dt`. -/
def unitMass : ChIntegrableIIorder K (Particle K) 1 1 0 := springMass 1 0

/-- A first-order system holding the state `y` at time `t`, with an empty call log. -/
def scalarAt (y t : K) : Env (Scalar K) (CallI K 1 1 0) :=
  { system := { y := y, t := t }, calls := [] }

/-- A second-order system holding position `x` and velocity `v` at time `t`, with an empty
call log. -/
def particleAt (x v t : K) : Env (Particle K) (CallII K 1 1 0) :=
  { system := { x := x, v := v, t := t }, calls := [] }

/-- A constrained second-order system (one constraint) holding position `x` and velocity `v`
at time `t`, with an empty call log. -/
def pinnedAt (x v t : K) : Env (Particle K) (CallII K 1 1 1) :=
  { system := { x := x, v := v, t := t }, calls := [] }

/-- A first-order stepper as constructed: containers zero, `T = 0`. -/
def freshIorder : ChTimestepperIorder K 1 1 := { Y := 0, dYdt := 0, T := 0 }

/-- A second-order stepper as constructed: containers zero, `T = 0`. -/
def freshIIorder : ChTimestepperIIorder K 1 1 := { X := 0, V := 0, A := 0, T := 0 }

/-- An implicit Euler stepper as constructed: containers zero, `T = 0`, 20 iterations,
tolerance `1e-10`. -/
def freshEulerImplicit : ChTimestepperEulerImplicit K 1 1 :=
  { toChTimestepperIIorder := freshIIorder, toChImplicitTimestepper := ChImplicitTimestepper.new }

/-- Internal state of a planar rotor: the orientation as a point `(c, s)` of the unit circle,
the angular velocity and the time. -/
structure Rotor (K : Type) where
  c : K
  s : K
  omega : K
  t : K

/-- Planar rotor of unit inertia under the constant torque `torque`, without constraints. The
position state is the point `(c, s)` of the unit circle (two coordinates), the velocity is the
angular velocity (one coordinate), and the state increment is not componentwise: it turns
`(c, s)` by the Cayley rotation `((1 - h^2)/(1 + h^2), 2h/(1 + h^2))` with `h` half the
increment, which keeps the point on the circle. -/
def rotor (torque : K) : ChIntegrableIIorder K (Rotor K) 2 1 0 where
  StateGather := fun p => (fun i => if i = 0 then p.c else p.s, fun _ => p.omega, p.t)
  StateScatter := fun _ x v T => { c := x 0, s := x 1, omega := v 0, t := T }
  StateIncrementX := fun x Dx => fun i =>
    if i = 0 then
      x 0 * ((1 - (Dx 0 / 2) ^ 2) / (1 + (Dx 0 / 2) ^ 2)) -
        x 1 * (2 * (Dx 0 / 2) / (1 + (Dx 0 / 2) ^ 2))
    else
      x 0 * (2 * (Dx 0 / 2) / (1 + (Dx 0 / 2) ^ 2)) +
        x 1 * ((1 - (Dx 0 / 2) ^ 2) / (1 + (Dx 0 / 2) ^ 2))
  StateSolveA := fun p x v T dt force_state_scatter =>
    ((fun _ => torque * dt, fun _ => 0),
     if force_state_scatter then { c := x 0, s := x 1, omega := v 0, t := T } else p)
  StateSolveCorrection := fun p R c_a _ _ x v T force_state_scatter =>
    ((fun i => R i / c_a, fun _ => 0),
     if force_state_scatter then { c := x 0, s := x 1, omega := v 0, t := T } else p)
  LoadResidual_F := fun _ R c => fun i => R i + c * torque
  LoadResidual_Mv := fun _ R w c => fun i => R i + c * w i
  LoadResidual_CqL := fun _ R _ _ => R
  LoadConstraint_C := fun _ Qc _ => Qc

/-- A rotor at orientation `(c, s)` with angular velocity `omega` at time `t`, with an empty call
log. -/
def rotorAt (c s omega t : K) : Env (Rotor K) (CallII K 2 1 0) :=
  { system := { c := c, s := s, omega := omega, t := t }, calls := [] }

end ConcreteSystems

/-! ## Archives (`src/serialization/ChArchive.h`) -/

/-- Members of `ChArchive`. A `void*` is modelled by its address, a natural number; the null
pointer is the address 0. -/
structure ChArchive where
  objects_pointers : List Nat
  use_versions : Bool

namespace ChArchive

/-- Method `Init()`: `objects_pointers.clear(); objects_pointers.push_back(0)`. -/
def Init (self : ChArchive) : ChArchive :=
  { self with objects_pointers := [] ++ [0] }

/-- Constructor `ChArchive()`: `use_versions = true; Init()`. -/
def new : ChArchive :=
  Init { objects_pointers := [], use_versions := true }

/-- The `for` loop of `PutPointer` over the entries from index `i` on: the first index whose
entry equals `object`, if there is one. -/
def PutPointer.scan (object : Nat) : List Nat → Nat → Option Nat
  | [], _ => none
  | p :: rest, i => if p = object then some i else PutPointer.scan object rest (i + 1)

/-- Method `PutPointer(object, already_stored, pos)`; returns the archive together with the two
results `already_stored` and `pos` (a `size_t`; the length of the vector stays far below
`2^64`, so no wrap-around is modelled). -/
def PutPointer (self : ChArchive) (object : Nat) : ChArchive × Bool × Nat :=
  match PutPointer.scan object self.objects_pointers 0 with
  | some i => (self, true, i)
  | none =>
    -- objects_pointers.push_back(object); already_stored = false; pos = size()-1
    ({ self with objects_pointers := self.objects_pointers ++ [object] }, false,
      (self.objects_pointers ++ [object]).length - 1)

/-- Method `SetUseVersions(muse)`. -/
def SetUseVersions (self : ChArchive) (muse : Bool) : ChArchive :=
  { self with use_versions := muse }

/-- A sequence of `PutPointer` calls, one for each pointer of the list in turn; the results
`already_stored` and `pos` of the calls are dropped. -/
def PutPointers (self : ChArchive) : List Nat → ChArchive
  | [] => self
  | object :: rest => PutPointers (self.PutPointer object).1 rest

end ChArchive

namespace ChArchiveIn

variable {α T Name : Type}

end ChArchiveIn

/-! ## Theorems -/

section Theorems

variable {K σ : Type} [LinearOrderedField K]

/-- The literal `0.5` is one half. -/
theorem half_literal : (0.5 : K) = 1 / 2 := by norm_num

/-- The literal `2.0` is two. -/
theorem two_literal : (2.0 : K) = 2 := by norm_num

/-- The literal `1.0` is one. -/
theorem one_literal : (1.0 : K) = 1 := by norm_num

/-- Scaling by `0.5` halves every entry. -/
theorem scale_half {n : Nat} (w : Fin n → K) : scale w (0.5 : K) = fun i => w i / 2 := by
  funext i
  simp [scale, half_literal, div_eq_mul_inv]

/-- Scaling by `1/dt` divides every entry by `dt`. -/
theorem scale_one_div {n : Nat} (w : Fin n → K) (dt : K) :
    scale w (1 / dt) = fun i => w i / dt := by
  funext i
  simp [scale, div_eq_mul_inv]

/-- C1: `ChTimestepperEuleroExplIIorder::Advance(dt)`, for every system, every gathered state
`(x, v)` and time `T`, every `dt ≠ 0` and the increment `Dv` returned by its single
`StateSolveA` call (issued at `(x, v, T)` with the flag `false`), leaves `A = Dv/dt`,
`X = x + v*dt` with the old velocity `v`, and `V = v + Dv`. -/
theorem EuleroExplIIorder_Advance_update {nx nv nc : Nat} (I : ChIntegrableIIorder K σ nx nv nc)
    (dt : K) (_hdt : dt ≠ 0) (self : ChTimestepperIIorder K nx nv)
    (e : Env σ (CallII K nx nv nc)) :
    let x := (I.StateGather e.system).1
    let v := (I.StateGather e.system).2.1
    let T := (I.StateGather e.system).2.2
    let Dv := (I.StateSolveA e.system x v T dt false).1.1
    let out := ChTimestepperEuleroExplIIorder.Advance I dt self e
    out.1.A = (fun i => Dv i / dt) ∧
    out.1.X = I.StateIncrementX x (fun i => v i * dt) ∧
    out.1.V = (fun i => v i + Dv i) ∧
    out.2.calls = e.calls ++ [CallII.StateSetup, CallII.StateGather,
      CallII.StateSolveA x v T dt false, CallII.StateScatter out.1.X out.1.V out.1.T] := by
  refine ⟨?_, rfl, rfl, ?_⟩
  · simp only [ChTimestepperEuleroExplIIorder.Advance, ChIntegrableIIorder.call_StateSolveA,
      ChIntegrableIIorder.call_StateGather, ChIntegrableIIorder.call_StateSetup, scale_one_div]
  · simp [ChTimestepperEuleroExplIIorder.Advance, ChIntegrableIIorder.call_StateSolveA,
      ChIntegrableIIorder.call_StateGather, ChIntegrableIIorder.call_StateSetup,
      ChIntegrableIIorder.call_StateScatter]

/-- C1, scenario of the spec: unit mass under constant unit force, `x0 = 0`, `v0 = 0`,
`dt = 1`; one explicit-Euler-II step gives `a = 1`, `v = 1`, `x = 0`. -/
theorem EuleroExplIIorder_Advance_update_unitMass :
    (1 : ℚ) ≠ 0 ∧
    (ChTimestepperEuleroExplIIorder.Advance unitMass (1 : ℚ) freshIIorder
      (particleAt 0 0 0)).1.A 0 = 1 ∧
    (ChTimestepperEuleroExplIIorder.Advance unitMass (1 : ℚ) freshIIorder
      (particleAt 0 0 0)).1.V 0 = 1 ∧
    (ChTimestepperEuleroExplIIorder.Advance unitMass (1 : ℚ) freshIIorder
      (particleAt 0 0 0)).1.X 0 = 0 := by
  obtain ⟨hA, hX, hV, -⟩ := EuleroExplIIorder_Advance_update unitMass (1 : ℚ) one_ne_zero
    freshIIorder (particleAt 0 0 0)
  refine ⟨one_ne_zero, ?_, ?_, ?_⟩
  · rw [hA]; simp [unitMass, springMass]
  · rw [hV]; simp [unitMass, springMass, particleAt]
  · rw [hX]; simp [unitMass, springMass, particleAt]

/-- C2: `ChTimestepperEuleroSemiImplicit::Advance(dt)`, for every system, every gathered state
`(x, v)` and time `T`, every `dt ≠ 0` and the increment `Dv` returned by its single
`StateSolveA` call (issued at `(x, v, T)` with the flag `false`), leaves `A = Dv/dt`,
`V = v + Dv`, and `X = x + V_new*dt` with the updated velocity `V_new = v + Dv`. -/
theorem EuleroSemiImplicit_Advance_update {nx nv nc : Nat}
    (I : ChIntegrableIIorder K σ nx nv nc) (dt : K) (_hdt : dt ≠ 0)
    (self : ChTimestepperIIorder K nx nv) (e : Env σ (CallII K nx nv nc)) :
    let x := (I.StateGather e.system).1
    let v := (I.StateGather e.system).2.1
    let T := (I.StateGather e.system).2.2
    let Dv := (I.StateSolveA e.system x v T dt false).1.1
    let out := ChTimestepperEuleroSemiImplicit.Advance I dt self e
    out.1.A = (fun i => Dv i / dt) ∧
    out.1.V = (fun i => v i + Dv i) ∧
    out.1.X = I.StateIncrementX x (fun i => (v i + Dv i) * dt) ∧
    out.2.calls = e.calls ++ [CallII.StateSetup, CallII.StateGather,
      CallII.StateSolveA x v T dt false, CallII.StateScatter out.1.X out.1.V out.1.T] := by
  refine ⟨?_, rfl, rfl, ?_⟩
  · simp only [ChTimestepperEuleroSemiImplicit.Advance, ChIntegrableIIorder.call_StateSolveA,
      ChIntegrableIIorder.call_StateGather, ChIntegrableIIorder.call_StateSetup, scale_one_div]
  · simp [ChTimestepperEuleroSemiImplicit.Advance, ChIntegrableIIorder.call_StateSolveA,
      ChIntegrableIIorder.call_StateGather, ChIntegrableIIorder.call_StateSetup,
      ChIntegrableIIorder.call_StateScatter]

/-- C2, scenario of the spec: unit mass under constant unit force, `x0 = 0`, `v0 = 0`,
`dt = 1`; one semi-implicit-Euler step gives `v = 1`, `x = 1`. -/
theorem EuleroSemiImplicit_Advance_update_unitMass :
    (1 : ℚ) ≠ 0 ∧
    (ChTimestepperEuleroSemiImplicit.Advance unitMass (1 : ℚ) freshIIorder
      (particleAt 0 0 0)).1.V 0 = 1 ∧
    (ChTimestepperEuleroSemiImplicit.Advance unitMass (1 : ℚ) freshIIorder
      (particleAt 0 0 0)).1.X 0 = 1 := by
  obtain ⟨-, hV, hX, -⟩ := EuleroSemiImplicit_Advance_update unitMass (1 : ℚ) one_ne_zero
    freshIIorder (particleAt 0 0 0)
  refine ⟨one_ne_zero, ?_, ?_⟩
  · rw [hV]; simp [unitMass, springMass, particleAt]
  · rw [hX]; simp [unitMass, springMass, particleAt]

/-- C3 as stated fails: an explicit Euler stepper whose own time was set to 10 by `SetTime`,
attached to a system whose time is 0, reports time 1 after `Advance(1)`, which is neither
`10 + 1` nor at least 10. -/
theorem Advance_time_not_prior_plus_dt :
    (0 : ℚ) < 1 ∧
    (ChTimestepperEuleroExpl.Advance (linearTest (0 : ℚ)) 1 (freshIorder.SetTime 10)
      (scalarAt 0 0)).1.GetTime ≠ (freshIorder.SetTime (10 : ℚ)).GetTime + 1 ∧
    (ChTimestepperEuleroExpl.Advance (linearTest (0 : ℚ)) 1 (freshIorder.SetTime 10)
      (scalarAt 0 0)).1.GetTime < (freshIorder.SetTime (10 : ℚ)).GetTime := by
  simp [ChTimestepperEuleroExpl.Advance, ChIntegrable.call_StateGather,
    ChIntegrable.call_StateSetup, ChTimestepperIorder.GetTime, ChTimestepperIorder.SetTime,
    linearTest, scalarAt, freshIorder]

/-- C3, amended: for each of the seven schemes, every system and every `dt > 0`, the time
reported by `GetTime()` after `Advance(dt)` is the time gathered from the system by
`StateGather` plus `dt`; in particular, whenever that gathered time is the time `GetTime()`
reported before the call, the reported time is the prior time plus `dt` and has not
decreased. -/
theorem Advance_time_gathered_plus_dt {ny ndy nc nx nv mc : Nat}
    {τ : Type} (I : ChIntegrable K σ ny ndy nc) (J : ChIntegrableIIorder K τ nx nv mc)
    (dt : K) (hdt : 0 < dt) (s : ChTimestepperIorder K ny ndy)
    (u : ChTimestepperIIorder K nx nv) (w : ChTimestepperEulerImplicit K nx nv)
    (e : Env σ (CallI K ny ndy nc)) (f : Env τ (CallII K nx nv mc)) :
    let Tg := (I.StateGather e.system).2
    let Th := (J.StateGather f.system).2.2
    let t1 := (ChTimestepperEuleroExpl.Advance I dt s e).1.GetTime
    let t2 := (ChTimestepperRungeKuttaExpl.Advance I dt s e).1.GetTime
    let t3 := (ChTimestepperHeun.Advance I dt s e).1.GetTime
    let t4 := (ChTimestepperEuleroExplIIorder.Advance J dt u f).1.GetTime
    let t5 := (ChTimestepperEuleroSemiImplicit.Advance J dt u f).1.GetTime
    let t6 := (ChTimestepperLeapfrog.Advance J dt u f).1.GetTime
    let t7 := (ChTimestepperEulerImplicit.Advance J dt w f).1.GetTime
    (t1 = Tg + dt ∧ t2 = Tg + dt ∧ t3 = Tg + dt ∧
      t4 = Th + dt ∧ t5 = Th + dt ∧ t6 = Th + dt ∧ t7 = Th + dt) ∧
    (Tg = s.GetTime →
      (t1 = s.GetTime + dt ∧ s.GetTime ≤ t1) ∧ (t2 = s.GetTime + dt ∧ s.GetTime ≤ t2) ∧
      (t3 = s.GetTime + dt ∧ s.GetTime ≤ t3)) ∧
    (Th = u.GetTime →
      (t4 = u.GetTime + dt ∧ u.GetTime ≤ t4) ∧ (t5 = u.GetTime + dt ∧ u.GetTime ≤ t5) ∧
      (t6 = u.GetTime + dt ∧ u.GetTime ≤ t6)) ∧
    (Th = w.GetTime → t7 = w.GetTime + dt ∧ w.GetTime ≤ t7) := by
  intro Tg Th t1 t2 t3 t4 t5 t6 t7
  have h1 : t1 = Tg + dt := rfl
  have h2 : t2 = Tg + dt := rfl
  have h3 : t3 = Tg + dt := rfl
  have h4 : t4 = Th + dt := rfl
  have h5 : t5 = Th + dt := rfl
  have h6 : t6 = Th + dt := rfl
  have h7 : t7 = Th + dt := rfl
  refine ⟨⟨h1, h2, h3, h4, h5, h6, h7⟩, ?_, ?_, ?_⟩
  · intro h
    rw [h1, h2, h3, h]
    exact ⟨⟨rfl, le_add_of_nonneg_right hdt.le⟩, ⟨rfl, le_add_of_nonneg_right hdt.le⟩,
      ⟨rfl, le_add_of_nonneg_right hdt.le⟩⟩
  · intro h
    rw [h4, h5, h6, h]
    exact ⟨⟨rfl, le_add_of_nonneg_right hdt.le⟩, ⟨rfl, le_add_of_nonneg_right hdt.le⟩,
      ⟨rfl, le_add_of_nonneg_right hdt.le⟩⟩
  · intro h
    rw [h7, h]
    exact ⟨rfl, le_add_of_nonneg_right hdt.le⟩

/-- C3, amended, at a concrete input: a fresh explicit Euler stepper (time 0) on the scalar test
system at time 0 and a fresh Leapfrog and implicit Euler stepper on the unit mass at time 0
report time `0 + 1` after `Advance(1)`. -/
theorem Advance_time_gathered_plus_dt_fresh :
    (0 : ℚ) < 1 ∧
    (ChTimestepperEuleroExpl.Advance (linearTest (1 : ℚ)) 1 freshIorder
      (scalarAt 1 0)).1.GetTime = (freshIorder : ChTimestepperIorder ℚ 1 1).GetTime + 1 ∧
    (ChTimestepperLeapfrog.Advance (unitMass : ChIntegrableIIorder ℚ _ 1 1 0) 1 freshIIorder
      (particleAt 0 0 0)).1.GetTime = (freshIIorder : ChTimestepperIIorder ℚ 1 1).GetTime + 1 ∧
    (ChTimestepperEulerImplicit.Advance (unitMass : ChIntegrableIIorder ℚ _ 1 1 0) 1
      freshEulerImplicit (particleAt 0 0 0)).1.GetTime =
      (freshEulerImplicit : ChTimestepperEulerImplicit ℚ 1 1).GetTime + 1 := by
  obtain ⟨-, hI, hII, hE⟩ := Advance_time_gathered_plus_dt (linearTest (1 : ℚ))
    (unitMass : ChIntegrableIIorder ℚ _ 1 1 0) 1 one_pos freshIorder freshIIorder
    freshEulerImplicit (scalarAt 1 0) (particleAt 0 0 0)
  exact ⟨one_pos, (hI rfl).1.1, (hII rfl).2.2.1, (hE rfl).1⟩

/-- C4: for each of the seven schemes and every system, the last call `Advance(dt)` issues on
the system is a `StateScatter` whose arguments are the final state of the stepper (`Y` for the
first-order schemes, `X` and `V` for the second-order ones) and its final time `T`, and the
system it leaves behind is the result of that scatter. -/
theorem Advance_last_call_scatter {ny ndy nc nx nv mc : Nat}
    {τ : Type} (I : ChIntegrable K σ ny ndy nc) (J : ChIntegrableIIorder K τ nx nv mc)
    (dt : K) (s : ChTimestepperIorder K ny ndy)
    (u : ChTimestepperIIorder K nx nv) (w : ChTimestepperEulerImplicit K nx nv)
    (e : Env σ (CallI K ny ndy nc)) (f : Env τ (CallII K nx nv mc)) :
    let o1 := ChTimestepperEuleroExpl.Advance I dt s e
    let o2 := ChTimestepperRungeKuttaExpl.Advance I dt s e
    let o3 := ChTimestepperHeun.Advance I dt s e
    let o4 := ChTimestepperEuleroExplIIorder.Advance J dt u f
    let o5 := ChTimestepperEuleroSemiImplicit.Advance J dt u f
    let o6 := ChTimestepperLeapfrog.Advance J dt u f
    let o7 := ChTimestepperEulerImplicit.Advance J dt w f
    (o1.2.calls.getLast? = some (CallI.StateScatter o1.1.Y o1.1.GetTime) ∧
      ∃ p, o1.2.system = I.StateScatter p o1.1.Y o1.1.GetTime) ∧
    (o2.2.calls.getLast? = some (CallI.StateScatter o2.1.Y o2.1.GetTime) ∧
      ∃ p, o2.2.system = I.StateScatter p o2.1.Y o2.1.GetTime) ∧
    (o3.2.calls.getLast? = some (CallI.StateScatter o3.1.Y o3.1.GetTime) ∧
      ∃ p, o3.2.system = I.StateScatter p o3.1.Y o3.1.GetTime) ∧
    (o4.2.calls.getLast? = some (CallII.StateScatter o4.1.X o4.1.V o4.1.GetTime) ∧
      ∃ p, o4.2.system = J.StateScatter p o4.1.X o4.1.V o4.1.GetTime) ∧
    (o5.2.calls.getLast? = some (CallII.StateScatter o5.1.X o5.1.V o5.1.GetTime) ∧
      ∃ p, o5.2.system = J.StateScatter p o5.1.X o5.1.V o5.1.GetTime) ∧
    (o6.2.calls.getLast? = some (CallII.StateScatter o6.1.X o6.1.V o6.1.GetTime) ∧
      ∃ p, o6.2.system = J.StateScatter p o6.1.X o6.1.V o6.1.GetTime) ∧
    (o7.2.calls.getLast? = some (CallII.StateScatter o7.1.X o7.1.V o7.1.GetTime) ∧
      ∃ p, o7.2.system = J.StateScatter p o7.1.X o7.1.V o7.1.GetTime) := by
  refine ⟨⟨?_, _, rfl⟩, ⟨?_, _, rfl⟩, ⟨?_, _, rfl⟩, ⟨?_, _, rfl⟩, ⟨?_, _, rfl⟩, ⟨?_, _, rfl⟩,
    ⟨?_, _, rfl⟩⟩
  · simp [ChTimestepperEuleroExpl.Advance, ChIntegrable.call_StateScatter,
      ChTimestepperIorder.GetTime]
  · simp [ChTimestepperRungeKuttaExpl.Advance, ChIntegrable.call_StateScatter,
      ChTimestepperIorder.GetTime]
  · simp [ChTimestepperHeun.Advance, ChIntegrable.call_StateScatter,
      ChTimestepperIorder.GetTime]
  · simp [ChTimestepperEuleroExplIIorder.Advance, ChIntegrableIIorder.call_StateScatter,
      ChTimestepperIIorder.GetTime]
  · simp [ChTimestepperEuleroSemiImplicit.Advance, ChIntegrableIIorder.call_StateScatter,
      ChTimestepperIIorder.GetTime]
  · simp [ChTimestepperLeapfrog.Advance, ChIntegrableIIorder.call_StateScatter,
      ChTimestepperIIorder.GetTime]
  · simp [ChTimestepperEulerImplicit.Advance, ChIntegrableIIorder.call_StateScatter,
      ChTimestepperIIorder.GetTime]

/-- C5: `ChTimestepperRungeKuttaExpl::Advance(dt)` computes the classic four-stage step: with
`Y`, `T` the gathered state and time and `k1 = solve(Y, T)`, `k2 = solve(Y + k1/2, T + dt/2)`,
`k3 = solve(Y + k2/2, T + dt/2)`, `k4 = solve(Y + k3, T + dt)` (the successive `StateSolve`
calls, each returning an increment), the new state is `Y + (k1 + 2*k2 + 2*k3 + k4)/6`, for
every system and every `dt ≠ 0`. -/
theorem RungeKuttaExpl_Advance_update {ny ndy nc : Nat} (I : ChIntegrable K σ ny ndy nc)
    (dt : K) (_hdt : dt ≠ 0) (self : ChTimestepperIorder K ny ndy)
    (e : Env σ (CallI K ny ndy nc)) :
    let Y := (I.StateGather e.system).1
    let T := (I.StateGather e.system).2
    let r1 := I.StateSolve e.system Y T dt false
    let k1 := r1.1.1
    let r2 := I.StateSolve r1.2 (I.StateIncrement Y (fun i => k1 i / 2)) (T + dt / 2) dt true
    let k2 := r2.1.1
    let r3 := I.StateSolve r2.2 (I.StateIncrement Y (fun i => k2 i / 2)) (T + dt / 2) dt true
    let k3 := r3.1.1
    let r4 := I.StateSolve r3.2 (I.StateIncrement Y k3) (T + dt) dt true
    let k4 := r4.1.1
    let out := ChTimestepperRungeKuttaExpl.Advance I dt self e
    out.1.Y = I.StateIncrement Y (fun i => (k1 i + 2 * k2 i + 2 * k3 i + k4 i) / 6) := by
  have ht : dt * (0.5 : K) = dt / 2 := by rw [half_literal]; ring
  intro Y T r1 k1 r2 k2 r3 k3 r4 k4 out
  have key : out.1.Y =
      I.StateIncrement Y (scale (k1 + scale k2 2.0 + scale k3 2.0 + k4) (1 / 6)) := by
    simp only [out, k4, r4, k3, r3, k2, r2, k1, r1, T, Y, ChTimestepperRungeKuttaExpl.Advance,
      ChIntegrable.call_StateSolve, ChIntegrable.call_StateGather,
      ChIntegrable.call_StateSetup, scale_half, ht]
  have hv : scale (k1 + scale k2 2.0 + scale k3 2.0 + k4) (1 / 6) =
      fun i => (k1 i + 2 * k2 i + 2 * k3 i + k4 i) / 6 := by
    funext i
    simp only [scale, Pi.add_apply, two_literal]
    ring
  rw [key, hv]

/-- C5 at a concrete input: on `dy/dt = y` with `y = 1` and `dt = 1` the stages are `1`, `3/2`,
`7/4`, `11/4` and the Runge-Kutta step gives `y = 65/24`. -/
theorem RungeKuttaExpl_Advance_update_linearTest :
    (1 : ℚ) ≠ 0 ∧
    (ChTimestepperRungeKuttaExpl.Advance (linearTest (1 : ℚ)) 1 freshIorder
      (scalarAt 1 0)).1.Y 0 = 65 / 24 := by
  refine ⟨one_ne_zero, ?_⟩
  rw [RungeKuttaExpl_Advance_update (linearTest (1 : ℚ)) 1 one_ne_zero freshIorder
    (scalarAt 1 0)]
  simp [linearTest, scalarAt]
  norm_num

/-- C6: `ChTimestepperHeun::Advance(dt)` computes the Heun predictor-corrector step: with `Y`,
`T` the gathered state and time, `k1 = solve(Y, T)` and `k2 = solve(Y + k1, T + dt)` (the two
successive `StateSolve` calls), the new state is `Y + (k1 + k2)/2`, for every system and every
`dt ≠ 0`. -/
theorem Heun_Advance_update {ny ndy nc : Nat} (I : ChIntegrable K σ ny ndy nc)
    (dt : K) (_hdt : dt ≠ 0) (self : ChTimestepperIorder K ny ndy)
    (e : Env σ (CallI K ny ndy nc)) :
    let Y := (I.StateGather e.system).1
    let T := (I.StateGather e.system).2
    let r1 := I.StateSolve e.system Y T dt false
    let k1 := r1.1.1
    let r2 := I.StateSolve r1.2 (I.StateIncrement Y k1) (T + dt) dt true
    let k2 := r2.1.1
    let out := ChTimestepperHeun.Advance I dt self e
    out.1.Y = I.StateIncrement Y (fun i => (k1 i + k2 i) / 2) := by
  intro Y T r1 k1 r2 k2 out
  have key : out.1.Y = I.StateIncrement Y (scale (k1 + k2) (1 / 2)) := rfl
  have hv : scale (k1 + k2) (1 / 2) = fun i => (k1 i + k2 i) / 2 := by
    funext i
    simp only [scale, Pi.add_apply]
    ring
  rw [key, hv]

/-- C6 at a concrete input: on `dy/dt = y` with `y = 1` and `dt = 1` the stages are `1` and `2`
and the Heun step gives `y = 5/2`. -/
theorem Heun_Advance_update_linearTest :
    (1 : ℚ) ≠ 0 ∧
    (ChTimestepperHeun.Advance (linearTest (1 : ℚ)) 1 freshIorder (scalarAt 1 0)).1.Y 0
      = 5 / 2 := by
  refine ⟨one_ne_zero, ?_⟩
  rw [Heun_Advance_update (linearTest (1 : ℚ)) 1 one_ne_zero freshIorder (scalarAt 1 0)]
  simp [linearTest, scalarAt]
  norm_num

/-- C7: `ChTimestepperLeapfrog::Advance(dt)`, for every system, every gathered state `(x, v)`,
cached acceleration `a_old` and `dt ≠ 0`, leaves `X = x + v*dt + a_old*(0.5*dt^2)`, then
`A = a_new = Dv/dt` with `Dv` the increment returned by `StateSolveA` at the already updated
position `X` and the old velocity `v`, and `V = v + (a_old + a_new)*(0.5*dt)`. -/
theorem Leapfrog_Advance_update {nx nv nc : Nat} (I : ChIntegrableIIorder K σ nx nv nc)
    (dt : K) (_hdt : dt ≠ 0) (self : ChTimestepperIIorder K nx nv)
    (e : Env σ (CallII K nx nv nc)) :
    let x := (I.StateGather e.system).1
    let v := (I.StateGather e.system).2.1
    let T := (I.StateGather e.system).2.2
    let a_old := self.A
    let Xnew := I.StateIncrementX (I.StateIncrementX x (fun i => v i * dt))
      (fun i => a_old i * (0.5 * dt ^ 2))
    let Dv := (I.StateSolveA e.system Xnew v T dt false).1.1
    let a_new : ChStateDelta K nv := fun i => Dv i / dt
    let out := ChTimestepperLeapfrog.Advance I dt self e
    out.1.X = Xnew ∧
    out.1.A = a_new ∧
    out.1.V = (fun i => v i + (a_old i + a_new i) * (0.5 * dt)) ∧
    out.2.calls = e.calls ++ [CallII.StateSetup, CallII.StateGather,
      CallII.StateSolveA Xnew v T dt false, CallII.StateScatter out.1.X out.1.V out.1.T] := by
  intro x v T a_old Xnew Dv a_new out
  have hsq : (0.5 : K) * dt * dt = 0.5 * dt ^ 2 := by ring
  have hX : out.1.X = Xnew := by
    have h : out.1.X = I.StateIncrementX (I.StateIncrementX x (scale v dt))
        (scale a_old (0.5 * dt * dt)) := rfl
    rw [h, hsq]
    rfl
  have hA : out.1.A = a_new := by
    have h : out.1.A = scale (I.StateSolveA e.system out.1.X v T dt false).1.1 (1 / dt) := rfl
    rw [h, hX, scale_one_div]
  refine ⟨hX, hA, ?_, ?_⟩
  · have hV : out.1.V = v + scale (a_old + out.1.A) (0.5 * dt) := rfl
    rw [hV, hA]
    rfl
  · have hc : out.2.calls = e.calls ++ [CallII.StateSetup] ++ [CallII.StateGather] ++
        [CallII.StateSolveA out.1.X v T dt false] ++
        [CallII.StateScatter out.1.X out.1.V out.1.T] := rfl
    rw [hc, hX]
    simp

/-- C7 at a concrete input: unit mass under constant unit force at rest at the origin, cached
acceleration 1, `dt = 1`; one Leapfrog step gives `x = 1/2`, `a = 1`, `v = 1`. -/
theorem Leapfrog_Advance_update_unitMass :
    (1 : ℚ) ≠ 0 ∧
    (ChTimestepperLeapfrog.Advance unitMass (1 : ℚ) { freshIIorder with A := fun _ => 1 }
      (particleAt 0 0 0)).1.X 0 = 1 / 2 ∧
    (ChTimestepperLeapfrog.Advance unitMass (1 : ℚ) { freshIIorder with A := fun _ => 1 }
      (particleAt 0 0 0)).1.A 0 = 1 ∧
    (ChTimestepperLeapfrog.Advance unitMass (1 : ℚ) { freshIIorder with A := fun _ => 1 }
      (particleAt 0 0 0)).1.V 0 = 1 := by
  obtain ⟨hX, hA, hV, -⟩ := Leapfrog_Advance_update unitMass (1 : ℚ) one_ne_zero
    { freshIIorder with A := fun _ => 1 } (particleAt 0 0 0)
  refine ⟨one_ne_zero, ?_, ?_, ?_⟩
  · rw [hX]; simp [unitMass, springMass, particleAt, half_literal]
  · rw [hA]; simp [unitMass, springMass]
  · rw [hV]; simp [unitMass, springMass, particleAt, half_literal]; norm_num

/-- C8: `ChTimestepperEuleroExpl::Advance(dt)`, for every system, every gathered state `Y`,
every `dt ≠ 0` and the increment `Dy` returned by its single `StateSolve` call, leaves
`Y_new = Y + Dy` and `dYdt = Dy/dt`, so that `Y_new = Y + dYdt*dt`. -/
theorem EuleroExpl_Advance_update {ny ndy nc : Nat} (I : ChIntegrable K σ ny ndy nc)
    (dt : K) (hdt : dt ≠ 0) (self : ChTimestepperIorder K ny ndy)
    (e : Env σ (CallI K ny ndy nc)) :
    let Y := (I.StateGather e.system).1
    let T := (I.StateGather e.system).2
    let Dy := (I.StateSolve e.system Y T dt false).1.1
    let out := ChTimestepperEuleroExpl.Advance I dt self e
    out.1.Y = I.StateIncrement Y Dy ∧
    out.1.dYdt = (fun i => Dy i / dt) ∧
    out.1.Y = I.StateIncrement Y (fun i => out.1.dYdt i * dt) ∧
    out.2.calls = e.calls ++ [CallI.StateSetup, CallI.StateGather,
      CallI.StateSolve Y T dt false, CallI.StateScatter out.1.Y out.1.T] := by
  intro Y T Dy out
  have hY : out.1.Y = I.StateIncrement Y Dy := rfl
  have hD : out.1.dYdt = fun i => Dy i / dt := by
    have h : out.1.dYdt = scale Dy (1 / dt) := rfl
    rw [h, scale_one_div]
  refine ⟨hY, hD, ?_, ?_⟩
  · have hv : (fun i => (fun j => Dy j / dt) i * dt) = Dy := by
      funext i
      field_simp
    rw [hY, hD, hv]
  · have hc : out.2.calls = e.calls ++ [CallI.StateSetup] ++ [CallI.StateGather] ++
        [CallI.StateSolve Y T dt false] ++ [CallI.StateScatter out.1.Y out.1.T] := rfl
    rw [hc]
    simp

/-- C8 at a concrete input: on `dy/dt = y` with `y = 1` and `dt = 1/2` the explicit Euler step
gives `y = 3/2` and `dYdt = 1`. -/
theorem EuleroExpl_Advance_update_linearTest :
    (1 / 2 : ℚ) ≠ 0 ∧
    (ChTimestepperEuleroExpl.Advance (linearTest (1 : ℚ)) (1 / 2) freshIorder
      (scalarAt 1 0)).1.Y 0 = 3 / 2 ∧
    (ChTimestepperEuleroExpl.Advance (linearTest (1 : ℚ)) (1 / 2) freshIorder
      (scalarAt 1 0)).1.dYdt 0 = 1 := by
  obtain ⟨hY, hD, -, -⟩ := EuleroExpl_Advance_update (linearTest (1 : ℚ)) (1 / 2)
    (by norm_num) freshIorder (scalarAt 1 0)
  refine ⟨by norm_num, ?_, ?_⟩
  · rw [hY]; simp [linearTest, scalarAt]; norm_num
  · rw [hD]; simp [linearTest, scalarAt]

/-- C9: in `ChTimestepperEulerImplicit::Advance`, a pass of the Newton loop whose assembled
residual `R` is not below the tolerance requests the correction `(Dv, Dl)` from
`StateSolveCorrection` with that `R`, the factors `1.0`, `-dt`, `-dt^2`, at the trial state
`(Xnew, Vnew, T+dt)`, and goes on to the next pass with `Dl := Dl*(-1/dt)`, `L := L + Dl`,
`Vnew := Vnew + Dv`, `Xnew := X_old + Vnew*dt`, where `X_old` and `T` were gathered at the
start of the step. -/
theorem EulerImplicit_iteration_correction {nx nv nc : Nat}
    (I : ChIntegrableIIorder K σ nx nv nc) (dt : K) (_hdt : dt ≠ 0)
    (self0 : ChTimestepperEulerImplicit K nx nv) (e : Env σ (CallII K nx nv nc)) (left : Nat)
    (s : NewtonState K σ nx nv nc) :
    let self := (ChTimestepperEulerImplicit.predict I dt self0 e).1
    let X_old := (I.StateGather e.system).1
    let T := (I.StateGather e.system).2.2
    let a := ChTimestepperEulerImplicit.assemble I dt self s
    ¬ NormInf a.R < self0.GetTolerance →
    let c := I.StateSolveCorrection a.env.system a.R 1 (-dt) (-dt ^ 2) s.Xnew s.Vnew (T + dt)
      false
    let Dl : ChVectorDynamic K nc := fun i => c.1.2 i * (-1 / dt)
    let Vnew : ChStateDelta K nv := fun i => s.Vnew i + c.1.1 i
    ChTimestepperEulerImplicit.loop I dt self (left + 1) s =
      ChTimestepperEulerImplicit.loop I dt self left
        { Dv := c.1.1
          Dl := Dl
          L := fun i => s.L i + Dl i
          Xnew := I.StateIncrementX X_old (fun i => Vnew i * dt)
          Vnew := Vnew
          R := a.R
          Qc := a.Qc
          env := { system := c.2
                   calls := a.env.calls ++ [CallII.StateSolveCorrection a.R 1 (-dt) (-dt ^ 2)
                     s.Xnew s.Vnew (T + dt) false] } } := by
  intro self X_old T a hR c Dl Vnew
  have htol : self.GetTolerance = self0.GetTolerance := rfl
  have hstep : ChTimestepperEulerImplicit.loop I dt self (left + 1) s =
      ChTimestepperEulerImplicit.loop I dt self left
        (ChTimestepperEulerImplicit.correct I dt self a) := by
    simp only [ChTimestepperEulerImplicit.loop]
    rw [if_neg (by rw [htol]; exact hR)]
  have hsq : -dt * dt = -dt ^ 2 := by ring
  have hinv : -((1 : K) / dt) = -1 / dt := by ring
  rw [hstep]
  congr 1
  simp only [ChTimestepperEulerImplicit.correct, ChIntegrableIIorder.call_StateSolveCorrection,
    one_literal, hsq, hinv]
  rfl

/-- C9 at a concrete input: unit mass on a unit spring, gathered at `x = 1`, `v = 1`, `dt = 1`;
the predictor gives the trial state `(2, 0)`, the residual there is `-1`, which is not below
`1e-10`, and the pass corrects the trial state to `Vnew = -1/2`, `Xnew = 1 - 1/2`. -/
theorem EulerImplicit_iteration_correction_spring :
    (1 : ℚ) ≠ 0 ∧
    (ChTimestepperEulerImplicit.loop (springMass (0 : ℚ) 1) 1
      (ChTimestepperEulerImplicit.predict (springMass (0 : ℚ) 1) 1 freshEulerImplicit
        (particleAt 1 1 0)).1 1
      (ChTimestepperEulerImplicit.predict (springMass (0 : ℚ) 1) 1 freshEulerImplicit
        (particleAt 1 1 0)).2).Vnew 0 = -1 / 2 ∧
    (ChTimestepperEulerImplicit.loop (springMass (0 : ℚ) 1) 1
      (ChTimestepperEulerImplicit.predict (springMass (0 : ℚ) 1) 1 freshEulerImplicit
        (particleAt 1 1 0)).1 1
      (ChTimestepperEulerImplicit.predict (springMass (0 : ℚ) 1) 1 freshEulerImplicit
        (particleAt 1 1 0)).2).Xnew 0 = 1 / 2 := by
  have hR : ¬ NormInf (ChTimestepperEulerImplicit.assemble (springMass (0 : ℚ) 1) 1
      (ChTimestepperEulerImplicit.predict (springMass (0 : ℚ) 1) 1 freshEulerImplicit
        (particleAt 1 1 0)).1
      (ChTimestepperEulerImplicit.predict (springMass (0 : ℚ) 1) 1 freshEulerImplicit
        (particleAt 1 1 0)).2).R < (freshEulerImplicit : ChTimestepperEulerImplicit ℚ 1 1).GetTolerance := by
    simp [NormInf, ChTimestepperEulerImplicit.assemble, ChTimestepperEulerImplicit.predict,
      ChIntegrableIIorder.call_StateScatter, ChIntegrableIIorder.call_StateSolveA,
      ChIntegrableIIorder.call_StateGather, ChIntegrableIIorder.call_StateSetup,
      ChIntegrableIIorder.call_LoadResidual_F, ChIntegrableIIorder.call_LoadResidual_Mv,
      ChIntegrableIIorder.call_LoadResidual_CqL, ChIntegrableIIorder.call_LoadConstraint_C,
      springMass, particleAt, freshEulerImplicit, freshIIorder, ChImplicitTimestepper.new,
      ChImplicitTimestepper.GetTolerance, Reset, scale]
    norm_num
  have h := EulerImplicit_iteration_correction (springMass (0 : ℚ) 1) 1 one_ne_zero
    freshEulerImplicit (particleAt 1 1 0) 0
    (ChTimestepperEulerImplicit.predict (springMass (0 : ℚ) 1) 1 freshEulerImplicit
      (particleAt 1 1 0)).2 hR
  refine ⟨one_ne_zero, ?_, ?_⟩
  · rw [h]
    simp [ChTimestepperEulerImplicit.loop, ChTimestepperEulerImplicit.assemble,
      ChTimestepperEulerImplicit.predict,
      ChIntegrableIIorder.call_StateScatter, ChIntegrableIIorder.call_StateSolveA,
      ChIntegrableIIorder.call_StateGather, ChIntegrableIIorder.call_StateSetup,
      ChIntegrableIIorder.call_LoadResidual_F, ChIntegrableIIorder.call_LoadResidual_Mv,
      ChIntegrableIIorder.call_LoadResidual_CqL, ChIntegrableIIorder.call_LoadConstraint_C,
      springMass, particleAt, freshEulerImplicit, freshIIorder, Reset, scale]
    norm_num
  · rw [h]
    simp [ChTimestepperEulerImplicit.loop, ChTimestepperEulerImplicit.assemble,
      ChTimestepperEulerImplicit.predict,
      ChIntegrableIIorder.call_StateScatter, ChIntegrableIIorder.call_StateSolveA,
      ChIntegrableIIorder.call_StateGather, ChIntegrableIIorder.call_StateSetup,
      ChIntegrableIIorder.call_LoadResidual_F, ChIntegrableIIorder.call_LoadResidual_Mv,
      ChIntegrableIIorder.call_LoadResidual_CqL, ChIntegrableIIorder.call_LoadConstraint_C,
      springMass, particleAt, freshEulerImplicit, freshIIorder, Reset, scale]
    norm_num

/-- C10: every pass of the Newton loop of `ChTimestepperEulerImplicit::Advance` starts by
assembling: the trial state `(Xnew, Vnew)` is scattered at `T+dt`, then `R` is rebuilt from
zero by `LoadResidual_F` with factor `dt`, `LoadResidual_Mv` of `V_old - Vnew` with factor
`1.0` and `LoadResidual_CqL` of the running multipliers `L` with factor `dt`, and `Qc` is
rebuilt from zero by `LoadConstraint_C` with factor `1/dt`; the assembled `R` and `Qc` do not
depend on the contents `R` and `Qc` had before the pass. -/
theorem EulerImplicit_iteration_assembly {nx nv nc : Nat}
    (I : ChIntegrableIIorder K σ nx nv nc) (dt : K)
    (self0 : ChTimestepperEulerImplicit K nx nv) (e : Env σ (CallII K nx nv nc)) (left : Nat)
    (s : NewtonState K σ nx nv nc) :
    let self := (ChTimestepperEulerImplicit.predict I dt self0 e).1
    let V_old := (I.StateGather e.system).2.1
    let T := (I.StateGather e.system).2.2
    let p := I.StateScatter s.env.system s.Xnew s.Vnew (T + dt)
    let R1 := I.LoadResidual_F p 0 dt
    let R2 := I.LoadResidual_Mv p R1 (fun i => V_old i - s.Vnew i) 1
    let R3 := I.LoadResidual_CqL p R2 s.L dt
    let Qc1 := I.LoadConstraint_C p 0 (1 / dt)
    let a := ChTimestepperEulerImplicit.assemble I dt self s
    (ChTimestepperEulerImplicit.loop I dt self (left + 1) s =
      if NormInf a.R < self0.GetTolerance then a
      else ChTimestepperEulerImplicit.loop I dt self left
        (ChTimestepperEulerImplicit.correct I dt self a)) ∧
    a.R = R3 ∧ a.Qc = Qc1 ∧ a.env.system = p ∧
    a.env.calls = s.env.calls ++ [CallII.StateScatter s.Xnew s.Vnew (T + dt),
      CallII.LoadResidual_F 0 dt, CallII.LoadResidual_Mv R1 (fun i => V_old i - s.Vnew i) 1,
      CallII.LoadResidual_CqL R2 s.L dt, CallII.LoadConstraint_C 0 (1 / dt)] ∧
    (∀ (R0 : ChVectorDynamic K nv) (Qc0 : ChVectorDynamic K nc),
      (ChTimestepperEulerImplicit.assemble I dt self { s with R := R0, Qc := Qc0 }).R = a.R ∧
      (ChTimestepperEulerImplicit.assemble I dt self { s with R := R0, Qc := Qc0 }).Qc
        = a.Qc) := by
  intro self V_old T p R1 R2 R3 Qc1 a
  have hR : a.R = R3 := by
    simp only [a, R3, R2, R1, p, T, V_old, ChTimestepperEulerImplicit.assemble,
      ChIntegrableIIorder.call_StateScatter, ChIntegrableIIorder.call_LoadResidual_F,
      ChIntegrableIIorder.call_LoadResidual_Mv, ChIntegrableIIorder.call_LoadResidual_CqL,
      one_literal]
    rfl
  have hQ : a.Qc = Qc1 := by
    simp only [a, Qc1, p, T, ChTimestepperEulerImplicit.assemble,
      ChIntegrableIIorder.call_StateScatter, ChIntegrableIIorder.call_LoadResidual_F,
      ChIntegrableIIorder.call_LoadResidual_Mv, ChIntegrableIIorder.call_LoadResidual_CqL,
      ChIntegrableIIorder.call_LoadConstraint_C, one_literal]
    rfl
  refine ⟨rfl, hR, hQ, rfl, ?_, fun R0 Qc0 => ⟨rfl, rfl⟩⟩
  simp only [a, R2, R1, p, T, V_old, ChTimestepperEulerImplicit.assemble,
    ChIntegrableIIorder.call_StateScatter, ChIntegrableIIorder.call_LoadResidual_F,
    ChIntegrableIIorder.call_LoadResidual_Mv, ChIntegrableIIorder.call_LoadResidual_CqL,
    ChIntegrableIIorder.call_LoadConstraint_C, one_literal, List.append_assoc,
    List.singleton_append, List.cons_append, List.nil_append]
  rfl

/-! ### Newton loop of the implicit Euler stepper -/

/-- A pass whose assembled residual is below the tolerance ends the loop at once. -/
theorem loop_succ_of_converged {nx nv nc : Nat} (I : ChIntegrableIIorder K σ nx nv nc) (dt : K)
    (self : ChTimestepperEulerImplicit K nx nv) (left : Nat) (s : NewtonState K σ nx nv nc)
    (h : NormInf (ChTimestepperEulerImplicit.assemble I dt self s).R < self.GetTolerance) :
    ChTimestepperEulerImplicit.loop I dt self (left + 1) s =
      ChTimestepperEulerImplicit.assemble I dt self s := by
  simp only [ChTimestepperEulerImplicit.loop]
  rw [if_pos h]

/-- A pass whose assembled residual is not below the tolerance corrects and goes on. -/
theorem loop_succ_of_not_converged {nx nv nc : Nat} (I : ChIntegrableIIorder K σ nx nv nc)
    (dt : K) (self : ChTimestepperEulerImplicit K nx nv) (left : Nat)
    (s : NewtonState K σ nx nv nc)
    (h : ¬ NormInf (ChTimestepperEulerImplicit.assemble I dt self s).R < self.GetTolerance) :
    ChTimestepperEulerImplicit.loop I dt self (left + 1) s =
      ChTimestepperEulerImplicit.loop I dt self left
        (ChTimestepperEulerImplicit.correct I dt self
          (ChTimestepperEulerImplicit.assemble I dt self s)) := by
  simp only [ChTimestepperEulerImplicit.loop]
  rw [if_neg h]

/-- As long as the first `k` passes do not end the loop, the loop with `k + left` passes is the
loop with `left` passes started from the state at the start of pass `k`. -/
theorem loop_add_of_not_converged {nx nv nc : Nat} (I : ChIntegrableIIorder K σ nx nv nc)
    (dt : K) (self : ChTimestepperEulerImplicit K nx nv) (left : Nat) :
    ∀ (k : Nat) (s : NewtonState K σ nx nv nc),
      (∀ j, j < k → ¬ NormInf (ChTimestepperEulerImplicit.assemble I dt self
        (ChTimestepperEulerImplicit.pass I dt self j s)).R < self.GetTolerance) →
      ChTimestepperEulerImplicit.loop I dt self (k + left) s =
        ChTimestepperEulerImplicit.loop I dt self left
          (ChTimestepperEulerImplicit.pass I dt self k s) := by
  intro k
  induction k with
  | zero =>
    intro s _
    simp [ChTimestepperEulerImplicit.pass]
  | succ k ih =>
    intro s h
    have h0 : ¬ NormInf (ChTimestepperEulerImplicit.assemble I dt self s).R
        < self.GetTolerance := h 0 (Nat.succ_pos k)
    have hk : k + 1 + left = (k + left) + 1 := by omega
    rw [hk, loop_succ_of_not_converged I dt self (k + left) s h0]
    rw [ih]
    · rfl
    · intro j hj
      exact h (j + 1) (Nat.succ_lt_succ hj)

/-- Calls recorded by the assembling half of a pass. -/
theorem assemble_calls {nx nv nc : Nat} (I : ChIntegrableIIorder K σ nx nv nc) (dt : K)
    (self : ChTimestepperEulerImplicit K nx nv) (s : NewtonState K σ nx nv nc) :
    (ChTimestepperEulerImplicit.assemble I dt self s).env.calls = s.env.calls ++
      [CallII.StateScatter s.Xnew s.Vnew (self.T + dt), CallII.LoadResidual_F 0 dt,
        CallII.LoadResidual_Mv
          (I.LoadResidual_F (I.StateScatter s.env.system s.Xnew s.Vnew (self.T + dt)) 0 dt)
          (self.V - s.Vnew) 1,
        CallII.LoadResidual_CqL
          (I.LoadResidual_Mv (I.StateScatter s.env.system s.Xnew s.Vnew (self.T + dt))
            (I.LoadResidual_F (I.StateScatter s.env.system s.Xnew s.Vnew (self.T + dt)) 0 dt)
            (self.V - s.Vnew) 1) s.L dt,
        CallII.LoadConstraint_C 0 (1 / dt)] := by
  simp only [ChTimestepperEulerImplicit.assemble, ChIntegrableIIorder.call_StateScatter,
    ChIntegrableIIorder.call_LoadResidual_F, ChIntegrableIIorder.call_LoadResidual_Mv,
    ChIntegrableIIorder.call_LoadResidual_CqL, ChIntegrableIIorder.call_LoadConstraint_C,
    one_literal, List.append_assoc, List.singleton_append, List.cons_append, List.nil_append]
  rfl

/-- Calls recorded by the correcting half of a pass. -/
theorem correct_calls {nx nv nc : Nat} (I : ChIntegrableIIorder K σ nx nv nc) (dt : K)
    (self : ChTimestepperEulerImplicit K nx nv) (s : NewtonState K σ nx nv nc) :
    (ChTimestepperEulerImplicit.correct I dt self s).env.calls = s.env.calls ++
      [CallII.StateSolveCorrection s.R 1 (-dt) (-dt * dt) s.Xnew s.Vnew (self.T + dt) false] := by
  simp only [ChTimestepperEulerImplicit.correct, ChIntegrableIIorder.call_StateSolveCorrection,
    one_literal]

omit [LinearOrderedField K] in
/-- Counting calls of a method in a log that was extended. -/
theorem countKind_append {nx nv nc : Nat} (k : CallKind) (a b : List (CallII K nx nv nc)) :
    CallII.countKind k (a ++ b) = CallII.countKind k a + CallII.countKind k b := by
  simp [CallII.countKind, List.count_append]

/-- Assembling requests no correction and loads the force residual once. -/
theorem assemble_count {nx nv nc : Nat} (I : ChIntegrableIIorder K σ nx nv nc) (dt : K)
    (self : ChTimestepperEulerImplicit K nx nv) (s : NewtonState K σ nx nv nc) :
    CallII.countKind CallKind.StateSolveCorrection
        (ChTimestepperEulerImplicit.assemble I dt self s).env.calls =
      CallII.countKind CallKind.StateSolveCorrection s.env.calls ∧
    CallII.countKind CallKind.LoadResidual_F
        (ChTimestepperEulerImplicit.assemble I dt self s).env.calls =
      CallII.countKind CallKind.LoadResidual_F s.env.calls + 1 := by
  rw [assemble_calls, countKind_append, countKind_append]
  constructor
  · simp [CallII.countKind, CallII.kind]
  · simp [CallII.countKind, CallII.kind]

/-- Correcting requests one correction and loads no force residual. -/
theorem correct_count {nx nv nc : Nat} (I : ChIntegrableIIorder K σ nx nv nc) (dt : K)
    (self : ChTimestepperEulerImplicit K nx nv) (s : NewtonState K σ nx nv nc) :
    CallII.countKind CallKind.StateSolveCorrection
        (ChTimestepperEulerImplicit.correct I dt self s).env.calls =
      CallII.countKind CallKind.StateSolveCorrection s.env.calls + 1 ∧
    CallII.countKind CallKind.LoadResidual_F
        (ChTimestepperEulerImplicit.correct I dt self s).env.calls =
      CallII.countKind CallKind.LoadResidual_F s.env.calls := by
  rw [correct_calls, countKind_append, countKind_append]
  constructor
  · simp [CallII.countKind, CallII.kind]
  · simp [CallII.countKind, CallII.kind]

/-- The state at the start of pass `k` has seen `k` corrections and `k` assemblies. -/
theorem pass_count {nx nv nc : Nat} (I : ChIntegrableIIorder K σ nx nv nc) (dt : K)
    (self : ChTimestepperEulerImplicit K nx nv) :
    ∀ (k : Nat) (s : NewtonState K σ nx nv nc),
      CallII.countKind CallKind.StateSolveCorrection
          (ChTimestepperEulerImplicit.pass I dt self k s).env.calls =
        CallII.countKind CallKind.StateSolveCorrection s.env.calls + k ∧
      CallII.countKind CallKind.LoadResidual_F
          (ChTimestepperEulerImplicit.pass I dt self k s).env.calls =
        CallII.countKind CallKind.LoadResidual_F s.env.calls + k := by
  intro k
  induction k with
  | zero => intro s; exact ⟨rfl, rfl⟩
  | succ k ih =>
    intro s
    have h := ih (ChTimestepperEulerImplicit.correct I dt self
      (ChTimestepperEulerImplicit.assemble I dt self s))
    have hc := correct_count I dt self (ChTimestepperEulerImplicit.assemble I dt self s)
    have ha := assemble_count I dt self s
    simp only [ChTimestepperEulerImplicit.pass]
    constructor
    · rw [h.1, hc.1, ha.1]; omega
    · rw [h.2, hc.2, ha.2]; omega

/-- The loop with `n` passes requests at most `n` corrections and assembles at most `n`
residuals. -/
theorem loop_count_le {nx nv nc : Nat} (I : ChIntegrableIIorder K σ nx nv nc) (dt : K)
    (self : ChTimestepperEulerImplicit K nx nv) :
    ∀ (n : Nat) (s : NewtonState K σ nx nv nc),
      CallII.countKind CallKind.StateSolveCorrection
          (ChTimestepperEulerImplicit.loop I dt self n s).env.calls ≤
        CallII.countKind CallKind.StateSolveCorrection s.env.calls + n ∧
      CallII.countKind CallKind.LoadResidual_F
          (ChTimestepperEulerImplicit.loop I dt self n s).env.calls ≤
        CallII.countKind CallKind.LoadResidual_F s.env.calls + n := by
  intro n
  induction n with
  | zero => intro s; exact ⟨le_refl _, le_refl _⟩
  | succ n ih =>
    intro s
    have ha := assemble_count I dt self s
    by_cases h : NormInf (ChTimestepperEulerImplicit.assemble I dt self s).R < self.GetTolerance
    · rw [loop_succ_of_converged I dt self n s h, ha.1, ha.2]
      constructor <;> omega
    · rw [loop_succ_of_not_converged I dt self n s h]
      have h2 := ih (ChTimestepperEulerImplicit.correct I dt self
        (ChTimestepperEulerImplicit.assemble I dt self s))
      have hc := correct_count I dt self (ChTimestepperEulerImplicit.assemble I dt self s)
      rw [hc.1, hc.2, ha.1, ha.2] at h2
      constructor
      · exact le_trans h2.1 (by omega)
      · exact le_trans h2.2 (by omega)

/-- When pass `k` is within the budget, no pass before it ends the loop and its assembled
residual is below the tolerance, the loop of `Advance` ends with the state assembled in
pass `k`. -/
theorem Advance_loop_of_converged {nx nv nc : Nat} (I : ChIntegrableIIorder K σ nx nv nc)
    (dt : K) (self : ChTimestepperEulerImplicit K nx nv) (e : Env σ (CallII K nx nv nc))
    (k : Nat) (hk : k < self.maxiters.toNat)
    (hnot : ∀ j, j < k → ¬ NormInf (ChTimestepperEulerImplicit.assemble I dt
      (ChTimestepperEulerImplicit.predict I dt self e).1
      (ChTimestepperEulerImplicit.pass I dt (ChTimestepperEulerImplicit.predict I dt self e).1 j
        (ChTimestepperEulerImplicit.predict I dt self e).2)).R < self.GetTolerance)
    (hconv : NormInf (ChTimestepperEulerImplicit.assemble I dt
      (ChTimestepperEulerImplicit.predict I dt self e).1
      (ChTimestepperEulerImplicit.pass I dt (ChTimestepperEulerImplicit.predict I dt self e).1 k
        (ChTimestepperEulerImplicit.predict I dt self e).2)).R < self.GetTolerance) :
    ChTimestepperEulerImplicit.loop I dt (ChTimestepperEulerImplicit.predict I dt self e).1
        self.maxiters.toNat (ChTimestepperEulerImplicit.predict I dt self e).2 =
      ChTimestepperEulerImplicit.assemble I dt (ChTimestepperEulerImplicit.predict I dt self e).1
        (ChTimestepperEulerImplicit.pass I dt (ChTimestepperEulerImplicit.predict I dt self e).1 k
          (ChTimestepperEulerImplicit.predict I dt self e).2) := by
  obtain ⟨left, hleft⟩ : ∃ left, self.maxiters.toNat = k + (left + 1) :=
    ⟨self.maxiters.toNat - k - 1, by omega⟩
  rw [hleft, loop_add_of_not_converged I dt _ (left + 1) k _ hnot]
  exact loop_succ_of_converged I dt _ left _ hconv

/-- C11 as stated fails: for the unit mass under unit force pinned by the constraint
`C(x) = x`, the solve-acceleration of the predictor returns the multiplier `-1`, and that,
not zero, is the `L` handed to `LoadResidual_CqL` in the first Newton pass. -/
theorem EulerImplicit_predict_L_not_zero :
    (ChTimestepperEulerImplicit.predict (pinnedMass (1 : ℚ)) 1 ChTimestepperEulerImplicit.new
      (pinnedAt 0 0 0)).2.L ≠ 0 ∧
    (ChTimestepperEulerImplicit.Advance (pinnedMass (1 : ℚ)) 1 ChTimestepperEulerImplicit.new
      (pinnedAt 0 0 0)).2.calls[6]? =
      some (CallII.LoadResidual_CqL (fun _ => 1) (fun _ => -1) 1 : CallII ℚ 1 1 1) := by
  have hconv : NormInf (ChTimestepperEulerImplicit.assemble (pinnedMass (1 : ℚ)) 1
      (ChTimestepperEulerImplicit.predict (pinnedMass (1 : ℚ)) 1 ChTimestepperEulerImplicit.new
        (pinnedAt 0 0 0)).1
      (ChTimestepperEulerImplicit.pass (pinnedMass (1 : ℚ)) 1
        (ChTimestepperEulerImplicit.predict (pinnedMass (1 : ℚ)) 1
          ChTimestepperEulerImplicit.new (pinnedAt 0 0 0)).1 0
        (ChTimestepperEulerImplicit.predict (pinnedMass (1 : ℚ)) 1
          ChTimestepperEulerImplicit.new (pinnedAt 0 0 0)).2)).R <
      (ChTimestepperEulerImplicit.new : ChTimestepperEulerImplicit ℚ 1 1).GetTolerance := by
    simp [NormInf, ChTimestepperEulerImplicit.assemble, ChTimestepperEulerImplicit.predict,
      ChTimestepperEulerImplicit.pass, ChTimestepperEulerImplicit.new,
      ChIntegrableIIorder.call_StateScatter, ChIntegrableIIorder.call_StateSolveA,
      ChIntegrableIIorder.call_StateGather, ChIntegrableIIorder.call_StateSetup,
      ChIntegrableIIorder.call_LoadResidual_F, ChIntegrableIIorder.call_LoadResidual_Mv,
      ChIntegrableIIorder.call_LoadResidual_CqL, ChIntegrableIIorder.call_LoadConstraint_C,
      pinnedMass, pinnedAt, ChImplicitTimestepper.new, ChImplicitTimestepper.GetTolerance,
      Reset, scale]
    norm_num
  have hloop := Advance_loop_of_converged (pinnedMass (1 : ℚ)) 1 ChTimestepperEulerImplicit.new
    (pinnedAt 0 0 0) 0 (by decide) (fun j hj => absurd hj (Nat.not_lt_zero j)) hconv
  constructor
  · intro h
    have h0 := congrFun h 0
    simp [ChTimestepperEulerImplicit.predict, ChIntegrableIIorder.call_StateSolveA,
      ChIntegrableIIorder.call_StateGather, ChIntegrableIIorder.call_StateSetup,
      pinnedMass] at h0
  · have hc : (ChTimestepperEulerImplicit.Advance (pinnedMass (1 : ℚ)) 1
        ChTimestepperEulerImplicit.new (pinnedAt 0 0 0)).2.calls =
        (ChTimestepperEulerImplicit.loop (pinnedMass (1 : ℚ)) 1
          (ChTimestepperEulerImplicit.predict (pinnedMass (1 : ℚ)) 1
            ChTimestepperEulerImplicit.new (pinnedAt 0 0 0)).1
          (ChTimestepperEulerImplicit.new : ChTimestepperEulerImplicit ℚ 1 1).maxiters.toNat
          (ChTimestepperEulerImplicit.predict (pinnedMass (1 : ℚ)) 1
            ChTimestepperEulerImplicit.new (pinnedAt 0 0 0)).2).env.calls ++
        [CallII.StateScatter _ _ _] := rfl
    rw [hc, hloop, assemble_calls]
    simp [ChTimestepperEulerImplicit.predict, ChTimestepperEulerImplicit.pass,
      ChIntegrableIIorder.call_StateSolveA,
      ChIntegrableIIorder.call_StateGather, ChIntegrableIIorder.call_StateSetup,
      pinnedMass, pinnedAt, ChTimestepperEulerImplicit.new]

/-- C11, amended: the predict phase of `ChTimestepperEulerImplicit::Advance` issues one
`StateSolveA` at the gathered state `(X, V, T)` with the flag `false` and produces the trial
state `Xnew = X + V*dt`, `Vnew = V + Dv`; the multiplier vector `L` with which the first Newton
pass assembles its residual is the multiplier vector returned by that `StateSolveA` call, hence
the zero vector whenever the call returns zero multipliers. -/
theorem EulerImplicit_predict {nx nv nc : Nat} (I : ChIntegrableIIorder K σ nx nv nc)
    (dt : K) (self : ChTimestepperEulerImplicit K nx nv) (e : Env σ (CallII K nx nv nc)) :
    let X := (I.StateGather e.system).1
    let V := (I.StateGather e.system).2.1
    let T := (I.StateGather e.system).2.2
    let r := I.StateSolveA e.system X V T dt false
    let p := ChTimestepperEulerImplicit.predict I dt self e
    let a := ChTimestepperEulerImplicit.assemble I dt p.1 p.2
    let sys := I.StateScatter r.2 p.2.Xnew p.2.Vnew (T + dt)
    (ChTimestepperEulerImplicit.Advance I dt self e =
      ({ p.1 with
          X := (ChTimestepperEulerImplicit.loop I dt p.1 self.maxiters.toNat p.2).Xnew
          V := (ChTimestepperEulerImplicit.loop I dt p.1 self.maxiters.toNat p.2).Vnew
          T := T + dt },
        I.call_StateScatter
          (ChTimestepperEulerImplicit.loop I dt p.1 self.maxiters.toNat p.2).Xnew
          (ChTimestepperEulerImplicit.loop I dt p.1 self.maxiters.toNat p.2).Vnew (T + dt)
          (ChTimestepperEulerImplicit.loop I dt p.1 self.maxiters.toNat p.2).env)) ∧
    p.2.env.calls = e.calls ++
      [CallII.StateSetup, CallII.StateGather, CallII.StateSolveA X V T dt false] ∧
    p.2.Xnew = I.StateIncrementX X (fun i => V i * dt) ∧
    p.2.Vnew = (fun i => V i + r.1.1 i) ∧
    p.2.L = r.1.2 ∧
    a.R = I.LoadResidual_CqL sys
      (I.LoadResidual_Mv sys (I.LoadResidual_F sys 0 dt) (fun i => V i - p.2.Vnew i) 1)
      r.1.2 dt ∧
    (r.1.2 = 0 → p.2.L = 0) := by
  intro X V T r p a sys
  refine ⟨rfl, ?_, rfl, rfl, rfl, ?_, fun h => h⟩
  · simp [p, r, X, V, T, ChTimestepperEulerImplicit.predict, ChIntegrableIIorder.call_StateSolveA,
      ChIntegrableIIorder.call_StateGather, ChIntegrableIIorder.call_StateSetup]
  · simp only [a, ChTimestepperEulerImplicit.assemble,
      ChIntegrableIIorder.call_StateScatter, ChIntegrableIIorder.call_LoadResidual_F,
      ChIntegrableIIorder.call_LoadResidual_Mv, ChIntegrableIIorder.call_LoadResidual_CqL,
      one_literal]
    rfl

/-- The predictor requests no correction and loads no force residual. -/
theorem predict_count {nx nv nc : Nat} (I : ChIntegrableIIorder K σ nx nv nc) (dt : K)
    (self : ChTimestepperEulerImplicit K nx nv) (e : Env σ (CallII K nx nv nc)) :
    CallII.countKind CallKind.StateSolveCorrection
        (ChTimestepperEulerImplicit.predict I dt self e).2.env.calls =
      CallII.countKind CallKind.StateSolveCorrection e.calls ∧
    CallII.countKind CallKind.LoadResidual_F
        (ChTimestepperEulerImplicit.predict I dt self e).2.env.calls =
      CallII.countKind CallKind.LoadResidual_F e.calls := by
  have h : (ChTimestepperEulerImplicit.predict I dt self e).2.env.calls = e.calls ++
      [CallII.StateSetup, CallII.StateGather,
        CallII.StateSolveA (I.StateGather e.system).1 (I.StateGather e.system).2.1
          (I.StateGather e.system).2.2 dt false] := by
    simp [ChTimestepperEulerImplicit.predict, ChIntegrableIIorder.call_StateSolveA,
      ChIntegrableIIorder.call_StateGather, ChIntegrableIIorder.call_StateSetup]
  rw [h, countKind_append, countKind_append]
  constructor
  · simp [CallII.countKind, CallII.kind]
  · simp [CallII.countKind, CallII.kind]

/-- The final `StateScatter` of `Advance` is neither a correction nor a residual load. -/
theorem Advance_count {nx nv nc : Nat} (I : ChIntegrableIIorder K σ nx nv nc) (dt : K)
    (self : ChTimestepperEulerImplicit K nx nv) (e : Env σ (CallII K nx nv nc)) :
    CallII.countKind CallKind.StateSolveCorrection
        (ChTimestepperEulerImplicit.Advance I dt self e).2.calls =
      CallII.countKind CallKind.StateSolveCorrection
        (ChTimestepperEulerImplicit.loop I dt (ChTimestepperEulerImplicit.predict I dt self e).1
          self.maxiters.toNat (ChTimestepperEulerImplicit.predict I dt self e).2).env.calls ∧
    CallII.countKind CallKind.LoadResidual_F
        (ChTimestepperEulerImplicit.Advance I dt self e).2.calls =
      CallII.countKind CallKind.LoadResidual_F
        (ChTimestepperEulerImplicit.loop I dt (ChTimestepperEulerImplicit.predict I dt self e).1
          self.maxiters.toNat (ChTimestepperEulerImplicit.predict I dt self e).2).env.calls := by
  have h : (ChTimestepperEulerImplicit.Advance I dt self e).2.calls =
      (ChTimestepperEulerImplicit.loop I dt (ChTimestepperEulerImplicit.predict I dt self e).1
        self.maxiters.toNat (ChTimestepperEulerImplicit.predict I dt self e).2).env.calls ++
      [CallII.StateScatter (ChTimestepperEulerImplicit.Advance I dt self e).1.X
        (ChTimestepperEulerImplicit.Advance I dt self e).1.V
        (ChTimestepperEulerImplicit.Advance I dt self e).1.T] := rfl
  rw [h, countKind_append, countKind_append]
  constructor
  · simp [CallII.countKind, CallII.kind]
  · simp [CallII.countKind, CallII.kind]

/-- The infinity norm is not negative. -/
theorem NormInf_nonneg {n : Nat} (v : ChVectorDynamic K n) : 0 ≤ NormInf v := by
  have h : ∀ (l : List K) (init : K), init ≤
      l.foldl (fun norm el => if norm < |el| then |el| else norm) init := by
    intro l
    induction l with
    | nil => intro init; exact le_refl _
    | cons a l ih =>
      intro init
      simp only [List.foldl_cons]
      by_cases hlt : init < |a|
      · rw [if_pos hlt]
        exact le_trans (le_of_lt hlt) (ih _)
      · rw [if_neg hlt]
        exact ih _
  exact h _ 0

/-- C12: in `ChTimestepperEulerImplicit::Advance`, when pass `k` of the Newton loop is reached
(it is within the budget and no earlier pass ended the loop) and the residual it assembles at
the trial state `(Xnew, Vnew)` has infinity norm strictly below `GetTolerance()`, then the
calls issued from the start of that pass on are the assembly calls and the final scatter, no
correction solve among them (the log holds the `k` corrections of the earlier passes only),
and the state committed to `X()`, `V()` is that trial state. -/
theorem EulerImplicit_converged_commit {nx nv nc : Nat} (I : ChIntegrableIIorder K σ nx nv nc)
    (dt : K) (self : ChTimestepperEulerImplicit K nx nv) (e : Env σ (CallII K nx nv nc))
    (k : Nat) :
    let p := ChTimestepperEulerImplicit.predict I dt self e
    let T := (I.StateGather e.system).2.2
    let s := ChTimestepperEulerImplicit.pass I dt p.1 k p.2
    let a := ChTimestepperEulerImplicit.assemble I dt p.1 s
    let sys := I.StateScatter s.env.system s.Xnew s.Vnew (T + dt)
    let R1 := I.LoadResidual_F sys 0 dt
    let R2 := I.LoadResidual_Mv sys R1 (p.1.V - s.Vnew) 1
    let out := ChTimestepperEulerImplicit.Advance I dt self e
    k < self.maxiters.toNat →
    (∀ j, j < k → ¬ NormInf (ChTimestepperEulerImplicit.assemble I dt p.1
      (ChTimestepperEulerImplicit.pass I dt p.1 j p.2)).R < self.GetTolerance) →
    NormInf a.R < self.GetTolerance →
    out.1.X = s.Xnew ∧ out.1.V = s.Vnew ∧
    out.2.calls = s.env.calls ++
      [CallII.StateScatter s.Xnew s.Vnew (T + dt), CallII.LoadResidual_F 0 dt,
        CallII.LoadResidual_Mv R1 (p.1.V - s.Vnew) 1, CallII.LoadResidual_CqL R2 s.L dt,
        CallII.LoadConstraint_C 0 (1 / dt), CallII.StateScatter s.Xnew s.Vnew (T + dt)] ∧
    CallII.countKind CallKind.StateSolveCorrection out.2.calls =
      CallII.countKind CallKind.StateSolveCorrection e.calls + k := by
  intro p T s a sys R1 R2 out hk hnot hconv
  have hloop := Advance_loop_of_converged I dt self e k hk hnot hconv
  have hX : out.1.X = (ChTimestepperEulerImplicit.loop I dt p.1 self.maxiters.toNat p.2).Xnew :=
    rfl
  have hV : out.1.V = (ChTimestepperEulerImplicit.loop I dt p.1 self.maxiters.toNat p.2).Vnew :=
    rfl
  have hc : out.2.calls =
      (ChTimestepperEulerImplicit.loop I dt p.1 self.maxiters.toNat p.2).env.calls ++
      [CallII.StateScatter
        (ChTimestepperEulerImplicit.loop I dt p.1 self.maxiters.toNat p.2).Xnew
        (ChTimestepperEulerImplicit.loop I dt p.1 self.maxiters.toNat p.2).Vnew (T + dt)] := rfl
  have haX : (ChTimestepperEulerImplicit.assemble I dt p.1 s).Xnew = s.Xnew := rfl
  have haV : (ChTimestepperEulerImplicit.assemble I dt p.1 s).Vnew = s.Vnew := rfl
  refine ⟨by rw [hX, hloop]; rfl, by rw [hV, hloop]; rfl, ?_, ?_⟩
  · rw [hc, hloop, haX, haV, assemble_calls, List.append_assoc]
    rfl
  · rw [(Advance_count I dt self e).1, hloop, (assemble_count I dt p.1 s).1,
      (pass_count I dt p.1 k p.2).1, (predict_count I dt self e).1]

/-- C12 at a concrete input: unit mass on a unit spring gathered at `x = 1`, `v = 1`, `dt = 1`,
stepper as constructed; passes 0 and 1 assemble the residuals `-1` and `1` and correct, pass 2
assembles the residual `0` at the trial state `(1, 0)`, which is committed after two
corrections. -/
theorem EulerImplicit_converged_commit_spring :
    2 < (ChTimestepperEulerImplicit.new : ChTimestepperEulerImplicit ℚ 1 1).maxiters.toNat ∧
    (ChTimestepperEulerImplicit.Advance (springMass (0 : ℚ) 1) 1 ChTimestepperEulerImplicit.new
      (particleAt 1 1 0)).1.X 0 = 1 ∧
    (ChTimestepperEulerImplicit.Advance (springMass (0 : ℚ) 1) 1 ChTimestepperEulerImplicit.new
      (particleAt 1 1 0)).1.V 0 = 0 ∧
    CallII.countKind CallKind.StateSolveCorrection
      (ChTimestepperEulerImplicit.Advance (springMass (0 : ℚ) 1) 1 ChTimestepperEulerImplicit.new
        (particleAt 1 1 0)).2.calls = 2 := by
  have hk : 2 < (ChTimestepperEulerImplicit.new : ChTimestepperEulerImplicit ℚ 1 1).maxiters.toNat := by
    decide
  have h := EulerImplicit_converged_commit (springMass (0 : ℚ) 1) 1
    ChTimestepperEulerImplicit.new (particleAt 1 1 0) 2 hk
    (by
      intro j hj
      interval_cases j
      · simp [NormInf, ChTimestepperEulerImplicit.assemble, ChTimestepperEulerImplicit.predict,
          ChTimestepperEulerImplicit.pass, ChTimestepperEulerImplicit.new,
          ChIntegrableIIorder.call_StateScatter, ChIntegrableIIorder.call_StateSolveA,
          ChIntegrableIIorder.call_StateGather, ChIntegrableIIorder.call_StateSetup,
          ChIntegrableIIorder.call_LoadResidual_F, ChIntegrableIIorder.call_LoadResidual_Mv,
          ChIntegrableIIorder.call_LoadResidual_CqL, ChIntegrableIIorder.call_LoadConstraint_C,
          springMass, particleAt, ChImplicitTimestepper.new, ChImplicitTimestepper.GetTolerance,
          Reset, scale]
        norm_num
      · simp [NormInf, ChTimestepperEulerImplicit.assemble, ChTimestepperEulerImplicit.predict,
          ChTimestepperEulerImplicit.pass, ChTimestepperEulerImplicit.correct,
          ChTimestepperEulerImplicit.new, ChIntegrableIIorder.call_StateSolveCorrection,
          ChIntegrableIIorder.call_StateScatter, ChIntegrableIIorder.call_StateSolveA,
          ChIntegrableIIorder.call_StateGather, ChIntegrableIIorder.call_StateSetup,
          ChIntegrableIIorder.call_LoadResidual_F, ChIntegrableIIorder.call_LoadResidual_Mv,
          ChIntegrableIIorder.call_LoadResidual_CqL, ChIntegrableIIorder.call_LoadConstraint_C,
          springMass, particleAt, ChImplicitTimestepper.new, ChImplicitTimestepper.GetTolerance,
          Reset, scale]
        norm_num)
    (by
      simp [NormInf, ChTimestepperEulerImplicit.assemble, ChTimestepperEulerImplicit.predict,
        ChTimestepperEulerImplicit.pass, ChTimestepperEulerImplicit.correct,
        ChTimestepperEulerImplicit.new, ChIntegrableIIorder.call_StateSolveCorrection,
        ChIntegrableIIorder.call_StateScatter, ChIntegrableIIorder.call_StateSolveA,
        ChIntegrableIIorder.call_StateGather, ChIntegrableIIorder.call_StateSetup,
        ChIntegrableIIorder.call_LoadResidual_F, ChIntegrableIIorder.call_LoadResidual_Mv,
        ChIntegrableIIorder.call_LoadResidual_CqL, ChIntegrableIIorder.call_LoadConstraint_C,
        springMass, particleAt, ChImplicitTimestepper.new, ChImplicitTimestepper.GetTolerance,
        Reset, scale]
      norm_num)
  obtain ⟨hX, hV, -, hn⟩ := h
  refine ⟨hk, ?_, ?_, ?_⟩
  · rw [hX]
    simp [ChTimestepperEulerImplicit.assemble, ChTimestepperEulerImplicit.predict,
      ChTimestepperEulerImplicit.pass, ChTimestepperEulerImplicit.correct,
      ChTimestepperEulerImplicit.new, ChIntegrableIIorder.call_StateSolveCorrection,
      ChIntegrableIIorder.call_StateScatter, ChIntegrableIIorder.call_StateSolveA,
      ChIntegrableIIorder.call_StateGather, ChIntegrableIIorder.call_StateSetup,
      ChIntegrableIIorder.call_LoadResidual_F, ChIntegrableIIorder.call_LoadResidual_Mv,
      ChIntegrableIIorder.call_LoadResidual_CqL, ChIntegrableIIorder.call_LoadConstraint_C,
      springMass, particleAt, Reset, scale]
    norm_num
  · rw [hV]
    simp [ChTimestepperEulerImplicit.assemble, ChTimestepperEulerImplicit.predict,
      ChTimestepperEulerImplicit.pass, ChTimestepperEulerImplicit.correct,
      ChTimestepperEulerImplicit.new, ChIntegrableIIorder.call_StateSolveCorrection,
      ChIntegrableIIorder.call_StateScatter, ChIntegrableIIorder.call_StateSolveA,
      ChIntegrableIIorder.call_StateGather, ChIntegrableIIorder.call_StateSetup,
      ChIntegrableIIorder.call_LoadResidual_F, ChIntegrableIIorder.call_LoadResidual_Mv,
      ChIntegrableIIorder.call_LoadResidual_CqL, ChIntegrableIIorder.call_LoadConstraint_C,
      springMass, particleAt, Reset, scale]
    norm_num
  · rw [hn]
    simp [CallII.countKind, particleAt]

/-- C13: `ChTimestepperEulerImplicit::Advance` is a total function; the loop condition
`i < GetMaxiters()` admits exactly the passes `i < max(maxiters, 0)`; for every system and
every tolerance one call requests at most `max(GetMaxiters(), 0)` correction solves and
assembles at most that many residuals; when no assembled residual falls below the tolerance
(as is the case for a tolerance that is not positive) it requests exactly that many correction
solves, which is `GetMaxiters()` when that is not negative, commits the trial state left by the
last correction and advances the time by `dt`. -/
theorem EulerImplicit_Advance_bounded {nx nv nc : Nat} (I : ChIntegrableIIorder K σ nx nv nc)
    (dt : K) (self : ChTimestepperEulerImplicit K nx nv) (e : Env σ (CallII K nx nv nc)) :
    let p := ChTimestepperEulerImplicit.predict I dt self e
    let T := (I.StateGather e.system).2.2
    let n := self.maxiters.toNat
    let out := ChTimestepperEulerImplicit.Advance I dt self e
    (∀ i : Nat, ((i : K) < self.GetMaxiters ↔ i < n)) ∧
    ((n : Int) = max self.maxiters 0) ∧
    CallII.countKind CallKind.StateSolveCorrection out.2.calls ≤
      CallII.countKind CallKind.StateSolveCorrection e.calls + n ∧
    CallII.countKind CallKind.LoadResidual_F out.2.calls ≤
      CallII.countKind CallKind.LoadResidual_F e.calls + n ∧
    ((∀ j, j < n → ¬ NormInf (ChTimestepperEulerImplicit.assemble I dt p.1
        (ChTimestepperEulerImplicit.pass I dt p.1 j p.2)).R < self.GetTolerance) →
      CallII.countKind CallKind.StateSolveCorrection out.2.calls =
        CallII.countKind CallKind.StateSolveCorrection e.calls + n ∧
      (0 ≤ self.maxiters → (n : K) = self.GetMaxiters) ∧
      out.1.X = (ChTimestepperEulerImplicit.pass I dt p.1 n p.2).Xnew ∧
      out.1.V = (ChTimestepperEulerImplicit.pass I dt p.1 n p.2).Vnew ∧
      out.1.GetTime = T + dt ∧
      out.2.calls.getLast? = some (CallII.StateScatter
        (ChTimestepperEulerImplicit.pass I dt p.1 n p.2).Xnew
        (ChTimestepperEulerImplicit.pass I dt p.1 n p.2).Vnew (T + dt))) ∧
    (self.GetTolerance ≤ 0 →
      CallII.countKind CallKind.StateSolveCorrection out.2.calls =
        CallII.countKind CallKind.StateSolveCorrection e.calls + n) := by
  intro p T n out
  have hcast : ∀ i : Nat, ((i : K) < self.GetMaxiters ↔ i < n) := by
    intro i
    have h1 : ((i : K) < self.GetMaxiters) ↔ ((i : Int) < self.maxiters) := by
      simp only [ChImplicitTimestepper.GetMaxiters]
      rw [← Int.cast_natCast i, Int.cast_lt]
    rw [h1]
    simp only [n]
    omega
  have hmax : (n : Int) = max self.maxiters 0 := by
    simp only [n]
    omega
  have hle := loop_count_le I dt p.1 n p.2
  have hA := Advance_count I dt self e
  have hP := predict_count I dt self e
  have hexh : (∀ j, j < n → ¬ NormInf (ChTimestepperEulerImplicit.assemble I dt p.1
        (ChTimestepperEulerImplicit.pass I dt p.1 j p.2)).R < self.GetTolerance) →
      ChTimestepperEulerImplicit.loop I dt p.1 n p.2 =
        ChTimestepperEulerImplicit.pass I dt p.1 n p.2 := by
    intro hnot
    have h := loop_add_of_not_converged I dt p.1 0 n p.2 hnot
    simpa [ChTimestepperEulerImplicit.loop] using h
  have hcount : (∀ j, j < n → ¬ NormInf (ChTimestepperEulerImplicit.assemble I dt p.1
        (ChTimestepperEulerImplicit.pass I dt p.1 j p.2)).R < self.GetTolerance) →
      CallII.countKind CallKind.StateSolveCorrection out.2.calls =
        CallII.countKind CallKind.StateSolveCorrection e.calls + n := by
    intro hnot
    have h1 : CallII.countKind CallKind.StateSolveCorrection out.2.calls =
        CallII.countKind CallKind.StateSolveCorrection
          (ChTimestepperEulerImplicit.loop I dt p.1 n p.2).env.calls := hA.1
    rw [h1, hexh hnot, (pass_count I dt p.1 n p.2).1, hP.1]
  have hX : out.1.X = (ChTimestepperEulerImplicit.loop I dt p.1 n p.2).Xnew := rfl
  have hV : out.1.V = (ChTimestepperEulerImplicit.loop I dt p.1 n p.2).Vnew := rfl
  have hc : out.2.calls = (ChTimestepperEulerImplicit.loop I dt p.1 n p.2).env.calls ++
      [CallII.StateScatter (ChTimestepperEulerImplicit.loop I dt p.1 n p.2).Xnew
        (ChTimestepperEulerImplicit.loop I dt p.1 n p.2).Vnew (T + dt)] := rfl
  refine ⟨hcast, hmax, ?_, ?_, ?_, ?_⟩
  · have h1 : CallII.countKind CallKind.StateSolveCorrection out.2.calls =
        CallII.countKind CallKind.StateSolveCorrection
          (ChTimestepperEulerImplicit.loop I dt p.1 n p.2).env.calls := hA.1
    rw [h1, ← hP.1]
    exact hle.1
  · have h1 : CallII.countKind CallKind.LoadResidual_F out.2.calls =
        CallII.countKind CallKind.LoadResidual_F
          (ChTimestepperEulerImplicit.loop I dt p.1 n p.2).env.calls := hA.2
    rw [h1, ← hP.2]
    exact hle.2
  · intro hnot
    refine ⟨hcount hnot, ?_, ?_, ?_, rfl, ?_⟩
    · intro h0
      simp only [ChImplicitTimestepper.GetMaxiters]
      rw [← Int.cast_natCast n]
      congr 1
      simp only [n]
      omega
    · rw [hX, hexh hnot]
    · rw [hV, hexh hnot]
    · rw [hc, hexh hnot]
      simp
  · intro htol
    apply hcount
    intro j _ hlt
    exact absurd (lt_of_lt_of_le hlt htol) (not_lt.mpr (NormInf_nonneg _))

/-- C14 as stated fails: unit mass under unit force with the holonomic constraint `C(x) = x`,
gathered off the constraint at `x = 1`, `v = 0`, `dt = 1`, stepper as constructed. Pass 0 of
the Newton loop assembles the residual `R = 0` and ends the loop by convergence, without any
correction; the state committed is `X = 1`, and the constraint violation scaled by `1/dt`, the
`Qc` of the committed state, is `1`, not below the tolerance `1e-10`. -/
theorem EulerImplicit_converged_constraint_violated :
    NormInf (ChTimestepperEulerImplicit.assemble (pinnedMass (1 : ℚ)) 1
      (ChTimestepperEulerImplicit.predict (pinnedMass (1 : ℚ)) 1 ChTimestepperEulerImplicit.new
        (pinnedAt 1 0 0)).1
      (ChTimestepperEulerImplicit.predict (pinnedMass (1 : ℚ)) 1 ChTimestepperEulerImplicit.new
        (pinnedAt 1 0 0)).2).R <
      (ChTimestepperEulerImplicit.new : ChTimestepperEulerImplicit ℚ 1 1).GetTolerance ∧
    CallII.countKind CallKind.StateSolveCorrection
      (ChTimestepperEulerImplicit.Advance (pinnedMass (1 : ℚ)) 1 ChTimestepperEulerImplicit.new
        (pinnedAt 1 0 0)).2.calls = 0 ∧
    (ChTimestepperEulerImplicit.Advance (pinnedMass (1 : ℚ)) 1 ChTimestepperEulerImplicit.new
      (pinnedAt 1 0 0)).1.X 0 = 1 ∧
    (ChTimestepperEulerImplicit.loop (pinnedMass (1 : ℚ)) 1
      (ChTimestepperEulerImplicit.predict (pinnedMass (1 : ℚ)) 1 ChTimestepperEulerImplicit.new
        (pinnedAt 1 0 0)).1
      (ChTimestepperEulerImplicit.new : ChTimestepperEulerImplicit ℚ 1 1).maxiters.toNat
      (ChTimestepperEulerImplicit.predict (pinnedMass (1 : ℚ)) 1 ChTimestepperEulerImplicit.new
        (pinnedAt 1 0 0)).2).Qc 0 = 1 ∧
    (pinnedMass (1 : ℚ)).LoadConstraint_C
      (ChTimestepperEulerImplicit.Advance (pinnedMass (1 : ℚ)) 1 ChTimestepperEulerImplicit.new
        (pinnedAt 1 0 0)).2.system 0 (1 / 1) 0 = 1 ∧
    ¬ ((1 : ℚ) < (ChTimestepperEulerImplicit.new : ChTimestepperEulerImplicit ℚ 1 1).GetTolerance)
    := by
  have hconv : NormInf (ChTimestepperEulerImplicit.assemble (pinnedMass (1 : ℚ)) 1
      (ChTimestepperEulerImplicit.predict (pinnedMass (1 : ℚ)) 1 ChTimestepperEulerImplicit.new
        (pinnedAt 1 0 0)).1
      (ChTimestepperEulerImplicit.pass (pinnedMass (1 : ℚ)) 1
        (ChTimestepperEulerImplicit.predict (pinnedMass (1 : ℚ)) 1
          ChTimestepperEulerImplicit.new (pinnedAt 1 0 0)).1 0
        (ChTimestepperEulerImplicit.predict (pinnedMass (1 : ℚ)) 1
          ChTimestepperEulerImplicit.new (pinnedAt 1 0 0)).2)).R <
      (ChTimestepperEulerImplicit.new : ChTimestepperEulerImplicit ℚ 1 1).GetTolerance := by
    simp [NormInf, ChTimestepperEulerImplicit.assemble, ChTimestepperEulerImplicit.predict,
      ChTimestepperEulerImplicit.pass, ChTimestepperEulerImplicit.new,
      ChIntegrableIIorder.call_StateScatter, ChIntegrableIIorder.call_StateSolveA,
      ChIntegrableIIorder.call_StateGather, ChIntegrableIIorder.call_StateSetup,
      ChIntegrableIIorder.call_LoadResidual_F, ChIntegrableIIorder.call_LoadResidual_Mv,
      ChIntegrableIIorder.call_LoadResidual_CqL, ChIntegrableIIorder.call_LoadConstraint_C,
      pinnedMass, pinnedAt, ChImplicitTimestepper.new, ChImplicitTimestepper.GetTolerance,
      Reset, scale]
    norm_num
  have hloop := Advance_loop_of_converged (pinnedMass (1 : ℚ)) 1 ChTimestepperEulerImplicit.new
    (pinnedAt 1 0 0) 0 (by decide) (fun j hj => absurd hj (Nat.not_lt_zero j)) hconv
  have hX : (ChTimestepperEulerImplicit.Advance (pinnedMass (1 : ℚ)) 1
      ChTimestepperEulerImplicit.new (pinnedAt 1 0 0)).1.X =
      (ChTimestepperEulerImplicit.loop (pinnedMass (1 : ℚ)) 1
        (ChTimestepperEulerImplicit.predict (pinnedMass (1 : ℚ)) 1
          ChTimestepperEulerImplicit.new (pinnedAt 1 0 0)).1
        (ChTimestepperEulerImplicit.new : ChTimestepperEulerImplicit ℚ 1 1).maxiters.toNat
        (ChTimestepperEulerImplicit.predict (pinnedMass (1 : ℚ)) 1
          ChTimestepperEulerImplicit.new (pinnedAt 1 0 0)).2).Xnew := rfl
  have hS : (ChTimestepperEulerImplicit.Advance (pinnedMass (1 : ℚ)) 1
      ChTimestepperEulerImplicit.new (pinnedAt 1 0 0)).2.system =
      (pinnedMass (1 : ℚ)).StateScatter
        (ChTimestepperEulerImplicit.loop (pinnedMass (1 : ℚ)) 1
          (ChTimestepperEulerImplicit.predict (pinnedMass (1 : ℚ)) 1
            ChTimestepperEulerImplicit.new (pinnedAt 1 0 0)).1
          (ChTimestepperEulerImplicit.new : ChTimestepperEulerImplicit ℚ 1 1).maxiters.toNat
          (ChTimestepperEulerImplicit.predict (pinnedMass (1 : ℚ)) 1
            ChTimestepperEulerImplicit.new (pinnedAt 1 0 0)).2).env.system
        (ChTimestepperEulerImplicit.loop (pinnedMass (1 : ℚ)) 1
          (ChTimestepperEulerImplicit.predict (pinnedMass (1 : ℚ)) 1
            ChTimestepperEulerImplicit.new (pinnedAt 1 0 0)).1
          (ChTimestepperEulerImplicit.new : ChTimestepperEulerImplicit ℚ 1 1).maxiters.toNat
          (ChTimestepperEulerImplicit.predict (pinnedMass (1 : ℚ)) 1
            ChTimestepperEulerImplicit.new (pinnedAt 1 0 0)).2).Xnew
        (ChTimestepperEulerImplicit.loop (pinnedMass (1 : ℚ)) 1
          (ChTimestepperEulerImplicit.predict (pinnedMass (1 : ℚ)) 1
            ChTimestepperEulerImplicit.new (pinnedAt 1 0 0)).1
          (ChTimestepperEulerImplicit.new : ChTimestepperEulerImplicit ℚ 1 1).maxiters.toNat
          (ChTimestepperEulerImplicit.predict (pinnedMass (1 : ℚ)) 1
            ChTimestepperEulerImplicit.new (pinnedAt 1 0 0)).2).Vnew
        ((ChTimestepperEulerImplicit.predict (pinnedMass (1 : ℚ)) 1
            ChTimestepperEulerImplicit.new (pinnedAt 1 0 0)).1.T + 1) := rfl
  refine ⟨hconv, ?_, ?_, ?_, ?_, ?_⟩
  · rw [(Advance_count _ _ _ _).1, hloop, (assemble_count _ _ _ _).1, (pass_count _ _ _ _ _).1,
      (predict_count _ _ _ _).1]
    simp [CallII.countKind, pinnedAt]
  · rw [hX, hloop]
    simp [ChTimestepperEulerImplicit.assemble, ChTimestepperEulerImplicit.predict,
      ChTimestepperEulerImplicit.pass, ChTimestepperEulerImplicit.new,
      ChIntegrableIIorder.call_StateSolveA, ChIntegrableIIorder.call_StateGather,
      ChIntegrableIIorder.call_StateSetup, pinnedMass, pinnedAt, scale]
  · rw [hloop]
    simp [ChTimestepperEulerImplicit.assemble, ChTimestepperEulerImplicit.predict,
      ChTimestepperEulerImplicit.pass, ChTimestepperEulerImplicit.new,
      ChIntegrableIIorder.call_StateScatter, ChIntegrableIIorder.call_StateSolveA,
      ChIntegrableIIorder.call_StateGather, ChIntegrableIIorder.call_StateSetup,
      ChIntegrableIIorder.call_LoadResidual_F, ChIntegrableIIorder.call_LoadResidual_Mv,
      ChIntegrableIIorder.call_LoadResidual_CqL, ChIntegrableIIorder.call_LoadConstraint_C,
      pinnedMass, pinnedAt, Reset, scale]
    norm_num
  · rw [hS, hloop]
    simp [ChTimestepperEulerImplicit.assemble, ChTimestepperEulerImplicit.predict,
      ChTimestepperEulerImplicit.pass, ChTimestepperEulerImplicit.new,
      ChIntegrableIIorder.call_StateSolveA, ChIntegrableIIorder.call_StateGather,
      ChIntegrableIIorder.call_StateSetup, pinnedMass, pinnedAt, scale]
  · simp [ChTimestepperEulerImplicit.new, ChImplicitTimestepper.new,
      ChImplicitTimestepper.GetTolerance]
    norm_num

/-- C15: a freshly constructed `ChImplicitTimestepper`, and so a freshly constructed
`ChTimestepperEulerImplicit`, reports `GetMaxiters() = 20` and `GetTolerance() = 1e-10`
(one over ten to the tenth); after `SetMaxiters(n)`, `GetMaxiters() = n` and the tolerance is
unchanged; after `SetTolerance(tol)`, `GetTolerance() = tol` and the iteration limit is
unchanged. -/
theorem ImplicitTimestepper_defaults_setters {nx nv : Nat} :
    (ChImplicitTimestepper.new : ChImplicitTimestepper K).GetMaxiters = 20 ∧
    (ChImplicitTimestepper.new : ChImplicitTimestepper K).GetTolerance = 1e-10 ∧
    (1e-10 : K) = 1 / 10 ^ 10 ∧
    (ChTimestepperEulerImplicit.new : ChTimestepperEulerImplicit K nx nv).GetMaxiters = 20 ∧
    (ChTimestepperEulerImplicit.new : ChTimestepperEulerImplicit K nx nv).GetTolerance = 1e-10 ∧
    (∀ (self : ChImplicitTimestepper K) (n : Int) (tol : K),
      (self.SetMaxiters n).GetMaxiters = (n : K) ∧
      (self.SetMaxiters n).maxiters = n ∧
      (self.SetMaxiters n).GetTolerance = self.GetTolerance ∧
      (self.SetTolerance tol).GetTolerance = tol ∧
      (self.SetTolerance tol).GetMaxiters = self.GetMaxiters) := by
  refine ⟨?_, rfl, by norm_num, ?_, rfl, fun self n tol => ⟨rfl, rfl, rfl, rfl, rfl⟩⟩
  · simp [ChImplicitTimestepper.GetMaxiters, ChImplicitTimestepper.new]
  · simp [ChImplicitTimestepper.GetMaxiters, ChImplicitTimestepper.new,
      ChTimestepperEulerImplicit.new]

/-- C17, the code at a failing input: Leapfrog on the unit mass under unit force gathered at
`x = 0`, `v = 1`, `T = 0`, stepper as constructed, `dt = 1`. No scatter precedes the solve, and
`StateSolveA` is called with the flag `false` at the advanced position `X = 1`, while the
position last gathered from the system is `0`: the policy of the scatter flag is broken. -/
theorem Leapfrog_solve_flag_false_stale :
    (unitMass : ChIntegrableIIorder ℚ (Particle ℚ) 1 1 0).StateGather
      (particleAt (0 : ℚ) 1 0).system = (fun _ => 0, fun _ => 1, 0) ∧
    (ChTimestepperLeapfrog.Advance (unitMass : ChIntegrableIIorder ℚ (Particle ℚ) 1 1 0) 1
      freshIIorder (particleAt 0 1 0)).2.calls =
      [CallII.StateSetup, CallII.StateGather,
        CallII.StateSolveA (fun _ => 1) (fun _ => 1) 0 1 false,
        CallII.StateScatter (fun _ => 1) (fun _ => 3 / 2) 1] ∧
    ¬ CallII.flagPolicy
      ((unitMass : ChIntegrableIIorder ℚ (Particle ℚ) 1 1 0).StateGather
        (particleAt (0 : ℚ) 1 0).system) none
      (ChTimestepperLeapfrog.Advance (unitMass : ChIntegrableIIorder ℚ (Particle ℚ) 1 1 0) 1
        freshIIorder (particleAt 0 1 0)).2.calls := by
  have hc : (ChTimestepperLeapfrog.Advance (unitMass : ChIntegrableIIorder ℚ (Particle ℚ) 1 1 0)
      1 freshIIorder (particleAt 0 1 0)).2.calls =
      [CallII.StateSetup, CallII.StateGather,
        CallII.StateSolveA (fun _ => 1) (fun _ => 1) 0 1 false,
        CallII.StateScatter (fun _ => 1) (fun _ => 3 / 2) 1] := by
    simp [ChTimestepperLeapfrog.Advance, ChIntegrableIIorder.call_StateScatter,
      ChIntegrableIIorder.call_StateSolveA, ChIntegrableIIorder.call_StateGather,
      ChIntegrableIIorder.call_StateSetup, unitMass, springMass, particleAt, freshIIorder,
      scale, half_literal]
    constructor
    · funext i
      simp [scale]
    · funext i
      simp [scale]
      norm_num
  refine ⟨rfl, hc, ?_⟩
  rw [hc]
  simp only [CallII.flagPolicy]
  intro h
  have h1 := congrFun (congrArg Prod.fst (Option.some.inj h.1)) 0
  simp [unitMass, springMass, particleAt] at h1

/-- The calls of the Newton loop keep the policy of the scatter flag, whatever the system held
before and whatever policy-abiding calls follow: every pass scatters the trial state before the
correction is solved for at that state with the flag `false`. -/
theorem loop_flagPolicy {nx nv nc : Nat} (I : ChIntegrableIIorder K σ nx nv nc) (dt : K)
    (self : ChTimestepperEulerImplicit K nx nv) :
    ∀ (n : Nat) (s : NewtonState K σ nx nv nc), ∃ tail,
      (ChTimestepperEulerImplicit.loop I dt self n s).env.calls = s.env.calls ++ tail ∧
      ∀ g cur rest, (∀ c, CallII.flagPolicy g c rest) → CallII.flagPolicy g cur (tail ++ rest) := by
  intro n
  induction n with
  | zero =>
    intro s
    exact ⟨[], by simp [ChTimestepperEulerImplicit.loop], fun g cur rest h => h cur⟩
  | succ n ih =>
    intro s
    by_cases h : NormInf (ChTimestepperEulerImplicit.assemble I dt self s).R < self.GetTolerance
    · rw [loop_succ_of_converged I dt self n s h, assemble_calls]
      refine ⟨_, rfl, ?_⟩
      intro g cur rest hrest
      simp only [List.cons_append, List.nil_append, CallII.flagPolicy]
      exact hrest _
    · rw [loop_succ_of_not_converged I dt self n s h]
      obtain ⟨tail, htail, hpol⟩ := ih (ChTimestepperEulerImplicit.correct I dt self
        (ChTimestepperEulerImplicit.assemble I dt self s))
      rw [htail, correct_calls, assemble_calls]
      refine ⟨_, by rw [List.append_assoc, List.append_assoc], ?_⟩
      intro g cur rest hrest
      simp only [List.cons_append, List.nil_append, List.append_assoc, CallII.flagPolicy]
      exact ⟨rfl, hpol g _ rest hrest⟩

/-- The six schemes other than Leapfrog keep the policy of the scatter flag in every step:
each solve with the flag `false` is handed the state and time last gathered from or scattered
to the system. -/
theorem flagPolicy_other_schemes {ny ndy nc nx nv mc : Nat}
    {τ : Type} (I : ChIntegrable K σ ny ndy nc) (J : ChIntegrableIIorder K τ nx nv mc)
    (dt : K) (s : ChTimestepperIorder K ny ndy) (u : ChTimestepperIIorder K nx nv)
    (w : ChTimestepperEulerImplicit K nx nv)
    (e : Env σ (CallI K ny ndy nc)) (f : Env τ (CallII K nx nv mc)) :
    CallI.flagPolicy (I.StateGather e.system) none
      ((ChTimestepperEuleroExpl.Advance I dt s e).2.calls.drop e.calls.length) ∧
    CallI.flagPolicy (I.StateGather e.system) none
      ((ChTimestepperRungeKuttaExpl.Advance I dt s e).2.calls.drop e.calls.length) ∧
    CallI.flagPolicy (I.StateGather e.system) none
      ((ChTimestepperHeun.Advance I dt s e).2.calls.drop e.calls.length) ∧
    CallII.flagPolicy (J.StateGather f.system) none
      ((ChTimestepperEuleroExplIIorder.Advance J dt u f).2.calls.drop f.calls.length) ∧
    CallII.flagPolicy (J.StateGather f.system) none
      ((ChTimestepperEuleroSemiImplicit.Advance J dt u f).2.calls.drop f.calls.length) ∧
    CallII.flagPolicy (J.StateGather f.system) none
      ((ChTimestepperEulerImplicit.Advance J dt w f).2.calls.drop f.calls.length) := by
  refine ⟨?_, ?_, ?_, ?_, ?_, ?_⟩
  · simp [ChTimestepperEuleroExpl.Advance, ChIntegrable.call_StateScatter,
      ChIntegrable.call_StateSolve, ChIntegrable.call_StateGather,
      ChIntegrable.call_StateSetup, CallI.flagPolicy]
  · simp [ChTimestepperRungeKuttaExpl.Advance, ChIntegrable.call_StateScatter,
      ChIntegrable.call_StateSolve, ChIntegrable.call_StateGather,
      ChIntegrable.call_StateSetup, CallI.flagPolicy]
  · simp [ChTimestepperHeun.Advance, ChIntegrable.call_StateScatter,
      ChIntegrable.call_StateSolve, ChIntegrable.call_StateGather,
      ChIntegrable.call_StateSetup, CallI.flagPolicy]
  · simp [ChTimestepperEuleroExplIIorder.Advance, ChIntegrableIIorder.call_StateScatter,
      ChIntegrableIIorder.call_StateSolveA, ChIntegrableIIorder.call_StateGather,
      ChIntegrableIIorder.call_StateSetup, CallII.flagPolicy]
  · simp [ChTimestepperEuleroSemiImplicit.Advance, ChIntegrableIIorder.call_StateScatter,
      ChIntegrableIIorder.call_StateSolveA, ChIntegrableIIorder.call_StateGather,
      ChIntegrableIIorder.call_StateSetup, CallII.flagPolicy]
  · obtain ⟨tail, htail, hpol⟩ := loop_flagPolicy J dt
      (ChTimestepperEulerImplicit.predict J dt w f).1 w.maxiters.toNat
      (ChTimestepperEulerImplicit.predict J dt w f).2
    have hc : (ChTimestepperEulerImplicit.Advance J dt w f).2.calls =
        (ChTimestepperEulerImplicit.loop J dt (ChTimestepperEulerImplicit.predict J dt w f).1
          w.maxiters.toNat (ChTimestepperEulerImplicit.predict J dt w f).2).env.calls ++
        [CallII.StateScatter (ChTimestepperEulerImplicit.Advance J dt w f).1.X
          (ChTimestepperEulerImplicit.Advance J dt w f).1.V
          (ChTimestepperEulerImplicit.Advance J dt w f).1.T] := rfl
    have hp : (ChTimestepperEulerImplicit.predict J dt w f).2.env.calls = f.calls ++
        [CallII.StateSetup, CallII.StateGather,
          CallII.StateSolveA (J.StateGather f.system).1 (J.StateGather f.system).2.1
            (J.StateGather f.system).2.2 dt false] := by
      simp [ChTimestepperEulerImplicit.predict, ChIntegrableIIorder.call_StateSolveA,
        ChIntegrableIIorder.call_StateGather, ChIntegrableIIorder.call_StateSetup]
    rw [hc, htail, hp]
    simp only [List.append_assoc, List.drop_left, List.cons_append, List.nil_append,
      CallII.flagPolicy]
    refine ⟨trivial, hpol _ _ _ ?_⟩
    intro c
    simp only [CallII.flagPolicy]

/-! ### Linear test system and oscillator -/

/-- C18: on the scalar linear test system `dy/dt = lam*y`, for every `y`, `lam` and `dt ≠ 0`,
one `ChTimestepperRungeKuttaExpl::Advance(dt)` maps `y` to
`y*(1 + z + z^2/2 + z^3/6 + z^4/24)` with `z = lam*dt`; the factor is the series of `exp(z)`
cut after the term of order 4. -/
theorem RungeKuttaExpl_linearTest_factor (lam dt : K) (_hdt : dt ≠ 0)
    (self : ChTimestepperIorder K 1 1) (e : Env (Scalar K) (CallI K 1 1 0)) :
    let z := lam * dt
    (ChTimestepperRungeKuttaExpl.Advance (linearTest lam) dt self e).1.Y 0 =
      e.system.y * (1 + z + z ^ 2 / 2 + z ^ 3 / 6 + z ^ 4 / 24) ∧
    1 + z + z ^ 2 / 2 + z ^ 3 / 6 + z ^ 4 / 24 =
      ∑ k in Finset.range 5, z ^ k / (k.factorial : K) := by
  intro z
  constructor
  · simp only [ChTimestepperRungeKuttaExpl.Advance, ChIntegrable.call_StateSolve,
      ChIntegrable.call_StateGather, ChIntegrable.call_StateSetup, linearTest, scale,
      Pi.add_apply, half_literal, two_literal, z]
    ring
  · simp only [Finset.sum_range_succ, Finset.sum_range_zero, Nat.factorial]
    push_cast
    ring

/-- C18 at a concrete input: `lam = 2`, `dt = 1/2` (so `z = 1`), `y = 3`; the Runge-Kutta step
gives `3 * 65/24 = 65/8`. -/
theorem RungeKuttaExpl_linearTest_factor_at_one :
    (1 / 2 : ℚ) ≠ 0 ∧
    (ChTimestepperRungeKuttaExpl.Advance (linearTest (2 : ℚ)) (1 / 2) freshIorder
      (scalarAt 3 0)).1.Y 0 = 65 / 8 := by
  refine ⟨by norm_num, ?_⟩
  rw [(RungeKuttaExpl_linearTest_factor (2 : ℚ) (1 / 2) (by norm_num) freshIorder
    (scalarAt 3 0)).1]
  simp [scalarAt]
  norm_num

/-- C19: on the scalar linear test system `dy/dt = lam*y`, one `ChTimestepperHeun::Advance(dt)`
maps `y` to `y*(1 + z + z^2/2)` with `z = lam*dt` and one
`ChTimestepperEuleroExpl::Advance(dt)` maps `y` to `y*(1 + z)`; the factors are the series of
`exp(z)` cut after the terms of order 2 and 1, and the two results differ by `y*z^2/2`, which
is not zero for `y ≠ 0` and `z ≠ 0`. -/
theorem Heun_EuleroExpl_linearTest_factor (lam dt : K)
    (self : ChTimestepperIorder K 1 1) (e : Env (Scalar K) (CallI K 1 1 0)) :
    let z := lam * dt
    let heun := (ChTimestepperHeun.Advance (linearTest lam) dt self e).1.Y 0
    let euler := (ChTimestepperEuleroExpl.Advance (linearTest lam) dt self e).1.Y 0
    heun = e.system.y * (1 + z + z ^ 2 / 2) ∧
    euler = e.system.y * (1 + z) ∧
    1 + z + z ^ 2 / 2 = ∑ k in Finset.range 3, z ^ k / (k.factorial : K) ∧
    1 + z = ∑ k in Finset.range 2, z ^ k / (k.factorial : K) ∧
    heun - euler = e.system.y * (z ^ 2 / 2) ∧
    (e.system.y ≠ 0 → z ≠ 0 → heun ≠ euler) := by
  intro z heun euler
  have hH : heun = e.system.y * (1 + z + z ^ 2 / 2) := by
    simp only [heun, ChTimestepperHeun.Advance, ChIntegrable.call_StateSolve,
      ChIntegrable.call_StateGather, ChIntegrable.call_StateSetup, linearTest, scale,
      Pi.add_apply, z]
    ring
  have hE : euler = e.system.y * (1 + z) := by
    simp only [euler, ChTimestepperEuleroExpl.Advance, ChIntegrable.call_StateSolve,
      ChIntegrable.call_StateGather, ChIntegrable.call_StateSetup, linearTest,
      Pi.add_apply, z]
    ring
  have hd : heun - euler = e.system.y * (z ^ 2 / 2) := by
    rw [hH, hE]
    ring
  refine ⟨hH, hE, ?_, ?_, hd, ?_⟩
  · simp only [Finset.sum_range_succ, Finset.sum_range_zero, Nat.factorial]
    push_cast
    ring
  · simp only [Finset.sum_range_succ, Finset.sum_range_zero, Nat.factorial]
    push_cast
    ring
  · intro hy hz heq
    have h0 : e.system.y * (z ^ 2 / 2) = 0 := by
      rw [← hd, heq, sub_self]
    rcases mul_eq_zero.mp h0 with h | h
    · exact hy h
    · have : z ^ 2 = 0 := by
        have h2 : z ^ 2 / 2 * 2 = 0 := by rw [h, zero_mul]
        rwa [div_mul_cancel₀ _ (two_ne_zero)] at h2
      exact hz ((pow_eq_zero_iff (two_ne_zero)).mp this)

/-- One Leapfrog step on the oscillator `a = -w^2*x` that starts with the cached acceleration
`-w^2*x` of the position the system holds: the system ends holding the new position and
velocity, the cached acceleration is `-w^2` times the new position, and
`v^2 + w^2*x^2*(1 - w^2*dt^2/4)` is unchanged. -/
theorem Leapfrog_oscillator_step (w dt : K) (hdt : dt ≠ 0) (self : ChTimestepperIIorder K 1 1)
    (e : Env (Particle K) (CallII K 1 1 0)) (hA : self.A 0 = -w ^ 2 * e.system.x) :
    (ChTimestepperLeapfrog.Advance (springMass 0 (w ^ 2)) dt self e).2.system.x =
      (ChTimestepperLeapfrog.Advance (springMass 0 (w ^ 2)) dt self e).1.X 0 ∧
    (ChTimestepperLeapfrog.Advance (springMass 0 (w ^ 2)) dt self e).2.system.v =
      (ChTimestepperLeapfrog.Advance (springMass 0 (w ^ 2)) dt self e).1.V 0 ∧
    (ChTimestepperLeapfrog.Advance (springMass 0 (w ^ 2)) dt self e).1.A 0 =
      -w ^ 2 * (ChTimestepperLeapfrog.Advance (springMass 0 (w ^ 2)) dt self e).1.X 0 ∧
    (ChTimestepperLeapfrog.Advance (springMass 0 (w ^ 2)) dt self e).1.V 0 ^ 2 +
      w ^ 2 * (ChTimestepperLeapfrog.Advance (springMass 0 (w ^ 2)) dt self e).1.X 0 ^ 2 *
        (1 - w ^ 2 * dt ^ 2 / 4) =
      e.system.v ^ 2 + w ^ 2 * e.system.x ^ 2 * (1 - w ^ 2 * dt ^ 2 / 4) := by
  have hX : (ChTimestepperLeapfrog.Advance (springMass 0 (w ^ 2)) dt self e).1.X 0 =
      e.system.x + e.system.v * dt + -w ^ 2 * e.system.x * (1 / 2 * dt * dt) := by
    simp only [ChTimestepperLeapfrog.Advance, ChIntegrableIIorder.call_StateGather,
      ChIntegrableIIorder.call_StateSetup, springMass, scale, Pi.add_apply, half_literal, hA]
  have hAn : (ChTimestepperLeapfrog.Advance (springMass 0 (w ^ 2)) dt self e).1.A 0 =
      -w ^ 2 * (ChTimestepperLeapfrog.Advance (springMass 0 (w ^ 2)) dt self e).1.X 0 := by
    rw [hX]
    simp only [ChTimestepperLeapfrog.Advance, ChIntegrableIIorder.call_StateGather,
      ChIntegrableIIorder.call_StateSetup, ChIntegrableIIorder.call_StateSolveA, springMass,
      scale, Pi.add_apply, half_literal, hA]
    field_simp
    ring
  have hV : (ChTimestepperLeapfrog.Advance (springMass 0 (w ^ 2)) dt self e).1.V 0 =
      e.system.v + (-w ^ 2 * e.system.x +
        (ChTimestepperLeapfrog.Advance (springMass 0 (w ^ 2)) dt self e).1.A 0) *
        (1 / 2 * dt) := by
    simp only [ChTimestepperLeapfrog.Advance, ChIntegrableIIorder.call_StateGather,
      ChIntegrableIIorder.call_StateSetup, ChIntegrableIIorder.call_StateSolveA, springMass,
      scale, Pi.add_apply, half_literal, hA]
  refine ⟨rfl, rfl, hAn, ?_⟩
  rw [hV, hAn, hX]
  ring

/-- Over any number of Leapfrog steps on the oscillator that start with the cached acceleration
of the position held by the system, the cached acceleration stays `-w^2` times the position
held by the system and `v^2 + w^2*x^2*(1 - w^2*dt^2/4)` keeps its initial value. -/
theorem Leapfrog_oscillator_invariant (w dt : K) (hdt : dt ≠ 0)
    (self : ChTimestepperIIorder K 1 1) (e : Env (Particle K) (CallII K 1 1 0))
    (hA : self.A 0 = -w ^ 2 * e.system.x) :
    ∀ N : Nat,
      (ChTimestepperLeapfrog.AdvanceN (springMass 0 (w ^ 2)) dt N (self, e)).1.A 0 =
        -w ^ 2 * (ChTimestepperLeapfrog.AdvanceN (springMass 0 (w ^ 2)) dt N
          (self, e)).2.system.x ∧
      (ChTimestepperLeapfrog.AdvanceN (springMass 0 (w ^ 2)) dt N (self, e)).2.system.v ^ 2 +
        w ^ 2 * (ChTimestepperLeapfrog.AdvanceN (springMass 0 (w ^ 2)) dt N
          (self, e)).2.system.x ^ 2 * (1 - w ^ 2 * dt ^ 2 / 4) =
        e.system.v ^ 2 + w ^ 2 * e.system.x ^ 2 * (1 - w ^ 2 * dt ^ 2 / 4) := by
  intro N
  induction N with
  | zero => exact ⟨hA, rfl⟩
  | succ N ih =>
    obtain ⟨hx, hv, ha, hH⟩ := Leapfrog_oscillator_step w dt hdt
      (ChTimestepperLeapfrog.AdvanceN (springMass 0 (w ^ 2)) dt N (self, e)).1
      (ChTimestepperLeapfrog.AdvanceN (springMass 0 (w ^ 2)) dt N (self, e)).2 ih.1
    simp only [ChTimestepperLeapfrog.AdvanceN]
    refine ⟨by rw [ha, hx], ?_⟩
    rw [hx, hv, hH]
    exact ih.2

/-- C20: on the unit-mass unconstrained oscillator `a = -w^2*x`, every
`ChTimestepperLeapfrog::Advance(dt)` with `dt ≠ 0` that starts with the cached acceleration
`a_old = -w^2*x_old` leaves `v^2 + w^2*x^2*(1 - w^2*dt^2/4)` unchanged and ends with
`A = -w^2*x_new`; hence for `0 < w*dt < 2` the energy `v^2 + w^2*x^2` after `N` such steps is
at most the initial energy divided by `1 - w^2*dt^2/4`, for every `N`. -/
theorem Leapfrog_oscillator_energy (w dt : K) (hdt : dt ≠ 0)
    (self : ChTimestepperIIorder K 1 1) (e : Env (Particle K) (CallII K 1 1 0))
    (hA : self.A 0 = -w ^ 2 * e.system.x) :
    let out := ChTimestepperLeapfrog.Advance (springMass 0 (w ^ 2)) dt self e
    let c := 1 - w ^ 2 * dt ^ 2 / 4
    out.1.V 0 ^ 2 + w ^ 2 * out.1.X 0 ^ 2 * c =
      e.system.v ^ 2 + w ^ 2 * e.system.x ^ 2 * c ∧
    out.1.A 0 = -w ^ 2 * out.1.X 0 ∧
    (∀ N : Nat,
      (ChTimestepperLeapfrog.AdvanceN (springMass 0 (w ^ 2)) dt (N + 1) (self, e)).2.system.x =
        (ChTimestepperLeapfrog.AdvanceN (springMass 0 (w ^ 2)) dt (N + 1) (self, e)).1.X 0 ∧
      (ChTimestepperLeapfrog.AdvanceN (springMass 0 (w ^ 2)) dt (N + 1) (self, e)).2.system.v =
        (ChTimestepperLeapfrog.AdvanceN (springMass 0 (w ^ 2)) dt (N + 1) (self, e)).1.V 0) ∧
    (0 < w * dt → w * dt < 2 →
      0 < c ∧
      ∀ N : Nat,
        (ChTimestepperLeapfrog.AdvanceN (springMass 0 (w ^ 2)) dt N (self, e)).2.system.v ^ 2 +
          w ^ 2 * (ChTimestepperLeapfrog.AdvanceN (springMass 0 (w ^ 2)) dt N
            (self, e)).2.system.x ^ 2 ≤
        (e.system.v ^ 2 + w ^ 2 * e.system.x ^ 2) / c) := by
  intro out c
  obtain ⟨-, -, ha, hH⟩ := Leapfrog_oscillator_step w dt hdt self e hA
  refine ⟨hH, ha, fun N => ⟨rfl, rfl⟩, ?_⟩
  intro h0 h2
  have hc : 0 < c := by
    have h4 : (w * dt) ^ 2 < 4 := by nlinarith
    have h5 : w ^ 2 * dt ^ 2 = (w * dt) ^ 2 := by ring
    simp only [c]
    rw [h5]
    linarith
  have hc1 : c ≤ 1 := by
    have h5 : 0 ≤ w ^ 2 * dt ^ 2 := by positivity
    simp only [c]
    linarith
  refine ⟨hc, fun N => ?_⟩
  have hI := (Leapfrog_oscillator_invariant w dt hdt self e hA N).2
  have hcdef : 1 - w ^ 2 * dt ^ 2 / 4 = c := rfl
  rw [hcdef] at hI
  rw [le_div_iff₀ hc, add_mul]
  have hv : (ChTimestepperLeapfrog.AdvanceN (springMass 0 (w ^ 2)) dt N
      (self, e)).2.system.v ^ 2 * c ≤ (ChTimestepperLeapfrog.AdvanceN (springMass 0 (w ^ 2)) dt N
      (self, e)).2.system.v ^ 2 := mul_le_of_le_one_right (sq_nonneg _) hc1
  have hx : w ^ 2 * e.system.x ^ 2 * c ≤ w ^ 2 * e.system.x ^ 2 :=
    mul_le_of_le_one_right (by positivity) hc1
  linarith

/-- C20 at a concrete input: `w = 1`, `dt = 1`, oscillator at `x = 1`, `v = 0` with cached
acceleration `-1`; the step ends with `A = -X`, and the energy after three steps is at most
`1 / (1 - 1/4) = 4/3`. -/
theorem Leapfrog_oscillator_energy_unit :
    (1 : ℚ) ≠ 0 ∧
    ({ freshIIorder with A := fun _ => -1 } : ChTimestepperIIorder ℚ 1 1).A 0 =
      -(1 : ℚ) ^ 2 * (particleAt (1 : ℚ) 0 0).system.x ∧
    (0 : ℚ) < 1 * 1 ∧ (1 : ℚ) * 1 < 2 ∧
    (ChTimestepperLeapfrog.Advance (springMass (0 : ℚ) (1 ^ 2)) 1
      { freshIIorder with A := fun _ => -1 } (particleAt 1 0 0)).1.A 0 =
      -(1 : ℚ) ^ 2 * (ChTimestepperLeapfrog.Advance (springMass (0 : ℚ) (1 ^ 2)) 1
        { freshIIorder with A := fun _ => -1 } (particleAt 1 0 0)).1.X 0 ∧
    (ChTimestepperLeapfrog.AdvanceN (springMass (0 : ℚ) (1 ^ 2)) 1 3
      ({ freshIIorder with A := fun _ => -1 }, particleAt 1 0 0)).2.system.v ^ 2 +
      (1 : ℚ) ^ 2 * (ChTimestepperLeapfrog.AdvanceN (springMass (0 : ℚ) (1 ^ 2)) 1 3
        ({ freshIIorder with A := fun _ => -1 }, particleAt 1 0 0)).2.system.x ^ 2 ≤ 4 / 3 := by
  have hA : ({ freshIIorder with A := fun _ => -1 } : ChTimestepperIIorder ℚ 1 1).A 0 =
      -(1 : ℚ) ^ 2 * (particleAt (1 : ℚ) 0 0).system.x := by
    simp [particleAt]
  obtain ⟨-, ha, -, hb⟩ := Leapfrog_oscillator_energy (1 : ℚ) 1 one_ne_zero
    { freshIIorder with A := fun _ => -1 } (particleAt 1 0 0) hA
  have h3 := (hb (by norm_num) (by norm_num)).2 3
  refine ⟨one_ne_zero, hA, by norm_num, by norm_num, ha, ?_⟩
  have hr : ((particleAt (1 : ℚ) 0 0).system.v ^ 2 +
      (1 : ℚ) ^ 2 * (particleAt (1 : ℚ) 0 0).system.x ^ 2) / (1 - 1 ^ 2 * 1 ^ 2 / 4) = 4 / 3 := by
    simp [particleAt]
    norm_num
  rw [hr] at h3
  exact h3

/-! ### Convergence of the Newton loop and the residual -/

/-- The Newton loop with `n` passes either uses all of them, requesting `n` corrections, or
ends right after an assembly whose residual is below the tolerance. -/
theorem loop_exhausted_or_converged {nx nv nc : Nat} (I : ChIntegrableIIorder K σ nx nv nc)
    (dt : K) (self : ChTimestepperEulerImplicit K nx nv) :
    ∀ (n : Nat) (s : NewtonState K σ nx nv nc),
      CallII.countKind CallKind.StateSolveCorrection
          (ChTimestepperEulerImplicit.loop I dt self n s).env.calls =
        CallII.countKind CallKind.StateSolveCorrection s.env.calls + n ∨
      ∃ s', ChTimestepperEulerImplicit.loop I dt self n s =
          ChTimestepperEulerImplicit.assemble I dt self s' ∧
        NormInf (ChTimestepperEulerImplicit.assemble I dt self s').R < self.GetTolerance := by
  intro n
  induction n with
  | zero => intro s; exact Or.inl rfl
  | succ n ih =>
    intro s
    by_cases h : NormInf (ChTimestepperEulerImplicit.assemble I dt self s).R < self.GetTolerance
    · exact Or.inr ⟨s, loop_succ_of_converged I dt self n s h, h⟩
    · rw [loop_succ_of_not_converged I dt self n s h]
      rcases ih (ChTimestepperEulerImplicit.correct I dt self
        (ChTimestepperEulerImplicit.assemble I dt self s)) with h1 | h1
      · left
        rw [h1, (correct_count I dt self _).1, (assemble_count I dt self s).1]
        omega
      · exact Or.inr h1

/-- C14, amended: whenever the Newton loop of `ChTimestepperEulerImplicit::Advance` stops by
convergence within the iteration budget (it requested fewer than `max(GetMaxiters(), 0)`
corrections), the state committed to `X()`, `V()` is the trial state the system was last
scattered with at `T+dt`, and the residual `R` assembled there, from `LoadResidual_F` with
factor `dt`, `LoadResidual_Mv` of `V_old - V` with factor `1` and `LoadResidual_CqL` of the
running multipliers with factor `dt`, has infinity norm below the configured tolerance. -/
theorem EulerImplicit_converged_residual {nx nv nc : Nat}
    (I : ChIntegrableIIorder K σ nx nv nc) (dt : K)
    (self : ChTimestepperEulerImplicit K nx nv) (e : Env σ (CallII K nx nv nc))
    (hconv : CallII.countKind CallKind.StateSolveCorrection
        (ChTimestepperEulerImplicit.Advance I dt self e).2.calls <
      CallII.countKind CallKind.StateSolveCorrection e.calls + self.maxiters.toNat) :
    let V_old := (I.StateGather e.system).2.1
    let T := (I.StateGather e.system).2.2
    let p := ChTimestepperEulerImplicit.predict I dt self e
    let fin := ChTimestepperEulerImplicit.loop I dt p.1 self.maxiters.toNat p.2
    let out := ChTimestepperEulerImplicit.Advance I dt self e
    out.1.X = fin.Xnew ∧ out.1.V = fin.Vnew ∧
    (∃ q, fin.env.system = I.StateScatter q out.1.X out.1.V (T + dt)) ∧
    fin.R = I.LoadResidual_CqL fin.env.system
      (I.LoadResidual_Mv fin.env.system (I.LoadResidual_F fin.env.system 0 dt)
        (fun i => V_old i - out.1.V i) 1) fin.L dt ∧
    NormInf fin.R < self.GetTolerance := by
  intro V_old T p fin out
  rcases loop_exhausted_or_converged I dt p.1 self.maxiters.toNat p.2 with h | ⟨s', hs, hlt⟩
  · exfalso
    rw [(Advance_count I dt self e).1, h, (predict_count I dt self e).1] at hconv
    exact lt_irrefl _ hconv
  · have hfin : fin = ChTimestepperEulerImplicit.assemble I dt p.1 s' := hs
    have hX : out.1.X = fin.Xnew := rfl
    have hV : out.1.V = fin.Vnew := rfl
    refine ⟨hX, hV, ⟨s'.env.system, ?_⟩, ?_, ?_⟩
    · rw [hX, hV, hfin]
      rfl
    · rw [hV, hfin]
      simp only [ChTimestepperEulerImplicit.assemble, ChIntegrableIIorder.call_StateScatter,
        ChIntegrableIIorder.call_LoadResidual_F, ChIntegrableIIorder.call_LoadResidual_Mv,
        ChIntegrableIIorder.call_LoadResidual_CqL, ChIntegrableIIorder.call_LoadConstraint_C,
        one_literal]
      rfl
    · rw [hfin]
      exact hlt

/-- C14, amended, at a concrete input: for the unit mass under unit force at rest, `dt = 1`,
stepper as constructed, pass 0 of the Newton loop converges, so no correction is requested, and
the residual left by the loop has infinity norm below the tolerance. -/
theorem EulerImplicit_converged_residual_unitMass :
    CallII.countKind CallKind.StateSolveCorrection
        (ChTimestepperEulerImplicit.Advance (unitMass : ChIntegrableIIorder ℚ _ 1 1 0) 1
          ChTimestepperEulerImplicit.new (particleAt 0 0 0)).2.calls <
      CallII.countKind CallKind.StateSolveCorrection (particleAt (0 : ℚ) 0 0).calls +
        (ChTimestepperEulerImplicit.new : ChTimestepperEulerImplicit ℚ 1 1).maxiters.toNat ∧
    NormInf (ChTimestepperEulerImplicit.loop (unitMass : ChIntegrableIIorder ℚ _ 1 1 0) 1
      (ChTimestepperEulerImplicit.predict (unitMass : ChIntegrableIIorder ℚ _ 1 1 0) 1
        ChTimestepperEulerImplicit.new (particleAt 0 0 0)).1
      (ChTimestepperEulerImplicit.new : ChTimestepperEulerImplicit ℚ 1 1).maxiters.toNat
      (ChTimestepperEulerImplicit.predict (unitMass : ChIntegrableIIorder ℚ _ 1 1 0) 1
        ChTimestepperEulerImplicit.new (particleAt 0 0 0)).2).R <
      (ChTimestepperEulerImplicit.new : ChTimestepperEulerImplicit ℚ 1 1).GetTolerance := by
  have hc0 : NormInf (ChTimestepperEulerImplicit.assemble
      (unitMass : ChIntegrableIIorder ℚ _ 1 1 0) 1
      (ChTimestepperEulerImplicit.predict (unitMass : ChIntegrableIIorder ℚ _ 1 1 0) 1
        ChTimestepperEulerImplicit.new (particleAt 0 0 0)).1
      (ChTimestepperEulerImplicit.pass (unitMass : ChIntegrableIIorder ℚ _ 1 1 0) 1
        (ChTimestepperEulerImplicit.predict (unitMass : ChIntegrableIIorder ℚ _ 1 1 0) 1
          ChTimestepperEulerImplicit.new (particleAt 0 0 0)).1 0
        (ChTimestepperEulerImplicit.predict (unitMass : ChIntegrableIIorder ℚ _ 1 1 0) 1
          ChTimestepperEulerImplicit.new (particleAt 0 0 0)).2)).R <
      (ChTimestepperEulerImplicit.new : ChTimestepperEulerImplicit ℚ 1 1).GetTolerance := by
    simp [NormInf, ChTimestepperEulerImplicit.assemble, ChTimestepperEulerImplicit.predict,
      ChTimestepperEulerImplicit.pass, ChTimestepperEulerImplicit.new,
      ChIntegrableIIorder.call_StateScatter, ChIntegrableIIorder.call_StateSolveA,
      ChIntegrableIIorder.call_StateGather, ChIntegrableIIorder.call_StateSetup,
      ChIntegrableIIorder.call_LoadResidual_F, ChIntegrableIIorder.call_LoadResidual_Mv,
      ChIntegrableIIorder.call_LoadResidual_CqL, ChIntegrableIIorder.call_LoadConstraint_C,
      unitMass, springMass, particleAt, ChImplicitTimestepper.new,
      ChImplicitTimestepper.GetTolerance, Reset, scale]
    norm_num
  have hloop := Advance_loop_of_converged (unitMass : ChIntegrableIIorder ℚ _ 1 1 0) 1
    ChTimestepperEulerImplicit.new (particleAt 0 0 0) 0 (by decide)
    (fun j hj => absurd hj (Nat.not_lt_zero j)) hc0
  have hcount : CallII.countKind CallKind.StateSolveCorrection
      (ChTimestepperEulerImplicit.Advance (unitMass : ChIntegrableIIorder ℚ _ 1 1 0) 1
        ChTimestepperEulerImplicit.new (particleAt 0 0 0)).2.calls <
      CallII.countKind CallKind.StateSolveCorrection (particleAt (0 : ℚ) 0 0).calls +
        (ChTimestepperEulerImplicit.new : ChTimestepperEulerImplicit ℚ 1 1).maxiters.toNat := by
    rw [(Advance_count _ _ _ _).1, hloop, (assemble_count _ _ _ _).1, (pass_count _ _ _ _ _).1,
      (predict_count _ _ _ _).1]
    simp [CallII.countKind, particleAt, ChTimestepperEulerImplicit.new,
      ChImplicitTimestepper.new]
  exact ⟨hcount, (EulerImplicit_converged_residual (unitMass : ChIntegrableIIorder ℚ _ 1 1 0) 1
    ChTimestepperEulerImplicit.new (particleAt 0 0 0) hcount).2.2.2.2⟩

/-! ### Explicit Euler on the oscillator -/

/-- One explicit Euler II order step on the oscillator `a = -w^2*x`: the system ends holding the
new position and velocity, and the energy `v^2 + w^2*x^2` is multiplied by `1 + w^2*dt^2`. -/
theorem EuleroExplIIorder_oscillator_step (w dt : K) (self : ChTimestepperIIorder K 1 1)
    (e : Env (Particle K) (CallII K 1 1 0)) :
    (ChTimestepperEuleroExplIIorder.Advance (springMass 0 (w ^ 2)) dt self e).2.system.x =
      (ChTimestepperEuleroExplIIorder.Advance (springMass 0 (w ^ 2)) dt self e).1.X 0 ∧
    (ChTimestepperEuleroExplIIorder.Advance (springMass 0 (w ^ 2)) dt self e).2.system.v =
      (ChTimestepperEuleroExplIIorder.Advance (springMass 0 (w ^ 2)) dt self e).1.V 0 ∧
    (ChTimestepperEuleroExplIIorder.Advance (springMass 0 (w ^ 2)) dt self e).1.V 0 ^ 2 +
      w ^ 2 * (ChTimestepperEuleroExplIIorder.Advance (springMass 0 (w ^ 2)) dt self e).1.X 0 ^ 2 =
      (1 + w ^ 2 * dt ^ 2) * (e.system.v ^ 2 + w ^ 2 * e.system.x ^ 2) := by
  refine ⟨rfl, rfl, ?_⟩
  simp only [ChTimestepperEuleroExplIIorder.Advance, ChIntegrableIIorder.call_StateGather,
    ChIntegrableIIorder.call_StateSetup, ChIntegrableIIorder.call_StateSolveA, springMass,
    scale, Pi.add_apply]
  ring

/-- After `N` explicit Euler II order steps on the oscillator the energy held by the system is
the initial energy times `(1 + w^2*dt^2)^N`. -/
theorem EuleroExplIIorder_oscillator_energy_pow (w dt : K) (self : ChTimestepperIIorder K 1 1)
    (e : Env (Particle K) (CallII K 1 1 0)) :
    ∀ N : Nat,
      (ChTimestepperEuleroExplIIorder.AdvanceN (springMass 0 (w ^ 2)) dt N
          (self, e)).2.system.v ^ 2 +
        w ^ 2 * (ChTimestepperEuleroExplIIorder.AdvanceN (springMass 0 (w ^ 2)) dt N
          (self, e)).2.system.x ^ 2 =
      (1 + w ^ 2 * dt ^ 2) ^ N * (e.system.v ^ 2 + w ^ 2 * e.system.x ^ 2) := by
  intro N
  induction N with
  | zero => simp [ChTimestepperEuleroExplIIorder.AdvanceN]
  | succ N ih =>
    obtain ⟨hx, hv, hE⟩ := EuleroExplIIorder_oscillator_step w dt
      (ChTimestepperEuleroExplIIorder.AdvanceN (springMass 0 (w ^ 2)) dt N (self, e)).1
      (ChTimestepperEuleroExplIIorder.AdvanceN (springMass 0 (w ^ 2)) dt N (self, e)).2
    simp only [ChTimestepperEuleroExplIIorder.AdvanceN]
    rw [hx, hv, hE, ih]
    ring

/-- C21: on the unit-mass unconstrained oscillator `a = -w^2*x`, every
`ChTimestepperEuleroExplIIorder::Advance(dt)` multiplies the energy `v^2 + w^2*x^2` by exactly
`1 + w^2*dt^2`; so after `N` steps the energy is the initial one times `(1 + w^2*dt^2)^N`, and
for `w*dt ≠ 0` and a non-zero initial state it strictly increases at every step and exceeds
every bound after enough steps (the numbers forming an Archimedean field, as the reals do). -/
theorem EuleroExplIIorder_oscillator_energy [Archimedean K] (w dt : K)
    (self : ChTimestepperIIorder K 1 1) (e : Env (Particle K) (CallII K 1 1 0)) :
    (ChTimestepperEuleroExplIIorder.Advance (springMass 0 (w ^ 2)) dt self e).1.V 0 ^ 2 +
      w ^ 2 * (ChTimestepperEuleroExplIIorder.Advance (springMass 0 (w ^ 2)) dt self e).1.X 0 ^ 2 =
      (1 + w ^ 2 * dt ^ 2) * (e.system.v ^ 2 + w ^ 2 * e.system.x ^ 2) ∧
    (∀ N : Nat,
      (ChTimestepperEuleroExplIIorder.AdvanceN (springMass 0 (w ^ 2)) dt N
          (self, e)).2.system.v ^ 2 +
        w ^ 2 * (ChTimestepperEuleroExplIIorder.AdvanceN (springMass 0 (w ^ 2)) dt N
          (self, e)).2.system.x ^ 2 =
      (1 + w ^ 2 * dt ^ 2) ^ N * (e.system.v ^ 2 + w ^ 2 * e.system.x ^ 2)) ∧
    (w * dt ≠ 0 → (e.system.x ≠ 0 ∨ e.system.v ≠ 0) →
      (∀ N : Nat,
        (ChTimestepperEuleroExplIIorder.AdvanceN (springMass 0 (w ^ 2)) dt N
            (self, e)).2.system.v ^ 2 +
          w ^ 2 * (ChTimestepperEuleroExplIIorder.AdvanceN (springMass 0 (w ^ 2)) dt N
            (self, e)).2.system.x ^ 2 <
        (ChTimestepperEuleroExplIIorder.AdvanceN (springMass 0 (w ^ 2)) dt (N + 1)
            (self, e)).2.system.v ^ 2 +
          w ^ 2 * (ChTimestepperEuleroExplIIorder.AdvanceN (springMass 0 (w ^ 2)) dt (N + 1)
            (self, e)).2.system.x ^ 2) ∧
      (∀ B : K, ∃ N : Nat,
        B < (ChTimestepperEuleroExplIIorder.AdvanceN (springMass 0 (w ^ 2)) dt N
            (self, e)).2.system.v ^ 2 +
          w ^ 2 * (ChTimestepperEuleroExplIIorder.AdvanceN (springMass 0 (w ^ 2)) dt N
            (self, e)).2.system.x ^ 2)) := by
  refine ⟨(EuleroExplIIorder_oscillator_step w dt self e).2.2,
    EuleroExplIIorder_oscillator_energy_pow w dt self e, ?_⟩
  intro hwdt hstate
  have hw : w ≠ 0 := fun h => hwdt (by rw [h, zero_mul])
  have hq : 0 < w ^ 2 * dt ^ 2 := by
    have h : w ^ 2 * dt ^ 2 = (w * dt) ^ 2 := by ring
    rw [h]
    positivity
  have hE0 : 0 < e.system.v ^ 2 + w ^ 2 * e.system.x ^ 2 := by
    rcases hstate with hx | hv
    · have h1 : 0 < w ^ 2 * e.system.x ^ 2 := by positivity
      have h2 : 0 ≤ e.system.v ^ 2 := sq_nonneg _
      linarith
    · have h1 : 0 ≤ w ^ 2 * e.system.x ^ 2 := by positivity
      have h2 : 0 < e.system.v ^ 2 := by positivity
      linarith
  have hy : 1 < 1 + w ^ 2 * dt ^ 2 := by linarith
  constructor
  · intro N
    rw [EuleroExplIIorder_oscillator_energy_pow w dt self e N,
      EuleroExplIIorder_oscillator_energy_pow w dt self e (N + 1)]
    have hp : 0 < (1 + w ^ 2 * dt ^ 2) ^ N := by positivity
    have hpe : 0 < (1 + w ^ 2 * dt ^ 2) ^ N * (e.system.v ^ 2 + w ^ 2 * e.system.x ^ 2) :=
      mul_pos hp hE0
    have hs : (1 + w ^ 2 * dt ^ 2) ^ (N + 1) * (e.system.v ^ 2 + w ^ 2 * e.system.x ^ 2) =
        (1 + w ^ 2 * dt ^ 2) ^ N * (e.system.v ^ 2 + w ^ 2 * e.system.x ^ 2) *
          (1 + w ^ 2 * dt ^ 2) := by ring
    rw [hs]
    exact lt_mul_of_one_lt_right hpe hy
  · intro B
    obtain ⟨N, hN⟩ := pow_unbounded_of_one_lt (B / (e.system.v ^ 2 + w ^ 2 * e.system.x ^ 2)) hy
    refine ⟨N, ?_⟩
    rw [EuleroExplIIorder_oscillator_energy_pow w dt self e N]
    exact (div_lt_iff₀ hE0).mp hN

/-- C21 at a concrete input: `w = 1`, `dt = 1`, oscillator at `x = 1`, `v = 0` (energy 1); one
step doubles the energy, and after three steps it is 8. -/
theorem EuleroExplIIorder_oscillator_energy_unit :
    (ChTimestepperEuleroExplIIorder.Advance (springMass (0 : ℚ) (1 ^ 2)) 1 freshIIorder
      (particleAt 1 0 0)).1.V 0 ^ 2 +
      (1 : ℚ) ^ 2 * (ChTimestepperEuleroExplIIorder.Advance (springMass (0 : ℚ) (1 ^ 2)) 1
        freshIIorder (particleAt 1 0 0)).1.X 0 ^ 2 = 2 ∧
    (ChTimestepperEuleroExplIIorder.AdvanceN (springMass (0 : ℚ) (1 ^ 2)) 1 3
        (freshIIorder, particleAt 1 0 0)).2.system.v ^ 2 +
      (1 : ℚ) ^ 2 * (ChTimestepperEuleroExplIIorder.AdvanceN (springMass (0 : ℚ) (1 ^ 2)) 1 3
        (freshIIorder, particleAt 1 0 0)).2.system.x ^ 2 = 8 := by
  obtain ⟨h1, hN, -⟩ := EuleroExplIIorder_oscillator_energy (1 : ℚ) 1 freshIIorder
    (particleAt 1 0 0)
  refine ⟨?_, ?_⟩
  · rw [h1]
    simp [particleAt]
    norm_num
  · rw [hN 3]
    simp [particleAt]
    norm_num

/-- C22: across two consecutive `ChTimestepperLeapfrog::Advance` calls of one stepper (with
steps `dt1`, `dt2`) on a system of unchanged dimension, `StateSetup` keeps the contents of `A`,
and the `a_old` the second call uses is the `A = Dv/dt1` the first call stored, entry by entry:
the second call moves `X` by it and averages it into `V`, whatever state `q` the system holds
when the second call gathers (the one the first call left, or any other); the second call
issues `StateSetup`, `StateGather`, one `StateSolveA` at the new position and `StateScatter`,
nothing else, so no acceleration is recomputed at the old state and nothing looks at the order
of the coordinates. -/
theorem Leapfrog_second_step_a_old {nx nv nc : Nat} (I : ChIntegrableIIorder K σ nx nv nc)
    (dt1 dt2 : K) (self : ChTimestepperIIorder K nx nv) (e : Env σ (CallII K nx nv nc))
    (q : σ) :
    let out1 := ChTimestepperLeapfrog.Advance I dt1 self e
    let Dv1 := (I.StateSolveA e.system out1.1.X (I.StateGather e.system).2.1
      (I.StateGather e.system).2.2 dt1 false).1.1
    let e2 : Env σ (CallII K nx nv nc) := { system := q, calls := out1.2.calls }
    let x2 := (I.StateGather q).1
    let v2 := (I.StateGather q).2.1
    let T2 := (I.StateGather q).2.2
    let out2 := ChTimestepperLeapfrog.Advance I dt2 out1.1 e2
    out1.1.A = (fun i => Dv1 i / dt1) ∧
    (I.call_StateSetup out1.1 e2).1.A = out1.1.A ∧
    out2.1.X = I.StateIncrementX (I.StateIncrementX x2 (fun i => v2 i * dt2))
      (fun i => out1.1.A i * (0.5 * dt2 ^ 2)) ∧
    out2.1.V = (fun i => v2 i + (out1.1.A i + out2.1.A i) * (0.5 * dt2)) ∧
    out2.2.calls = out1.2.calls ++ [CallII.StateSetup, CallII.StateGather,
      CallII.StateSolveA out2.1.X v2 T2 dt2 false,
      CallII.StateScatter out2.1.X out2.1.V out2.1.T] ∧
    (q = out1.2.system →
      out2 = ChTimestepperLeapfrog.Advance I dt2 out1.1 out1.2) := by
  intro out1 Dv1 e2 x2 v2 T2 out2
  have hsq : (0.5 : K) * dt2 * dt2 = 0.5 * dt2 ^ 2 := by ring
  have hA : out1.1.A = (fun i => Dv1 i / dt1) := by
    have h : out1.1.A = scale Dv1 (1 / dt1) := rfl
    rw [h, scale_one_div]
  have hX : out2.1.X = I.StateIncrementX (I.StateIncrementX x2 (fun i => v2 i * dt2))
      (fun i => out1.1.A i * (0.5 * dt2 ^ 2)) := by
    have h : out2.1.X = I.StateIncrementX (I.StateIncrementX x2 (scale v2 dt2))
        (scale out1.1.A (0.5 * dt2 * dt2)) := rfl
    rw [h, hsq]
    rfl
  have hc : out2.2.calls = out1.2.calls ++ [CallII.StateSetup] ++ [CallII.StateGather] ++
      [CallII.StateSolveA out2.1.X v2 T2 dt2 false] ++
      [CallII.StateScatter out2.1.X out2.1.V out2.1.T] := rfl
  refine ⟨hA, rfl, hX, rfl, ?_, ?_⟩
  · rw [hc]
    simp
  · intro hq
    have he : e2 = out1.2 := by
      simp only [e2, hq]
    simp only [out2, he]

/-- C25: every `Advance` overwrites the time of the stepper with the time gathered from the
system before adding `dt`: for each of the seven schemes, after `SetTime(t)` with any `t`, the
time reported after `Advance(dt)` is the time returned by `StateGather` plus `dt`, and the whole
result of the step is the one obtained without the `SetTime(t)`; it is `t + dt` exactly when the
gathered time is `t`. -/
theorem Advance_time_ignores_SetTime {ny ndy nc nx nv mc : Nat}
    {τ : Type} (I : ChIntegrable K σ ny ndy nc) (J : ChIntegrableIIorder K τ nx nv mc)
    (dt t : K) (s : ChTimestepperIorder K ny ndy)
    (u : ChTimestepperIIorder K nx nv) (w : ChTimestepperEulerImplicit K nx nv)
    (e : Env σ (CallI K ny ndy nc)) (f : Env τ (CallII K nx nv mc)) :
    let Tg := (I.StateGather e.system).2
    let Th := (J.StateGather f.system).2.2
    ((ChTimestepperEuleroExpl.Advance I dt (s.SetTime t) e).1.GetTime = Tg + dt ∧
      ChTimestepperEuleroExpl.Advance I dt (s.SetTime t) e =
        ChTimestepperEuleroExpl.Advance I dt s e) ∧
    ((ChTimestepperRungeKuttaExpl.Advance I dt (s.SetTime t) e).1.GetTime = Tg + dt ∧
      ChTimestepperRungeKuttaExpl.Advance I dt (s.SetTime t) e =
        ChTimestepperRungeKuttaExpl.Advance I dt s e) ∧
    ((ChTimestepperHeun.Advance I dt (s.SetTime t) e).1.GetTime = Tg + dt ∧
      ChTimestepperHeun.Advance I dt (s.SetTime t) e = ChTimestepperHeun.Advance I dt s e) ∧
    ((ChTimestepperEuleroExplIIorder.Advance J dt (u.SetTime t) f).1.GetTime = Th + dt ∧
      ChTimestepperEuleroExplIIorder.Advance J dt (u.SetTime t) f =
        ChTimestepperEuleroExplIIorder.Advance J dt u f) ∧
    ((ChTimestepperEuleroSemiImplicit.Advance J dt (u.SetTime t) f).1.GetTime = Th + dt ∧
      ChTimestepperEuleroSemiImplicit.Advance J dt (u.SetTime t) f =
        ChTimestepperEuleroSemiImplicit.Advance J dt u f) ∧
    ((ChTimestepperLeapfrog.Advance J dt (u.SetTime t) f).1.GetTime = Th + dt ∧
      ChTimestepperLeapfrog.Advance J dt (u.SetTime t) f =
        ChTimestepperLeapfrog.Advance J dt u f) ∧
    ((ChTimestepperEulerImplicit.Advance J dt (w.SetTime t) f).1.GetTime = Th + dt ∧
      ChTimestepperEulerImplicit.Advance J dt (w.SetTime t) f =
        ChTimestepperEulerImplicit.Advance J dt w f) ∧
    ((ChTimestepperEuleroExpl.Advance I dt (s.SetTime t) e).1.GetTime =
        (s.SetTime t).GetTime + dt ↔ Tg = t) ∧
    ((ChTimestepperEuleroExplIIorder.Advance J dt (u.SetTime t) f).1.GetTime =
        (u.SetTime t).GetTime + dt ↔ Th = t) := by
  intro Tg Th
  refine ⟨⟨rfl, rfl⟩, ⟨rfl, rfl⟩, ⟨rfl, rfl⟩, ⟨rfl, rfl⟩, ⟨rfl, rfl⟩, ⟨rfl, rfl⟩, ⟨rfl, rfl⟩,
    ?_, ?_⟩
  · have h : (ChTimestepperEuleroExpl.Advance I dt (s.SetTime t) e).1.GetTime = Tg + dt := rfl
    have h2 : (s.SetTime t).GetTime = t := rfl
    rw [h, h2]
    exact add_left_inj dt
  · have h : (ChTimestepperEuleroExplIIorder.Advance J dt (u.SetTime t) f).1.GetTime =
        Th + dt := rfl
    have h2 : (u.SetTime t).GetTime = t := rfl
    rw [h, h2]
    exact add_left_inj dt

/-! ### The constraint-violation vector of the implicit Euler stepper -/

/-- The Newton loop on a system whose `LoadConstraint_C` is replaced, started with another
content of `Qc`, ends in the same state but for the content of `Qc`. -/
theorem loop_LoadConstraint_C_irrelevant {nx nv nc : Nat} (I : ChIntegrableIIorder K σ nx nv nc)
    (C : σ → ChVectorDynamic K nc → K → ChVectorDynamic K nc) (dt : K)
    (self : ChTimestepperEulerImplicit K nx nv) :
    ∀ (n : Nat) (s : NewtonState K σ nx nv nc) (q : ChVectorDynamic K nc), ∃ q',
      ChTimestepperEulerImplicit.loop { I with LoadConstraint_C := C } dt self n
          { s with Qc := q } =
        { ChTimestepperEulerImplicit.loop I dt self n s with Qc := q' } := by
  intro n
  induction n with
  | zero => intro s q; exact ⟨q, rfl⟩
  | succ n ih =>
    intro s q
    have hR : (ChTimestepperEulerImplicit.assemble { I with LoadConstraint_C := C } dt self
        { s with Qc := q }).R = (ChTimestepperEulerImplicit.assemble I dt self s).R := rfl
    by_cases h : NormInf (ChTimestepperEulerImplicit.assemble I dt self s).R < self.GetTolerance
    · rw [loop_succ_of_converged I dt self n s h,
        loop_succ_of_converged _ dt self n _ (by rw [hR]; exact h)]
      exact ⟨_, rfl⟩
    · rw [loop_succ_of_not_converged I dt self n s h,
        loop_succ_of_not_converged _ dt self n _ (by rw [hR]; exact h)]
      exact ih (ChTimestepperEulerImplicit.correct I dt self
        (ChTimestepperEulerImplicit.assemble I dt self s)) _

/-- C26: the vector `Qc` assembled in each Newton pass of `ChTimestepperEulerImplicit::Advance`
does not influence the step: on two systems that differ only in their `LoadConstraint_C`, the
step gives the same stepper (`X`, `V`, `A`, `T`), leaves the same system and records the same
calls, so it makes the same number of passes and corrections. -/
theorem EulerImplicit_Qc_no_influence {nx nv nc : Nat} (I : ChIntegrableIIorder K σ nx nv nc)
    (C : σ → ChVectorDynamic K nc → K → ChVectorDynamic K nc) (dt : K)
    (self : ChTimestepperEulerImplicit K nx nv) (e : Env σ (CallII K nx nv nc)) :
    let out := ChTimestepperEulerImplicit.Advance I dt self e
    let out' := ChTimestepperEulerImplicit.Advance { I with LoadConstraint_C := C } dt self e
    out' = out ∧
    out'.1.X = out.1.X ∧ out'.1.V = out.1.V ∧ out'.1.A = out.1.A ∧
    out'.1.GetTime = out.1.GetTime ∧
    CallII.countKind CallKind.LoadResidual_F out'.2.calls =
      CallII.countKind CallKind.LoadResidual_F out.2.calls ∧
    CallII.countKind CallKind.StateSolveCorrection out'.2.calls =
      CallII.countKind CallKind.StateSolveCorrection out.2.calls := by
  intro out out'
  have h : out' = out := by
    obtain ⟨q', hq⟩ := loop_LoadConstraint_C_irrelevant I C dt
      (ChTimestepperEulerImplicit.predict I dt self e).1 self.maxiters.toNat
      (ChTimestepperEulerImplicit.predict I dt self e).2
      (ChTimestepperEulerImplicit.predict I dt self e).2.Qc
    have hp : ChTimestepperEulerImplicit.predict { I with LoadConstraint_C := C } dt self e =
        ChTimestepperEulerImplicit.predict I dt self e := rfl
    simp only [out, out', ChTimestepperEulerImplicit.Advance, hp]
    have hs : ({ (ChTimestepperEulerImplicit.predict I dt self e).2 with
        Qc := (ChTimestepperEulerImplicit.predict I dt self e).2.Qc } :
        NewtonState K σ nx nv nc) = (ChTimestepperEulerImplicit.predict I dt self e).2 := rfl
    rw [hs] at hq
    have hm : (ChTimestepperEulerImplicit.predict I dt self e).1.maxiters = self.maxiters := rfl
    rw [hm, hq]
    rfl
  rw [h]
  exact ⟨rfl, rfl, rfl, rfl, rfl, rfl, rfl⟩

/-! ### Implicit Euler without and with corrections -/

/-- When `GetMaxiters() ≤ 0` or pass 0 assembles a residual below the tolerance, the Newton loop
of `Advance` leaves the trial state of the predictor and requests no correction. -/
theorem Advance_loop_no_correction {nx nv nc : Nat} (I : ChIntegrableIIorder K σ nx nv nc)
    (dt : K) (self : ChTimestepperEulerImplicit K nx nv) (e : Env σ (CallII K nx nv nc))
    (h : self.GetMaxiters ≤ 0 ∨
      NormInf (ChTimestepperEulerImplicit.assemble I dt
        (ChTimestepperEulerImplicit.predict I dt self e).1
        (ChTimestepperEulerImplicit.predict I dt self e).2).R < self.GetTolerance) :
    (ChTimestepperEulerImplicit.loop I dt (ChTimestepperEulerImplicit.predict I dt self e).1
      self.maxiters.toNat (ChTimestepperEulerImplicit.predict I dt self e).2).Xnew =
      (ChTimestepperEulerImplicit.predict I dt self e).2.Xnew ∧
    (ChTimestepperEulerImplicit.loop I dt (ChTimestepperEulerImplicit.predict I dt self e).1
      self.maxiters.toNat (ChTimestepperEulerImplicit.predict I dt self e).2).Vnew =
      (ChTimestepperEulerImplicit.predict I dt self e).2.Vnew ∧
    CallII.countKind CallKind.StateSolveCorrection
      (ChTimestepperEulerImplicit.loop I dt (ChTimestepperEulerImplicit.predict I dt self e).1
        self.maxiters.toNat (ChTimestepperEulerImplicit.predict I dt self e).2).env.calls =
      CallII.countKind CallKind.StateSolveCorrection e.calls := by
  by_cases h0 : self.maxiters.toNat = 0
  · rw [h0]
    exact ⟨rfl, rfl, (predict_count I dt self e).1⟩
  · have hconv : NormInf (ChTimestepperEulerImplicit.assemble I dt
        (ChTimestepperEulerImplicit.predict I dt self e).1
        (ChTimestepperEulerImplicit.predict I dt self e).2).R < self.GetTolerance := by
      rcases h with h | h
      · exfalso
        apply h0
        have h1 : self.maxiters ≤ 0 := by
          have h2 : ((self.maxiters : Int) : K) ≤ ((0 : Int) : K) := by
            simpa [ChImplicitTimestepper.GetMaxiters] using h
          exact Int.cast_le.mp h2
        omega
      · exact h
    have hloop := Advance_loop_of_converged I dt self e 0 (Nat.pos_of_ne_zero h0)
      (fun j hj => absurd hj (Nat.not_lt_zero j)) hconv
    rw [hloop]
    refine ⟨rfl, rfl, ?_⟩
    rw [(assemble_count I dt _ _).1, (pass_count I dt _ 0 _).1, (predict_count I dt self e).1]
    rfl

/-- C27: if no Newton correction is applied in `ChTimestepperEulerImplicit::Advance`
(`GetMaxiters() ≤ 0`, or the residual assembled in the first pass is already below the
tolerance), the committed `X`, `V`, `A`, `T` are those `ChTimestepperEuleroExplIIorder::Advance`
produces on the same system: `X = x + v_old*dt`, `V = v_old + Dv`, `A = Dv/dt`, `T + dt`. -/
theorem EulerImplicit_no_correction_is_EuleroExplIIorder {nx nv nc : Nat}
    (I : ChIntegrableIIorder K σ nx nv nc) (dt : K)
    (self : ChTimestepperEulerImplicit K nx nv) (u : ChTimestepperIIorder K nx nv)
    (e : Env σ (CallII K nx nv nc))
    (h : self.GetMaxiters ≤ 0 ∨
      NormInf (ChTimestepperEulerImplicit.assemble I dt
        (ChTimestepperEulerImplicit.predict I dt self e).1
        (ChTimestepperEulerImplicit.predict I dt self e).2).R < self.GetTolerance) :
    let x := (I.StateGather e.system).1
    let v := (I.StateGather e.system).2.1
    let T := (I.StateGather e.system).2.2
    let Dv := (I.StateSolveA e.system x v T dt false).1.1
    let impl := ChTimestepperEulerImplicit.Advance I dt self e
    let expl := ChTimestepperEuleroExplIIorder.Advance I dt u e
    impl.1.toChTimestepperIIorder = expl.1 ∧
    impl.1.X = I.StateIncrementX x (fun i => v i * dt) ∧
    impl.1.V = (fun i => v i + Dv i) ∧
    impl.1.A = (fun i => Dv i / dt) ∧
    impl.1.GetTime = T + dt ∧
    CallII.countKind CallKind.StateSolveCorrection impl.2.calls =
      CallII.countKind CallKind.StateSolveCorrection e.calls := by
  intro x v T Dv impl expl
  obtain ⟨hX, hV, hn⟩ := Advance_loop_no_correction I dt self e h
  have hiX : impl.1.X = I.StateIncrementX x (fun i => v i * dt) := by
    have h1 : impl.1.X = (ChTimestepperEulerImplicit.loop I dt
      (ChTimestepperEulerImplicit.predict I dt self e).1 self.maxiters.toNat
      (ChTimestepperEulerImplicit.predict I dt self e).2).Xnew := rfl
    rw [h1, hX]
    rfl
  have hiV : impl.1.V = (fun i => v i + Dv i) := by
    have h1 : impl.1.V = (ChTimestepperEulerImplicit.loop I dt
      (ChTimestepperEulerImplicit.predict I dt self e).1 self.maxiters.toNat
      (ChTimestepperEulerImplicit.predict I dt self e).2).Vnew := rfl
    rw [h1, hV]
    rfl
  have hiA : impl.1.A = (fun i => Dv i / dt) := by
    have h1 : impl.1.A = scale Dv (1 / dt) := rfl
    rw [h1, scale_one_div]
  have heX : expl.1.X = I.StateIncrementX x (fun i => v i * dt) := rfl
  have heV : expl.1.V = (fun i => v i + Dv i) := rfl
  have heA : expl.1.A = (fun i => Dv i / dt) := by
    have h1 : expl.1.A = scale Dv (1 / dt) := rfl
    rw [h1, scale_one_div]
  refine ⟨?_, hiX, hiV, hiA, rfl, ?_⟩
  · have hs : ∀ a b : ChTimestepperIIorder K nx nv,
        a.X = b.X → a.V = b.V → a.A = b.A → a.T = b.T → a = b := by
      intro a b h1 h2 h3 h4
      cases a
      cases b
      simp only at h1 h2 h3 h4
      subst h1 h2 h3 h4
      rfl
    exact hs _ _ (hiX.trans heX.symm) (hiV.trans heV.symm) (hiA.trans heA.symm) rfl
  · rw [(Advance_count I dt self e).1, hn]

/-- C27 at a concrete input: unit mass on a unit spring gathered at `x = 1`, `v = 1`, `dt = 1`,
implicit Euler stepper with `maxiters = 0`; the step commits the explicit Euler result
`X = 2`, `V = 0`, `A = -1`. -/
theorem EulerImplicit_no_correction_is_EuleroExplIIorder_spring :
    ({ ChTimestepperEulerImplicit.new with maxiters := 0 } :
      ChTimestepperEulerImplicit ℚ 1 1).GetMaxiters ≤ 0 ∧
    (ChTimestepperEulerImplicit.Advance (springMass (0 : ℚ) 1) 1
      { ChTimestepperEulerImplicit.new with maxiters := 0 }
      (particleAt 1 1 0)).1.toChTimestepperIIorder =
      (ChTimestepperEuleroExplIIorder.Advance (springMass (0 : ℚ) 1) 1 freshIIorder
        (particleAt 1 1 0)).1 ∧
    (ChTimestepperEulerImplicit.Advance (springMass (0 : ℚ) 1) 1
      { ChTimestepperEulerImplicit.new with maxiters := 0 } (particleAt 1 1 0)).1.X 0 = 2 ∧
    (ChTimestepperEulerImplicit.Advance (springMass (0 : ℚ) 1) 1
      { ChTimestepperEulerImplicit.new with maxiters := 0 } (particleAt 1 1 0)).1.V 0 = 0 ∧
    (ChTimestepperEulerImplicit.Advance (springMass (0 : ℚ) 1) 1
      { ChTimestepperEulerImplicit.new with maxiters := 0 } (particleAt 1 1 0)).1.A 0 = -1 := by
  have h0 : ({ ChTimestepperEulerImplicit.new with maxiters := 0 } :
      ChTimestepperEulerImplicit ℚ 1 1).GetMaxiters ≤ 0 := by
    simp [ChImplicitTimestepper.GetMaxiters]
  obtain ⟨h1, hX, hV, hA, -, -⟩ := EulerImplicit_no_correction_is_EuleroExplIIorder
    (springMass (0 : ℚ) 1) 1 { ChTimestepperEulerImplicit.new with maxiters := 0 } freshIIorder
    (particleAt 1 1 0) (Or.inl h0)
  refine ⟨h0, h1, ?_, ?_, ?_⟩
  · rw [hX]; simp [springMass, particleAt]; norm_num
  · rw [hV]; simp [springMass, particleAt]
  · rw [hA]; simp [springMass, particleAt]

/-- The state at the start of pass `k + 1` is the corrected assembly of the state at the start
of pass `k`. -/
theorem pass_succ {nx nv nc : Nat} (I : ChIntegrableIIorder K σ nx nv nc) (dt : K)
    (self : ChTimestepperEulerImplicit K nx nv) :
    ∀ (k : Nat) (s : NewtonState K σ nx nv nc),
      ChTimestepperEulerImplicit.pass I dt self (k + 1) s =
        ChTimestepperEulerImplicit.correct I dt self
          (ChTimestepperEulerImplicit.assemble I dt self
            (ChTimestepperEulerImplicit.pass I dt self k s)) := by
  intro k
  induction k with
  | zero => intro s; rfl
  | succ k ih =>
    intro s
    have h : ChTimestepperEulerImplicit.pass I dt self (k + 1 + 1) s =
        ChTimestepperEulerImplicit.pass I dt self (k + 1)
          (ChTimestepperEulerImplicit.correct I dt self
            (ChTimestepperEulerImplicit.assemble I dt self s)) := rfl
    rw [h, ih]
    rfl

/-- The Newton loop with `n` passes ends in the state at the start of some pass `k ≤ n`, or in
the state assembled in that pass, after exactly `k` corrections. -/
theorem loop_eq_pass {nx nv nc : Nat} (I : ChIntegrableIIorder K σ nx nv nc) (dt : K)
    (self : ChTimestepperEulerImplicit K nx nv) :
    ∀ (n : Nat) (s : NewtonState K σ nx nv nc), ∃ k, k ≤ n ∧
      (ChTimestepperEulerImplicit.loop I dt self n s =
          ChTimestepperEulerImplicit.pass I dt self k s ∨
        ChTimestepperEulerImplicit.loop I dt self n s =
          ChTimestepperEulerImplicit.assemble I dt self
            (ChTimestepperEulerImplicit.pass I dt self k s)) ∧
      CallII.countKind CallKind.StateSolveCorrection
          (ChTimestepperEulerImplicit.loop I dt self n s).env.calls =
        CallII.countKind CallKind.StateSolveCorrection s.env.calls + k := by
  intro n
  induction n with
  | zero => intro s; exact ⟨0, le_refl _, Or.inl rfl, rfl⟩
  | succ n ih =>
    intro s
    by_cases h : NormInf (ChTimestepperEulerImplicit.assemble I dt self s).R < self.GetTolerance
    · rw [loop_succ_of_converged I dt self n s h]
      exact ⟨0, Nat.zero_le _, Or.inr rfl, (assemble_count I dt self s).1⟩
    · rw [loop_succ_of_not_converged I dt self n s h]
      obtain ⟨k, hk, hl, hc⟩ := ih (ChTimestepperEulerImplicit.correct I dt self
        (ChTimestepperEulerImplicit.assemble I dt self s))
      refine ⟨k + 1, Nat.succ_le_succ hk, hl, ?_⟩
      rw [hc, (correct_count I dt self _).1, (assemble_count I dt self s).1]
      omega

/-- When the tolerance is not positive no pass ends the loop: the loop of `Advance` ends in the
state at the start of pass `max(maxiters, 0)`. -/
theorem Advance_loop_of_tolerance_nonpos {nx nv nc : Nat}
    (I : ChIntegrableIIorder K σ nx nv nc) (dt : K)
    (self : ChTimestepperEulerImplicit K nx nv) (e : Env σ (CallII K nx nv nc))
    (htol : self.GetTolerance ≤ 0) :
    ChTimestepperEulerImplicit.loop I dt (ChTimestepperEulerImplicit.predict I dt self e).1
        self.maxiters.toNat (ChTimestepperEulerImplicit.predict I dt self e).2 =
      ChTimestepperEulerImplicit.pass I dt (ChTimestepperEulerImplicit.predict I dt self e).1
        self.maxiters.toNat (ChTimestepperEulerImplicit.predict I dt self e).2 := by
  have h := loop_add_of_not_converged I dt (ChTimestepperEulerImplicit.predict I dt self e).1 0
    self.maxiters.toNat (ChTimestepperEulerImplicit.predict I dt self e).2
    (fun j _ hlt => absurd (lt_of_lt_of_le hlt htol) (not_lt.mpr (NormInf_nonneg _)))
  simpa [ChTimestepperEulerImplicit.loop] using h

/-- C28: for every `ChTimestepperEulerImplicit::Advance(dt)` in which at least one Newton
correction is applied, the committed state satisfies `X_new = X_old + V_new*dt`, with `X_old`
the position gathered at the start of the step and `V_new` the committed velocity; the trial
state satisfies the same relation after every correction inside the loop. -/
theorem EulerImplicit_position_relation {nx nv nc : Nat}
    (I : ChIntegrableIIorder K σ nx nv nc) (dt : K)
    (self : ChTimestepperEulerImplicit K nx nv) (e : Env σ (CallII K nx nv nc))
    (h : CallII.countKind CallKind.StateSolveCorrection e.calls <
      CallII.countKind CallKind.StateSolveCorrection
        (ChTimestepperEulerImplicit.Advance I dt self e).2.calls) :
    let X_old := (I.StateGather e.system).1
    let p := ChTimestepperEulerImplicit.predict I dt self e
    let out := ChTimestepperEulerImplicit.Advance I dt self e
    out.1.X = I.StateIncrementX X_old (fun i => out.1.V i * dt) ∧
    (∀ s : NewtonState K σ nx nv nc,
      (ChTimestepperEulerImplicit.correct I dt p.1 s).Xnew =
        I.StateIncrementX X_old
          (fun i => (ChTimestepperEulerImplicit.correct I dt p.1 s).Vnew i * dt)) ∧
    (∀ k : Nat,
      (ChTimestepperEulerImplicit.pass I dt p.1 (k + 1) p.2).Xnew =
        I.StateIncrementX X_old
          (fun i => (ChTimestepperEulerImplicit.pass I dt p.1 (k + 1) p.2).Vnew i * dt)) := by
  intro X_old p out
  have hcorr : ∀ s : NewtonState K σ nx nv nc,
      (ChTimestepperEulerImplicit.correct I dt p.1 s).Xnew =
        I.StateIncrementX X_old
          (fun i => (ChTimestepperEulerImplicit.correct I dt p.1 s).Vnew i * dt) :=
    fun s => rfl
  have hpass : ∀ k : Nat,
      (ChTimestepperEulerImplicit.pass I dt p.1 (k + 1) p.2).Xnew =
        I.StateIncrementX X_old
          (fun i => (ChTimestepperEulerImplicit.pass I dt p.1 (k + 1) p.2).Vnew i * dt) := by
    intro k
    rw [pass_succ]
    exact hcorr _
  refine ⟨?_, hcorr, hpass⟩
  obtain ⟨k, -, hl, hc⟩ := loop_eq_pass I dt p.1 self.maxiters.toNat p.2
  rw [(Advance_count I dt self e).1, hc, (predict_count I dt self e).1] at h
  obtain ⟨k', rfl⟩ : ∃ k', k = k' + 1 := ⟨k - 1, by omega⟩
  have hX : out.1.X = (ChTimestepperEulerImplicit.loop I dt p.1 self.maxiters.toNat p.2).Xnew :=
    rfl
  have hV : out.1.V = (ChTimestepperEulerImplicit.loop I dt p.1 self.maxiters.toNat p.2).Vnew :=
    rfl
  rw [hX, hV]
  rcases hl with hl | hl
  · rw [hl]
    exact hpass k'
  · rw [hl]
    exact hpass k'

/-- C28 at a concrete input: unit mass on a unit spring gathered at `x = 1`, `v = 1`, `dt = 1`,
implicit Euler stepper with `maxiters = 1` and tolerance 0; one correction is applied and the
step commits `V = -1/2`, `X = 1 + (-1/2)*1`. -/
theorem EulerImplicit_position_relation_spring :
    CallII.countKind CallKind.StateSolveCorrection (particleAt (1 : ℚ) 1 0).calls <
      CallII.countKind CallKind.StateSolveCorrection
        (ChTimestepperEulerImplicit.Advance (springMass (0 : ℚ) 1) 1
          { ChTimestepperEulerImplicit.new with maxiters := 1, tolerance := 0 }
          (particleAt 1 1 0)).2.calls ∧
    (ChTimestepperEulerImplicit.Advance (springMass (0 : ℚ) 1) 1
      { ChTimestepperEulerImplicit.new with maxiters := 1, tolerance := 0 }
      (particleAt 1 1 0)).1.X =
      (springMass (0 : ℚ) 1).StateIncrementX
        ((springMass (0 : ℚ) 1).StateGather (particleAt (1 : ℚ) 1 0).system).1
        (fun i => (ChTimestepperEulerImplicit.Advance (springMass (0 : ℚ) 1) 1
          { ChTimestepperEulerImplicit.new with maxiters := 1, tolerance := 0 }
          (particleAt 1 1 0)).1.V i * 1) := by
  have hloop := Advance_loop_of_tolerance_nonpos (springMass (0 : ℚ) 1) 1
    { ChTimestepperEulerImplicit.new with maxiters := 1, tolerance := 0 } (particleAt 1 1 0)
    (le_refl _)
  have hcount : CallII.countKind CallKind.StateSolveCorrection (particleAt (1 : ℚ) 1 0).calls <
      CallII.countKind CallKind.StateSolveCorrection
        (ChTimestepperEulerImplicit.Advance (springMass (0 : ℚ) 1) 1
          { ChTimestepperEulerImplicit.new with maxiters := 1, tolerance := 0 }
          (particleAt 1 1 0)).2.calls := by
    rw [(Advance_count _ _ _ _).1, hloop, (pass_count _ _ _ _ _).1, (predict_count _ _ _ _).1]
    simp
  exact ⟨hcount, (EulerImplicit_position_relation (springMass (0 : ℚ) 1) 1
    { ChTimestepperEulerImplicit.new with maxiters := 1, tolerance := 0 } (particleAt 1 1 0)
    hcount).1⟩

/-- The Newton loop issues no `StateSolveA`. -/
theorem loop_count_StateSolveA {nx nv nc : Nat} (I : ChIntegrableIIorder K σ nx nv nc) (dt : K)
    (self : ChTimestepperEulerImplicit K nx nv) :
    ∀ (n : Nat) (s : NewtonState K σ nx nv nc),
      CallII.countKind CallKind.StateSolveA
          (ChTimestepperEulerImplicit.loop I dt self n s).env.calls =
        CallII.countKind CallKind.StateSolveA s.env.calls := by
  have ha : ∀ s : NewtonState K σ nx nv nc, CallII.countKind CallKind.StateSolveA
      (ChTimestepperEulerImplicit.assemble I dt self s).env.calls =
      CallII.countKind CallKind.StateSolveA s.env.calls := by
    intro s
    rw [assemble_calls, countKind_append]
    simp [CallII.countKind, CallII.kind]
  have hc : ∀ s : NewtonState K σ nx nv nc, CallII.countKind CallKind.StateSolveA
      (ChTimestepperEulerImplicit.correct I dt self s).env.calls =
      CallII.countKind CallKind.StateSolveA s.env.calls := by
    intro s
    rw [correct_calls, countKind_append]
    simp [CallII.countKind, CallII.kind]
  intro n
  induction n with
  | zero => intro s; rfl
  | succ n ih =>
    intro s
    by_cases h : NormInf (ChTimestepperEulerImplicit.assemble I dt self s).R < self.GetTolerance
    · rw [loop_succ_of_converged I dt self n s h, ha]
    · rw [loop_succ_of_not_converged I dt self n s h, ih, hc, ha]

/-- The trial velocity at the start of pass `k` is the predicted one plus the increments
returned by the `k` corrections so far. -/
theorem pass_Vnew {nx nv nc : Nat} (I : ChIntegrableIIorder K σ nx nv nc) (dt : K)
    (self : ChTimestepperEulerImplicit K nx nv) (s : NewtonState K σ nx nv nc) (i : Fin nv) :
    ∀ k : Nat, (ChTimestepperEulerImplicit.pass I dt self k s).Vnew i =
      s.Vnew i + ∑ j in Finset.range k, (ChTimestepperEulerImplicit.pass I dt self (j + 1) s).Dv i := by
  intro k
  induction k with
  | zero => simp [ChTimestepperEulerImplicit.pass]
  | succ k ih =>
    rw [Finset.sum_range_succ, ← add_assoc, ← ih]
    have h : (ChTimestepperEulerImplicit.correct I dt self
        (ChTimestepperEulerImplicit.assemble I dt self
          (ChTimestepperEulerImplicit.pass I dt self k s))).Vnew i =
        (ChTimestepperEulerImplicit.pass I dt self k s).Vnew i +
        (ChTimestepperEulerImplicit.correct I dt self
          (ChTimestepperEulerImplicit.assemble I dt self
            (ChTimestepperEulerImplicit.pass I dt self k s))).Dv i := rfl
    rw [pass_succ, h]

/-- C29: after `ChTimestepperEulerImplicit::Advance(dt)`, `dt ≠ 0`, the cached acceleration
`A` is `Dv/dt` with `Dv` the increment of the one `StateSolveA` call, issued at the gathered
state, however many Newton corrections were applied; the committed velocity is
`V_old + Dv` plus the increments returned by the applied corrections, so `V_new - V_old`
is `A*dt` plus the sum of the applied corrections. -/
theorem EulerImplicit_cached_acceleration {nx nv nc : Nat}
    (I : ChIntegrableIIorder K σ nx nv nc) (dt : K) (hdt : dt ≠ 0)
    (self : ChTimestepperEulerImplicit K nx nv) (e : Env σ (CallII K nx nv nc)) :
    let x := (I.StateGather e.system).1
    let V_old := (I.StateGather e.system).2.1
    let T := (I.StateGather e.system).2.2
    let Dv := (I.StateSolveA e.system x V_old T dt false).1.1
    let p := ChTimestepperEulerImplicit.predict I dt self e
    let out := ChTimestepperEulerImplicit.Advance I dt self e
    let k := CallII.countKind CallKind.StateSolveCorrection out.2.calls -
      CallII.countKind CallKind.StateSolveCorrection e.calls
    out.1.A = (fun i => Dv i / dt) ∧
    CallII.countKind CallKind.StateSolveA out.2.calls =
      CallII.countKind CallKind.StateSolveA e.calls + 1 ∧
    (∀ i, out.1.V i - V_old i = out.1.A i * dt +
      ∑ j in Finset.range k, (ChTimestepperEulerImplicit.pass I dt p.1 (j + 1) p.2).Dv i) := by
  intro x V_old T Dv p out k
  have hA : out.1.A = (fun i => Dv i / dt) := by
    have h1 : out.1.A = scale Dv (1 / dt) := rfl
    rw [h1, scale_one_div]
  refine ⟨hA, ?_, ?_⟩
  · have h1 : out.2.calls =
        (ChTimestepperEulerImplicit.loop I dt p.1 self.maxiters.toNat p.2).env.calls ++
        [CallII.StateScatter out.1.X out.1.V out.1.T] := rfl
    have h2 : p.2.env.calls = e.calls ++
        [CallII.StateSetup, CallII.StateGather, CallII.StateSolveA x V_old T dt false] := by
      simp [p, x, V_old, T, ChTimestepperEulerImplicit.predict,
        ChIntegrableIIorder.call_StateSolveA, ChIntegrableIIorder.call_StateGather,
        ChIntegrableIIorder.call_StateSetup]
    rw [h1, countKind_append, loop_count_StateSolveA, h2, countKind_append]
    simp [CallII.countKind, CallII.kind]
  · intro i
    obtain ⟨m, -, hl, hc⟩ := loop_eq_pass I dt p.1 self.maxiters.toNat p.2
    have hk : k = m := by
      simp only [k]
      rw [(Advance_count I dt self e).1, hc, (predict_count I dt self e).1]
      omega
    have hV : out.1.V = (ChTimestepperEulerImplicit.pass I dt p.1 m p.2).Vnew := by
      have h1 : out.1.V =
          (ChTimestepperEulerImplicit.loop I dt p.1 self.maxiters.toNat p.2).Vnew := rfl
      rw [h1]
      rcases hl with hl | hl
      · rw [hl]
      · rw [hl]
        rfl
    have hp : p.2.Vnew i = V_old i + Dv i := rfl
    rw [hk, hV, pass_Vnew I dt p.1 p.2 i m, hp, hA]
    field_simp
    ring

/-- C29 at a concrete input: unit mass on a unit spring gathered at `x = 1`, `v = 1`, `dt = 1`,
implicit Euler stepper with `maxiters = 1` and tolerance 0; the predictor gives `Dv = -1`, so
`A = -1`, the one correction adds `-1/2`, and `V_new - V_old = -3/2` differs from `A*dt = -1`
by that correction. -/
theorem EulerImplicit_cached_acceleration_spring :
    (1 : ℚ) ≠ 0 ∧
    (ChTimestepperEulerImplicit.Advance (springMass (0 : ℚ) 1) 1
      { ChTimestepperEulerImplicit.new with maxiters := 1, tolerance := 0 }
      (particleAt 1 1 0)).1.A 0 = -1 ∧
    (ChTimestepperEulerImplicit.Advance (springMass (0 : ℚ) 1) 1
      { ChTimestepperEulerImplicit.new with maxiters := 1, tolerance := 0 }
      (particleAt 1 1 0)).1.V 0 - 1 = -3 / 2 ∧
    (ChTimestepperEulerImplicit.Advance (springMass (0 : ℚ) 1) 1
      { ChTimestepperEulerImplicit.new with maxiters := 1, tolerance := 0 }
      (particleAt 1 1 0)).1.V 0 - 1 ≠
      (ChTimestepperEulerImplicit.Advance (springMass (0 : ℚ) 1) 1
        { ChTimestepperEulerImplicit.new with maxiters := 1, tolerance := 0 }
        (particleAt 1 1 0)).1.A 0 * 1 := by
  obtain ⟨hA, -, hV⟩ := EulerImplicit_cached_acceleration (springMass (0 : ℚ) 1) 1 one_ne_zero
    { ChTimestepperEulerImplicit.new with maxiters := 1, tolerance := 0 } (particleAt 1 1 0)
  have hloop := Advance_loop_of_tolerance_nonpos (springMass (0 : ℚ) 1) 1
    { ChTimestepperEulerImplicit.new with maxiters := 1, tolerance := 0 } (particleAt 1 1 0)
    (le_refl _)
  have hcount : CallII.countKind CallKind.StateSolveCorrection
      (ChTimestepperEulerImplicit.Advance (springMass (0 : ℚ) 1) 1
        { ChTimestepperEulerImplicit.new with maxiters := 1, tolerance := 0 }
        (particleAt 1 1 0)).2.calls -
      CallII.countKind CallKind.StateSolveCorrection (particleAt (1 : ℚ) 1 0).calls = 1 := by
    rw [(Advance_count _ _ _ _).1, hloop, (pass_count _ _ _ _ _).1, (predict_count _ _ _ _).1]
    simp
  have hA0 : (ChTimestepperEulerImplicit.Advance (springMass (0 : ℚ) 1) 1
      { ChTimestepperEulerImplicit.new with maxiters := 1, tolerance := 0 }
      (particleAt 1 1 0)).1.A 0 = -1 := by
    rw [hA]
    simp [springMass, particleAt]
  have hV0 : (ChTimestepperEulerImplicit.Advance (springMass (0 : ℚ) 1) 1
      { ChTimestepperEulerImplicit.new with maxiters := 1, tolerance := 0 }
      (particleAt 1 1 0)).1.V 0 - 1 = -3 / 2 := by
    have h := hV 0
    simp only [hcount] at h
    have hg : ((springMass (0 : ℚ) 1).StateGather (particleAt (1 : ℚ) 1 0).system).2.1 0 = 1 :=
      rfl
    rw [hg, hA0] at h
    rw [h]
    simp [ChTimestepperEulerImplicit.assemble, ChTimestepperEulerImplicit.predict,
      ChTimestepperEulerImplicit.pass, ChTimestepperEulerImplicit.correct,
      ChTimestepperEulerImplicit.new, ChIntegrableIIorder.call_StateSolveCorrection,
      ChIntegrableIIorder.call_StateScatter, ChIntegrableIIorder.call_StateSolveA,
      ChIntegrableIIorder.call_StateGather, ChIntegrableIIorder.call_StateSetup,
      ChIntegrableIIorder.call_LoadResidual_F, ChIntegrableIIorder.call_LoadResidual_Mv,
      ChIntegrableIIorder.call_LoadResidual_CqL, ChIntegrableIIorder.call_LoadConstraint_C,
      springMass, particleAt, Reset, scale]
    norm_num
  refine ⟨one_ne_zero, hA0, hV0, ?_⟩
  rw [hV0, hA0]
  norm_num

/-! ### Semi-implicit against explicit Euler -/

/-- C30 as stated fails: on the planar rotor of unit inertia under torque 2, gathered at
orientation `(1, 0)` with angular velocity 2, `dt = 1`, explicit Euler leaves the orientation
`(0, 1)`, and incrementing that by `Dv*dt = 2` gives `(-1, 0)`, while semi-implicit Euler
leaves `(-3/5, 4/5)`: the state increment of this system is not additive. -/
theorem EuleroSemiImplicit_position_not_explicit_plus :
    (ChTimestepperEuleroExplIIorder.Advance (rotor (2 : ℚ)) 1
      { X := 0, V := 0, A := 0, T := 0 } (rotorAt 1 0 2 0)).1.X 0 = 0 ∧
    (rotor (2 : ℚ)).StateIncrementX
      (ChTimestepperEuleroExplIIorder.Advance (rotor (2 : ℚ)) 1
        { X := 0, V := 0, A := 0, T := 0 } (rotorAt 1 0 2 0)).1.X
      (fun i => ((rotor (2 : ℚ)).StateSolveA (rotorAt (1 : ℚ) 0 2 0).system
        ((rotor (2 : ℚ)).StateGather (rotorAt (1 : ℚ) 0 2 0).system).1
        ((rotor (2 : ℚ)).StateGather (rotorAt (1 : ℚ) 0 2 0).system).2.1
        ((rotor (2 : ℚ)).StateGather (rotorAt (1 : ℚ) 0 2 0).system).2.2 1 false).1.1 i * 1) 0
      = -1 ∧
    (ChTimestepperEuleroSemiImplicit.Advance (rotor (2 : ℚ)) 1
      { X := 0, V := 0, A := 0, T := 0 } (rotorAt 1 0 2 0)).1.X 0 = -3 / 5 ∧
    (ChTimestepperEuleroSemiImplicit.Advance (rotor (2 : ℚ)) 1
      { X := 0, V := 0, A := 0, T := 0 } (rotorAt 1 0 2 0)).1.X ≠
    (rotor (2 : ℚ)).StateIncrementX
      (ChTimestepperEuleroExplIIorder.Advance (rotor (2 : ℚ)) 1
        { X := 0, V := 0, A := 0, T := 0 } (rotorAt 1 0 2 0)).1.X
      (fun i => ((rotor (2 : ℚ)).StateSolveA (rotorAt (1 : ℚ) 0 2 0).system
        ((rotor (2 : ℚ)).StateGather (rotorAt (1 : ℚ) 0 2 0).system).1
        ((rotor (2 : ℚ)).StateGather (rotorAt (1 : ℚ) 0 2 0).system).2.1
        ((rotor (2 : ℚ)).StateGather (rotorAt (1 : ℚ) 0 2 0).system).2.2 1 false).1.1 i * 1)
    := by
  have h1 : (ChTimestepperEuleroExplIIorder.Advance (rotor (2 : ℚ)) 1
      { X := 0, V := 0, A := 0, T := 0 } (rotorAt 1 0 2 0)).1.X 0 = 0 := by
    simp [ChTimestepperEuleroExplIIorder.Advance, ChIntegrableIIorder.call_StateSolveA,
      ChIntegrableIIorder.call_StateGather, ChIntegrableIIorder.call_StateSetup, rotor,
      rotorAt, scale]
  have h2 : (rotor (2 : ℚ)).StateIncrementX
      (ChTimestepperEuleroExplIIorder.Advance (rotor (2 : ℚ)) 1
        { X := 0, V := 0, A := 0, T := 0 } (rotorAt 1 0 2 0)).1.X
      (fun i => ((rotor (2 : ℚ)).StateSolveA (rotorAt (1 : ℚ) 0 2 0).system
        ((rotor (2 : ℚ)).StateGather (rotorAt (1 : ℚ) 0 2 0).system).1
        ((rotor (2 : ℚ)).StateGather (rotorAt (1 : ℚ) 0 2 0).system).2.1
        ((rotor (2 : ℚ)).StateGather (rotorAt (1 : ℚ) 0 2 0).system).2.2 1 false).1.1 i * 1) 0
      = -1 := by
    simp [ChTimestepperEuleroExplIIorder.Advance, ChIntegrableIIorder.call_StateSolveA,
      ChIntegrableIIorder.call_StateGather, ChIntegrableIIorder.call_StateSetup, rotor,
      rotorAt, scale]
    norm_num
  have h3 : (ChTimestepperEuleroSemiImplicit.Advance (rotor (2 : ℚ)) 1
      { X := 0, V := 0, A := 0, T := 0 } (rotorAt 1 0 2 0)).1.X 0 = -3 / 5 := by
    simp [ChTimestepperEuleroSemiImplicit.Advance, ChIntegrableIIorder.call_StateSolveA,
      ChIntegrableIIorder.call_StateGather, ChIntegrableIIorder.call_StateSetup, rotor,
      rotorAt, scale]
    norm_num
  refine ⟨h1, h2, h3, ?_⟩
  intro h
  have h0 := congrFun h 0
  rw [h3, h2] at h0
  norm_num at h0

/-- C30, amended: started from the same gathered state `(x, v, T)` on the same system with the
same `dt`, `ChTimestepperEuleroSemiImplicit` and `ChTimestepperEuleroExplIIorder` produce the
same `V`, the same `A` and the same `T`; their positions are `X_semi = x + (v + Dv)*dt` and
`X_explicit = x + v*dt`, and `X_semi = X_explicit + Dv*dt` when the state increment of the
system is additive, as the componentwise one is. -/
theorem EuleroSemiImplicit_vs_EuleroExplIIorder {nx nv nc : Nat}
    (I : ChIntegrableIIorder K σ nx nv nc) (dt : K)
    (u u' : ChTimestepperIIorder K nx nv) (e : Env σ (CallII K nx nv nc)) :
    let x := (I.StateGather e.system).1
    let v := (I.StateGather e.system).2.1
    let T := (I.StateGather e.system).2.2
    let Dv := (I.StateSolveA e.system x v T dt false).1.1
    let semi := ChTimestepperEuleroSemiImplicit.Advance I dt u e
    let expl := ChTimestepperEuleroExplIIorder.Advance I dt u' e
    semi.1.V = expl.1.V ∧ semi.1.A = expl.1.A ∧ semi.1.GetTime = expl.1.GetTime ∧
    expl.1.X = I.StateIncrementX x (fun i => v i * dt) ∧
    semi.1.X = I.StateIncrementX x (fun i => (v i + Dv i) * dt) ∧
    ((∀ (y : ChState K nx) (a b : ChStateDelta K nv),
        I.StateIncrementX y (a + b) = I.StateIncrementX (I.StateIncrementX y a) b) →
      semi.1.X = I.StateIncrementX expl.1.X (fun i => Dv i * dt)) := by
  intro x v T Dv semi expl
  have hs : semi.1.X = I.StateIncrementX x (fun i => (v i + Dv i) * dt) := rfl
  have he : expl.1.X = I.StateIncrementX x (fun i => v i * dt) := rfl
  refine ⟨rfl, rfl, rfl, he, hs, ?_⟩
  intro hadd
  have hv : (fun i => (v i + Dv i) * dt) = (fun i => v i * dt) + (fun i => Dv i * dt) := by
    funext i
    simp only [Pi.add_apply]
    ring
  rw [hs, he, hv, hadd]

/-- C30, amended, at a concrete input: on the unit mass under unit force at rest, whose state
increment is componentwise addition, `dt = 1`, the semi-implicit position is the explicit one
plus `Dv*dt`. -/
theorem EuleroSemiImplicit_vs_EuleroExplIIorder_unitMass :
    (∀ (y : ChState ℚ 1) (a b : ChStateDelta ℚ 1),
      (unitMass : ChIntegrableIIorder ℚ (Particle ℚ) 1 1 0).StateIncrementX y (a + b) =
        (unitMass : ChIntegrableIIorder ℚ (Particle ℚ) 1 1 0).StateIncrementX
          ((unitMass : ChIntegrableIIorder ℚ (Particle ℚ) 1 1 0).StateIncrementX y a) b) ∧
    (ChTimestepperEuleroSemiImplicit.Advance (unitMass : ChIntegrableIIorder ℚ _ 1 1 0) 1
      freshIIorder (particleAt 0 0 0)).1.X =
      (unitMass : ChIntegrableIIorder ℚ (Particle ℚ) 1 1 0).StateIncrementX
        (ChTimestepperEuleroExplIIorder.Advance (unitMass : ChIntegrableIIorder ℚ _ 1 1 0) 1
          freshIIorder (particleAt 0 0 0)).1.X
        (fun i => ((unitMass : ChIntegrableIIorder ℚ (Particle ℚ) 1 1 0).StateSolveA
          (particleAt (0 : ℚ) 0 0).system
          ((unitMass : ChIntegrableIIorder ℚ _ 1 1 0).StateGather
            (particleAt (0 : ℚ) 0 0).system).1
          ((unitMass : ChIntegrableIIorder ℚ _ 1 1 0).StateGather
            (particleAt (0 : ℚ) 0 0).system).2.1
          ((unitMass : ChIntegrableIIorder ℚ _ 1 1 0).StateGather
            (particleAt (0 : ℚ) 0 0).system).2.2 1 false).1.1 i * 1) := by
  have hadd : ∀ (y : ChState ℚ 1) (a b : ChStateDelta ℚ 1),
      (unitMass : ChIntegrableIIorder ℚ (Particle ℚ) 1 1 0).StateIncrementX y (a + b) =
        (unitMass : ChIntegrableIIorder ℚ (Particle ℚ) 1 1 0).StateIncrementX
          ((unitMass : ChIntegrableIIorder ℚ (Particle ℚ) 1 1 0).StateIncrementX y a) b := by
    intro y a b
    simp [unitMass, springMass, add_assoc]
  exact ⟨hadd, (EuleroSemiImplicit_vs_EuleroExplIIorder
    (unitMass : ChIntegrableIIorder ℚ _ 1 1 0) 1 freshIIorder freshIIorder (particleAt 0 0 0)).2.2.2.2.2
    hadd⟩

/-! ### Pointer table of the archive -/

/-- The scan of `PutPointer` finds nothing exactly when the pointer is not among the entries. -/
theorem PutPointer_scan_eq_none (object : Nat) (l : List Nat) (i : Nat) :
    ChArchive.PutPointer.scan object l i = none ↔ object ∉ l := by
  induction l generalizing i with
  | nil => simp [ChArchive.PutPointer.scan]
  | cons p rest ih =>
    unfold ChArchive.PutPointer.scan
    by_cases hp : p = object
    · simp [hp]
    · have hp2 : ¬ object = p := fun h => hp h.symm
      simp [hp, hp2, ih]

/-- The index found by the scan of `PutPointer` (started at `i`) is that of the first entry
equal to the pointer. -/
theorem PutPointer_scan_eq_some (object : Nat) (l : List Nat) (i j : Nat)
    (h : ChArchive.PutPointer.scan object l i = some j) :
    i ≤ j ∧ l[j - i]? = some object ∧ ∀ k, k < j - i → l[k]? ≠ some object := by
  induction l generalizing i with
  | nil => simp [ChArchive.PutPointer.scan] at h
  | cons p rest ih =>
    unfold ChArchive.PutPointer.scan at h
    by_cases hp : p = object
    · simp only [hp, if_true, Option.some.injEq] at h
      subst h
      simp [hp]
    · simp only [hp, if_false] at h
      obtain ⟨h1, h2, h3⟩ := ih (i + 1) h
      have hji : j - i = (j - (i + 1)) + 1 := by omega
      refine ⟨by omega, ?_, ?_⟩
      · rw [hji, List.getElem?_cons_succ]; exact h2
      · intro k hk
        cases k with
        | zero => simp [hp]
        | succ k =>
          rw [List.getElem?_cons_succ]
          exact h3 k (by omega)

/-- When the pointer is already stored, `PutPointer` leaves the archive as it is and reports
`already_stored = true` with the index of the first entry equal to the pointer. -/
theorem PutPointer_of_mem (self : ChArchive) (object : Nat)
    (h : object ∈ self.objects_pointers) :
    (self.PutPointer object).1 = self ∧ (self.PutPointer object).2.1 = true ∧
    self.objects_pointers[(self.PutPointer object).2.2]? = some object ∧
    ∀ k, k < (self.PutPointer object).2.2 → self.objects_pointers[k]? ≠ some object := by
  unfold ChArchive.PutPointer
  cases hs : ChArchive.PutPointer.scan object self.objects_pointers 0 with
  | none => exact absurd h ((PutPointer_scan_eq_none object _ 0).1 hs)
  | some j =>
    obtain ⟨_, h2, h3⟩ := PutPointer_scan_eq_some object _ 0 j hs
    simp only [Nat.sub_zero] at h2 h3
    exact ⟨rfl, rfl, h2, h3⟩

/-- When the pointer is not stored yet, `PutPointer` appends it, reports
`already_stored = false` and, as position, the index of the entry it has just appended. -/
theorem PutPointer_of_not_mem (self : ChArchive) (object : Nat)
    (h : object ∉ self.objects_pointers) :
    (self.PutPointer object).1.objects_pointers = self.objects_pointers ++ [object] ∧
    (self.PutPointer object).1.use_versions = self.use_versions ∧
    (self.PutPointer object).2.1 = false ∧
    (self.PutPointer object).2.2 = self.objects_pointers.length := by
  unfold ChArchive.PutPointer
  rw [(PutPointer_scan_eq_none object _ 0).2 h]
  simp

/-- C23, at the failing input: on a freshly constructed archive, `PutPointer` with the
pointer 7, which is not stored yet, appends it and reports `already_stored = false` with
position 1, the index of the new entry; the position is not -1, neither as an integer nor
as the `size_t` value `2^64 - 1`. On every archive a new pointer is reported at the index
where it has just been stored. -/
theorem PutPointer_new_pointer_position :
    (ChArchive.new.PutPointer 7).1.objects_pointers = [0, 7] ∧
    (ChArchive.new.PutPointer 7).2.1 = false ∧
    (ChArchive.new.PutPointer 7).2.2 = 1 ∧
    ((ChArchive.new.PutPointer 7).2.2 : Int) ≠ -1 ∧
    (ChArchive.new.PutPointer 7).2.2 ≠ 2 ^ 64 - 1 ∧
    ∀ (self : ChArchive) (object : Nat), object ∉ self.objects_pointers →
      (self.PutPointer object).2.1 = false ∧
      (self.PutPointer object).1.objects_pointers[(self.PutPointer object).2.2]? =
        some object := by
  refine ⟨rfl, rfl, rfl, by decide, by decide, ?_⟩
  intro self object h
  obtain ⟨h1, _, h3, h4⟩ := PutPointer_of_not_mem self object h
  refine ⟨h3, ?_⟩
  rw [h1, h4]
  simp

/-! ### Reading a fixed-size array -/

/-- Entries appended behind a stored pointer do not change what the scan finds. -/
theorem PutPointer_scan_append_of_mem (object : Nat) (l m : List Nat) (i : Nat)
    (h : object ∈ l) :
    ChArchive.PutPointer.scan object (l ++ m) i = ChArchive.PutPointer.scan object l i := by
  induction l generalizing i with
  | nil => simp at h
  | cons p rest ih =>
    simp only [List.cons_append, ChArchive.PutPointer.scan]
    by_cases hp : p = object
    · simp [hp]
    · have hr : object ∈ rest := by
        rcases List.mem_cons.1 h with h1 | h1
        · exact absurd h1.symm hp
        · exact h1
      simp only [hp, if_false]
      exact ih (i + 1) hr

/-- What `PutPointer` leaves in the table: the table itself when the pointer is stored, the
table with the pointer appended otherwise; `use_versions` is kept. -/
theorem PutPointer_objects_pointers (self : ChArchive) (object : Nat) :
    (self.PutPointer object).1.objects_pointers =
      (if object ∈ self.objects_pointers then self.objects_pointers
        else self.objects_pointers ++ [object]) ∧
    (self.PutPointer object).1.use_versions = self.use_versions := by
  by_cases h : object ∈ self.objects_pointers
  · rw [if_pos h, (PutPointer_of_mem self object h).1]
    exact ⟨rfl, rfl⟩
  · rw [if_neg h]
    exact ⟨(PutPointer_of_not_mem self object h).1, (PutPointer_of_not_mem self object h).2.1⟩

/-- After `PutPointer` the pointer is stored. -/
theorem PutPointer_mem (self : ChArchive) (object : Nat) :
    object ∈ (self.PutPointer object).1.objects_pointers := by
  rw [(PutPointer_objects_pointers self object).1]
  by_cases h : object ∈ self.objects_pointers
  · rw [if_pos h]; exact h
  · rw [if_neg h]; simp

/-- In the table left by `PutPointer`, the scan finds the pointer at the position that call
reported. -/
theorem PutPointer_again (self : ChArchive) (object : Nat) :
    ChArchive.PutPointer.scan object (self.PutPointer object).1.objects_pointers 0 =
      some (self.PutPointer object).2.2 := by
  by_cases h : object ∈ self.objects_pointers
  · have h1 := (PutPointer_of_mem self object h).1
    rw [h1]
    unfold ChArchive.PutPointer
    cases hs : ChArchive.PutPointer.scan object self.objects_pointers 0 with
    | none => exact absurd h ((PutPointer_scan_eq_none object _ 0).1 hs)
    | some j => rfl
  · obtain ⟨h1, _, _, h4⟩ := PutPointer_of_not_mem self object h
    rw [h1, h4]
    cases hs : ChArchive.PutPointer.scan object (self.objects_pointers ++ [object]) 0 with
    | none =>
      exact absurd (by simp) ((PutPointer_scan_eq_none object _ 0).1 hs)
    | some j =>
      obtain ⟨_, h2, h3⟩ := PutPointer_scan_eq_some object _ 0 j hs
      simp only [Nat.sub_zero] at h2 h3
      have hlt : j < (self.objects_pointers ++ [object]).length := by
        by_contra hge
        rw [List.getElem?_eq_none (by omega)] at h2
        exact absurd h2 (by simp)
      have hge : ¬ j < self.objects_pointers.length := by
        intro hj
        rw [List.getElem?_append_left hj] at h2
        exact h (List.mem_iff_getElem?.2 ⟨j, h2⟩)
      simp only [List.length_append, List.length_singleton] at hlt
      have : j = self.objects_pointers.length := by omega
      rw [this]

/-- A sequence of `PutPointer` calls only appends to the table and keeps `use_versions`. -/
theorem PutPointers_append (self : ChArchive) (ps : List Nat) :
    (∃ m, (self.PutPointers ps).objects_pointers = self.objects_pointers ++ m) ∧
    (self.PutPointers ps).use_versions = self.use_versions := by
  induction ps generalizing self with
  | nil => exact ⟨⟨[], by simp [ChArchive.PutPointers]⟩, rfl⟩
  | cons object rest ih =>
    obtain ⟨⟨m, hm⟩, hu⟩ := ih (self.PutPointer object).1
    obtain ⟨h1, h2⟩ := PutPointer_objects_pointers self object
    refine ⟨?_, ?_⟩
    · show ∃ m, ((self.PutPointer object).1.PutPointers rest).objects_pointers = _
      rw [hm, h1]
      by_cases h : object ∈ self.objects_pointers
      · rw [if_pos h]; exact ⟨m, rfl⟩
      · rw [if_neg h]; exact ⟨[object] ++ m, by simp⟩
    · show ((self.PutPointer object).1.PutPointers rest).use_versions = _
      rw [hu, h2]

/-- A `PutPointer` call keeps the null pointer at index 0 and keeps the table free of
repetitions. -/
theorem PutPointer_keeps_invariant (self : ChArchive) (object : Nat)
    (h0 : self.objects_pointers[0]? = some 0) (hn : self.objects_pointers.Nodup) :
    (self.PutPointer object).1.objects_pointers[0]? = some 0 ∧
    (self.PutPointer object).1.objects_pointers.Nodup := by
  rw [(PutPointer_objects_pointers self object).1]
  by_cases h : object ∈ self.objects_pointers
  · rw [if_pos h]; exact ⟨h0, hn⟩
  · rw [if_neg h]
    refine ⟨?_, ?_⟩
    · have hlen : 0 < self.objects_pointers.length := by
        by_contra hc
        rw [List.getElem?_eq_none (by omega)] at h0
        exact absurd h0 (by simp)
      rw [List.getElem?_append_left hlen]; exact h0
    · rw [List.nodup_append]
      refine ⟨hn, List.nodup_singleton _, ?_⟩
      intro x hx hx2
      rw [List.mem_singleton] at hx2
      exact h (hx2 ▸ hx)

/-- A sequence of `PutPointer` calls keeps the null pointer at index 0 and keeps the table
free of repetitions. -/
theorem PutPointers_keeps_invariant (self : ChArchive) (ps : List Nat)
    (h0 : self.objects_pointers[0]? = some 0) (hn : self.objects_pointers.Nodup) :
    (self.PutPointers ps).objects_pointers[0]? = some 0 ∧
    (self.PutPointers ps).objects_pointers.Nodup := by
  induction ps generalizing self with
  | nil => exact ⟨h0, hn⟩
  | cons object rest ih =>
    obtain ⟨h1, h2⟩ := PutPointer_keeps_invariant self object h0 hn
    exact ih (self.PutPointer object).1 h1 h2

/-- With the null pointer at index 0, `PutPointer` on the null pointer reports it as stored at
position 0 and leaves the archive as it is. -/
theorem PutPointer_null (self : ChArchive) (h0 : self.objects_pointers[0]? = some 0) :
    self.PutPointer 0 = (self, true, 0) := by
  unfold ChArchive.PutPointer
  cases hl : self.objects_pointers with
  | nil => rw [hl] at h0; simp at h0
  | cons p rest =>
    rw [hl] at h0
    simp only [List.getElem?_cons_zero, Option.some.injEq] at h0
    simp [ChArchive.PutPointer.scan, h0]

/-- A later `PutPointer` with a pointer, after any sequence of `PutPointer` calls that
followed an earlier call with that pointer, reports it as stored at the position the earlier
call reported and leaves the archive as it is. -/
theorem PutPointer_later (self : ChArchive) (object : Nat) (qs : List Nat) :
    ((self.PutPointer object).1.PutPointers qs).PutPointer object =
      ((self.PutPointer object).1.PutPointers qs, true, (self.PutPointer object).2.2) := by
  obtain ⟨⟨m, hm⟩, _⟩ := PutPointers_append (self.PutPointer object).1 qs
  have hs : ChArchive.PutPointer.scan object
      ((self.PutPointer object).1.PutPointers qs).objects_pointers 0 =
      some (self.PutPointer object).2.2 := by
    rw [hm, PutPointer_scan_append_of_mem object _ m 0 (PutPointer_mem self object)]
    exact PutPointer_again self object
  generalize (self.PutPointer object).1.PutPointers qs = t at hs
  generalize (self.PutPointer object).2.2 = pos at hs
  unfold ChArchive.PutPointer
  rw [hs]

/-- C31: construction is `Init` on an empty table with `use_versions = true`; after `Init`
(hence after construction) and any sequence of `PutPointer` calls, the table has the null
pointer at index 0 and holds no pointer twice. A `PutPointer` call at that point, followed by
any further sequence of `PutPointer` calls, makes every later `PutPointer` with the same
pointer report `already_stored = true` at the same position, which holds that pointer, and
leave the archive as it is; `PutPointer` on the null pointer reports `already_stored = true`
at position 0 and leaves the archive, so the length of the table, as it is. -/
theorem PutPointers_invariant (a : ChArchive) (ps : List Nat) :
    let s := (ChArchive.Init a).PutPointers ps
    ChArchive.new = ChArchive.Init { objects_pointers := [], use_versions := true } ∧
    (ChArchive.new.PutPointers ps).objects_pointers[0]? = some 0 ∧
    (ChArchive.new.PutPointers ps).objects_pointers.Nodup ∧
    s.objects_pointers[0]? = some 0 ∧
    s.objects_pointers.Nodup ∧
    (∀ (object : Nat) (qs : List Nat),
      let first := s.PutPointer object
      let later := (first.1.PutPointers qs).PutPointer object
      later.2.1 = true ∧ later.2.2 = first.2.2 ∧
      later.1 = first.1.PutPointers qs ∧
      (first.1.PutPointers qs).objects_pointers[first.2.2]? = some object) ∧
    (s.PutPointer 0).1 = s ∧ (s.PutPointer 0).2.1 = true ∧ (s.PutPointer 0).2.2 = 0 ∧
    (s.PutPointer 0).1.objects_pointers.length = s.objects_pointers.length := by
  intro s
  have hinit : ∀ b : ChArchive, (ChArchive.Init b).objects_pointers[0]? = some 0 ∧
      (ChArchive.Init b).objects_pointers.Nodup := by
    intro b
    have hl : (ChArchive.Init b).objects_pointers = [0] := rfl
    rw [hl]
    exact ⟨rfl, List.nodup_singleton 0⟩
  obtain ⟨hs0, hsn⟩ := PutPointers_keeps_invariant (ChArchive.Init a) ps
    (hinit a).1 (hinit a).2
  obtain ⟨hn0, hnn⟩ := PutPointers_keeps_invariant
    (ChArchive.Init { objects_pointers := [], use_versions := true }) ps
    (hinit _).1 (hinit _).2
  have hnull := PutPointer_null s hs0
  refine ⟨rfl, hn0, hnn, hs0, hsn, ?_, ?_, ?_, ?_, ?_⟩
  · intro object qs first later
    have hl : later = (first.1.PutPointers qs, true, first.2.2) :=
      PutPointer_later s object qs
    refine ⟨by rw [hl], by rw [hl], by rw [hl], ?_⟩
    have hscan : ChArchive.PutPointer.scan object
        (first.1.PutPointers qs).objects_pointers 0 = some first.2.2 := by
      obtain ⟨⟨m, hm⟩, _⟩ := PutPointers_append first.1 qs
      rw [hm, PutPointer_scan_append_of_mem object _ m 0 (PutPointer_mem s object)]
      exact PutPointer_again s object
    have := (PutPointer_scan_eq_some object _ 0 _ hscan).2.1
    simpa using this
  · rw [hnull]
  · rw [hnull]
  · rw [hnull]
  · rw [hnull]

end Theorems

end chrono
